import Mathlib

/-!
# macbroom: scan / snapshot / clean pipeline

A shallow embedding of the parts of `internal/scanner`, `internal/cli`, `internal/history`
and `internal/tui` that the specification talks about, followed by theorems about them.

Conventions of the embedding

* Go `error` values are modelled by their message (`String`); `nil` is `none`.
* A Go slice of Targets is a `List Target`; the `nil` slice is `[]` (the code below never
  builds an empty non-nil slice: slices only grow through `append`).
* `int64` and `int` values are modelled as `Int`. Where the commands add byte counts
  (`totalSize`, `cr.bytes`, `cs.Size`) the sum is reduced to the range of `int64` by
  `wrapInt64`, as Go does on overflow; item counters count the elements of a slice, whose
  length is an `int`, and stay in range.
* External collaborators (executable lookup, command runner, context, filesystem, trash,
  snapshot store, history store, clock, prompts) are functions over an abstract world
  state `σ`; every invocation is also written to a call log so that "is not invoked" can
  be stated.
* Command output (`[]byte`) is read as text, a sequence of Unicode code points.
-/

namespace Macbroom

/-! ## Strings (`strings` package of the Go standard library) -/

/-- White space as `unicode.IsSpace` defines it. -/
def isSpace (c : Char) : Bool :=
  let n := c.toNat
  n == 0x09 || n == 0x0A || n == 0x0B || n == 0x0C || n == 0x0D || n == 0x20 ||
  n == 0x85 || n == 0xA0 || n == 0x1680 || (0x2000 ≤ n && n ≤ 0x200A) ||
  n == 0x2028 || n == 0x2029 || n == 0x202F || n == 0x205F || n == 0x3000

/-- Go `strings.TrimSpace` on a list of code points. -/
def trimSpaceChars (cs : List Char) : List Char :=
  ((cs.dropWhile isSpace).reverse.dropWhile isSpace).reverse

/-- Go `strings.TrimSpace`. -/
def TrimSpace (s : String) : String :=
  String.mk (trimSpaceChars s.data)

/-- Go `strings.Split(s, sep)` for a one-character separator, on code points.
The result is never empty: an input without separator is returned whole. -/
def splitChars (sep : Char) : List Char → List (List Char)
  | [] => [[]]
  | c :: cs =>
    if c = sep then [] :: splitChars sep cs
    else
      match splitChars sep cs with
      | [] => [[c]]
      | h :: t => (c :: h) :: t

/-- Go `strings.Split(s, "\n")`. -/
def SplitLines (s : String) : List String :=
  (splitChars '\n' s.data).map String.mk

/-- Go `strings.SplitN(s, sep, 2)` for a one-character separator, on code points:
cut at the first separator only. -/
def splitN2Chars (sep : Char) : List Char → List (List Char)
  | [] => [[]]
  | c :: cs =>
    if c = sep then [[], cs]
    else
      match splitN2Chars sep cs with
      | [] => [[c]]
      | h :: t => (c :: h) :: t

/-- Go `strings.SplitN(s, "\t", 2)`. -/
def SplitN2Tab (s : String) : List String :=
  (splitN2Chars '\t' s.data).map String.mk

/-! ## Machine integers -/

/-- The value an `int64` variable holds after an addition whose mathematical result is `x`:
Go integer arithmetic wraps around on overflow, in two's complement. -/
def wrapInt64 (x : Int) : Int :=
  (x + 9223372036854775808) % 18446744073709551616 - 9223372036854775808

/-! ## Target model (`internal/scanner`) -/

/-- Three-level risk classification. -/
inductive RiskLevel
  | Safe
  | Moderate
  | Dangerous
  deriving DecidableEq, Repr

/-- Instants of `time.Time`, as an integer; `0` stands for the zero value. -/
abbrev Time := Int

/-- One reclaimable unit. -/
structure Target where
  Path : String
  Size : Int := 0
  Category : String
  Description : String
  Risk : RiskLevel
  ModTime : Time := 0
  IsDir : Bool := false
  deriving DecidableEq, Repr

/-! ## The world of a scanner -/

/-- What `os.FileInfo` tells about a directory entry. -/
structure FileInfo where
  Size : Int
  IsDir : Bool
  ModTime : Time
  deriving DecidableEq, Repr

/-- One `os.DirEntry`: its name and the outcome of `entry.Info()`. -/
structure DirEntry where
  Name : String
  Info : Except String FileInfo

/-- The record a line of the `docker system df` output is decoded into (`Type_` is the
field `Type` of the source). -/
structure DfRecord where
  Type_ : String
  Reclaimable : String
  Size : String
  deriving DecidableEq, Repr

/-- One device of `simctlOutput`. -/
structure simctlDeviceInfo where
  UDID : String
  Name : String
  State : String
  IsAvailable : Bool
  deriving DecidableEq, Repr

/-- An invocation of an external collaborator by a scanner. -/
inductive Call
  | lookPath (file : String)
  | runCmd (name : String) (args : List String)
  | dirExists (dir : String)
  | readDir (dir : String)
  | dirSize (path : String)
  deriving DecidableEq, Repr

/-- Is the call an invocation of the external command runner? -/
def Call.isRunCmd : Call → Bool
  | .runCmd _ _ => true
  | _ => false

/-- Is the call a filesystem access (`utils.DirExists`, `os.ReadDir`, `utils.DirSize`)? -/
def Call.isFilesystem : Call → Bool
  | .dirExists _ => true
  | .readDir _ => true
  | .dirSize _ => true
  | _ => false

/-- Order in which a Go `range` statement visits the entries of a map: some rearrangement
of the entries, not fixed by the language. -/
structure RangeOrder where
  order : {α : Type} → List α → List α
  perm : ∀ {α : Type} (l : List α), (order l).Perm l

/-- The visiting order that follows insertion order. -/
def RangeOrder.insertion : RangeOrder where
  order := fun l => l
  perm := fun l => List.Perm.refl l

/-- The visiting order that reverses insertion order. -/
def RangeOrder.reversed : RangeOrder where
  order := fun l => l.reverse
  perm := fun l => List.reverse_perm l

/-- Everything outside the scanner that a scan depends on, over a world state `σ`.
`lookPath` and `runCmd` are the two function-valued fields of the scanner structs;
`ctxErr` is `ctx.Err()` (`ctx.Done()` is closed exactly when it is not `nil`);
`decodeDf` and `decodeSimctl` are `json.Unmarshal` at the two record types (the decoded
`devices` map is given as its list of entries); `joinPath` is `filepath.Join`;
`libraryPath` is `utils.LibraryPath`. -/
structure ScanEnv (σ : Type) where
  lookPath : String → σ → Except String String × σ
  runCmd : String → List String → σ → Except String String × σ
  ctxErr : σ → Option String
  dirExists : String → σ → Bool × σ
  readDir : String → σ → Except String (List DirEntry) × σ
  dirSize : String → σ → Int × σ
  joinPath : List String → String
  libraryPath : String → String
  decodeDf : String → Option DfRecord
  decodeSimctl : String → Except String (List (String × List simctlDeviceInfo))
  rangeOrder : RangeOrder

/-- What a `Scan` call returns (`targets`, `err`) together with the calls it made, in
order, and the world it leaves. -/
structure ScanOutcome (σ : Type) where
  targets : List Target
  err : Option String
  calls : List Call
  state : σ

/-! ## DockerScanner (`internal/scanner/docker.go`) -/

namespace DockerScanner

/-- Arguments of the dangling-image query. -/
def imagesArgs : List String :=
  ["images", "-f", "dangling=true", "--format", "\x7b\x7b.ID\x7d\x7d\t\x7b\x7b.Size\x7d\x7d"]

/-- Arguments of the disk-usage query. -/
def dfArgs : List String :=
  ["system", "df", "--format", "\x7b\x7bjson .\x7d\x7d"]

/-- Body of the first `for` loop of `Scan`: one line of the image listing. -/
def imageStep (targets : List Target) (line : String) : List Target :=
  if line = "" then targets
  else
    let parts := SplitN2Tab line
    let desc := "Dangling image"
    let desc := if parts.length > 1 then desc ++ " (" ++ TrimSpace (parts.getD 1 "") ++ ")" else desc
    targets ++ [{ Path := "docker image " ++ parts.getD 0 "",
                  Description := desc,
                  Category := "Docker",
                  Risk := RiskLevel.Moderate }]

/-- Body of the second `for` loop of `Scan`: one line of the `system df` output. -/
def dfStep (decodeDf : String → Option DfRecord) (targets : List Target) (line : String) :
    List Target :=
  if line = "" then targets
  else
    match decodeDf line with
    | some df =>
      if df.Type_ = "Build Cache" then
        targets ++ [{ Path := "docker build cache",
                      Description := "Build cache (" ++ df.Size ++ ", " ++ df.Reclaimable ++ " reclaimable)",
                      Category := "Docker",
                      Risk := RiskLevel.Safe }]
      else targets
    | none => targets

/-- `(*DockerScanner).Scan`. -/
def Scan {σ : Type} (env : ScanEnv σ) (s0 : σ) : ScanOutcome σ :=
  match env.lookPath "docker" s0 with
  | (.error _, s1) => ⟨[], none, [.lookPath "docker"], s1⟩
  | (.ok _, s1) =>
    match env.runCmd "docker" imagesArgs s1 with
    | (.error _, s2) =>
      match env.ctxErr s2 with
      | some e => ⟨[], some e, [.lookPath "docker", .runCmd "docker" imagesArgs], s2⟩
      | none => ⟨[], none, [.lookPath "docker", .runCmd "docker" imagesArgs], s2⟩
    | (.ok out, s2) =>
      let targets := (SplitLines (TrimSpace out)).foldl imageStep []
      match env.runCmd "docker" dfArgs s2 with
      | (.error _, s3) =>
        match env.ctxErr s3 with
        | some e =>
          ⟨[], some e, [.lookPath "docker", .runCmd "docker" imagesArgs, .runCmd "docker" dfArgs], s3⟩
        | none =>
          ⟨targets, none, [.lookPath "docker", .runCmd "docker" imagesArgs, .runCmd "docker" dfArgs], s3⟩
      | (.ok out2, s3) =>
        let targets := (SplitLines (TrimSpace out2)).foldl (dfStep env.decodeDf) targets
        ⟨targets, none, [.lookPath "docker", .runCmd "docker" imagesArgs, .runCmd "docker" dfArgs], s3⟩

end DockerScanner

/-! ## SimulatorScanner (`internal/scanner/simulator.go`) -/

namespace SimulatorScanner

/-- `(*SimulatorScanner).base`. -/
def base {σ : Type} (env : ScanEnv σ) (libraryBase : String) : String :=
  if libraryBase ≠ "" then libraryBase else env.libraryPath ""

/-- Loop state of `scanDir`: the Targets so far, the calls made so far, the world. -/
structure DirAcc (σ : Type) where
  targets : List Target
  calls : List Call
  state : σ

/-- Body of the `for` loop of `scanDir`: one directory entry. -/
def scanDirStep {σ : Type} (env : ScanEnv σ) (dir description : String) (risk : RiskLevel)
    (acc : DirAcc σ) (entry : DirEntry) : DirAcc σ :=
  let entryPath := env.joinPath [dir, entry.Name]
  match entry.Info with
  | .error _ => acc
  | .ok info =>
    let sized : Int × List Call × σ :=
      if info.IsDir then
        let r := env.dirSize entryPath acc.state
        (r.1, acc.calls ++ [.dirSize entryPath], r.2)
      else (info.Size, acc.calls, acc.state)
    if sized.1 = 0 then ⟨acc.targets, sized.2.1, sized.2.2⟩
    else
      ⟨acc.targets ++ [{ Path := entryPath,
                         Size := sized.1,
                         Category := "iOS Simulators",
                         Description := description,
                         Risk := risk,
                         ModTime := info.ModTime,
                         IsDir := info.IsDir }],
       sized.2.1, sized.2.2⟩

/-- `(*SimulatorScanner).scanDir`; its error result is `nil` on every path. -/
def scanDir {σ : Type} (env : ScanEnv σ) (dir description : String) (risk : RiskLevel)
    (s0 : σ) : ScanOutcome σ :=
  match env.dirExists dir s0 with
  | (false, s1) => ⟨[], none, [.dirExists dir], s1⟩
  | (true, s1) =>
    match env.readDir dir s1 with
    | (.error _, s2) => ⟨[], none, [.dirExists dir, .readDir dir], s2⟩
    | (.ok entries, s2) =>
      let acc := entries.foldl (scanDirStep env dir description risk)
        ⟨[], [.dirExists dir, .readDir dir], s2⟩
      ⟨acc.targets, none, acc.calls, acc.state⟩

/-- Arguments of the unavailable-device query. -/
def simctlArgs : List String :=
  ["simctl", "list", "devices", "unavailable", "-j"]

/-- Body of the inner `for` loop of `findUnavailableDevices`: one device of a runtime. -/
def deviceStep (runtime : String) (targets : List Target) (dev : simctlDeviceInfo) :
    List Target :=
  targets ++ [{ Path := "simulator " ++ dev.UDID,
                Description := "Unavailable simulator: " ++ dev.Name ++ " (" ++ runtime ++ ")",
                Category := "iOS Simulators",
                Risk := RiskLevel.Moderate }]

/-- Body of the outer `for` loop of `findUnavailableDevices`: one runtime of the map. -/
def runtimeStep (targets : List Target) (kv : String × List simctlDeviceInfo) : List Target :=
  kv.2.foldl (deviceStep kv.1) targets

/-- `(*SimulatorScanner).findUnavailableDevices`. -/
def findUnavailableDevices {σ : Type} (env : ScanEnv σ) (s0 : σ) : ScanOutcome σ :=
  match env.runCmd "xcrun" simctlArgs s0 with
  | (.error e, s1) =>
    ⟨[], some ("failed to list unavailable simulators: " ++ e), [.runCmd "xcrun" simctlArgs], s1⟩
  | (.ok out, s1) =>
    match env.decodeSimctl out with
    | .error e =>
      ⟨[], some ("failed to parse simctl output: " ++ e), [.runCmd "xcrun" simctlArgs], s1⟩
    | .ok devices =>
      ⟨(env.rangeOrder.order devices).foldl runtimeStep [], none,
        [.runCmd "xcrun" simctlArgs], s1⟩

/-- `(*SimulatorScanner).Scan`, for a scanner whose `libraryBase` field is `libraryBase`. -/
def Scan {σ : Type} (env : ScanEnv σ) (libraryBase : String) (s0 : σ) : ScanOutcome σ :=
  match env.lookPath "xcrun" s0 with
  | (.error _, s1) => ⟨[], none, [.lookPath "xcrun"], s1⟩
  | (.ok _, s1) =>
    let calls : List Call := [.lookPath "xcrun"]
    match env.ctxErr s1 with
    | some e => ⟨[], some e, calls, s1⟩
    | none =>
      let devicesDir := env.joinPath [base env libraryBase, "Developer", "CoreSimulator", "Devices"]
      let dev := scanDir env devicesDir "Simulator device data" RiskLevel.Moderate s1
      let calls := calls ++ dev.calls
      match dev.err with
      | some e => ⟨[], some e, calls, dev.state⟩
      | none =>
        let targets := dev.targets
        match env.ctxErr dev.state with
        | some e => ⟨[], some e, calls, dev.state⟩
        | none =>
          let cachesDir := env.joinPath [base env libraryBase, "Developer", "CoreSimulator", "Caches"]
          let cache := scanDir env cachesDir "Simulator cache" RiskLevel.Safe dev.state
          let calls := calls ++ cache.calls
          match cache.err with
          | some e => ⟨[], some e, calls, cache.state⟩
          | none =>
            let targets := targets ++ cache.targets
            match env.ctxErr cache.state with
            | some e => ⟨[], some e, calls, cache.state⟩
            | none =>
              let un := findUnavailableDevices env cache.state
              let calls := calls ++ un.calls
              match un.err with
              | some _ =>
                match env.ctxErr un.state with
                | some e => ⟨[], some e, calls, un.state⟩
                | none => ⟨targets, none, calls, un.state⟩
              | none => ⟨targets ++ un.targets, none, calls, un.state⟩

end SimulatorScanner

/-! ## Go maps with string keys -/

/-- The entry of key `k`, if any (`m[k]` with its presence flag). -/
def mapGet? {β : Type} (k : String) : List (String × β) → Option β
  | [] => none
  | (k', v) :: rest => if k' = k then some v else mapGet? k rest

/-- Read the entry of key `k` (absent: `none`), store `f` of it under `k`. A new key goes
to the end, so the list keeps the order in which keys were first stored. -/
def mapAlter {β : Type} (k : String) (f : Option β → β) : List (String × β) → List (String × β)
  | [] => [(k, f none)]
  | (k', v) :: rest =>
    if k' = k then (k', f (some v)) :: rest else (k', v) :: mapAlter k f rest

/-! ## Snapshots (`internal/scancache`, as used by `internal/cli/scan.go`) -/

/-- Per-category aggregate of one scan. -/
structure CategorySnapshot where
  Name : String
  Size : Int := 0
  Items : Int := 0
  deriving DecidableEq, Repr

/-- Aggregated view of one completed scan. -/
structure Snapshot where
  Timestamp : Time
  Categories : List CategorySnapshot
  TotalSize : Int
  deriving DecidableEq, Repr

/-- Signed change of one category between two snapshots. -/
structure CategoryDiff where
  Name : String
  SizeDelta : Int
  ItemsDelta : Int
  deriving DecidableEq, Repr

/-- Per-category signed deltas plus the overall delta. -/
structure DiffResult where
  Categories : List CategoryDiff
  TotalDelta : Int
  deriving DecidableEq, Repr

/-- The aggregate a snapshot holds for category `name`, if it holds one. -/
def Snapshot.lookup (s : Snapshot) (name : String) : Option CategorySnapshot :=
  s.Categories.find? (fun c => c.Name = name)

/-- Modelled from the spec: `scancache.Diff`, whose source is not part of the files at hand
(only its call in `scan.go` is). Spec §4.4: "for the union of category names across both
snapshots, compute ΔSize = current.Size − previous.Size and ΔItems = current.Items −
previous.Items, treating a missing side as zero. Also compute overall ΔTotalSize." -/
def Diff (prev curr : Snapshot) : DiffResult :=
  let names := (prev.Categories.map (·.Name) ++ curr.Categories.map (·.Name)).dedup
  let side : Snapshot → String → CategorySnapshot := fun s n =>
    (s.lookup n).getD { Name := n, Size := 0, Items := 0 }
  { Categories := names.map fun n =>
      { Name := n,
        SizeDelta := (side curr n).Size - (side prev n).Size,
        ItemsDelta := (side curr n).Items - (side prev n).Items },
    TotalDelta := curr.TotalSize - prev.TotalSize }

/-! ## History entries (`internal/history`, as used by `internal/cli/clean.go`) -/

/-- One durable record of a cleanup of one category. -/
structure Entry where
  Timestamp : Time
  Category : String
  Items : Int
  BytesFreed : Int
  Method : String
  deriving DecidableEq, Repr

/-! ## The world of a command (`internal/cli`) -/

/-- The flags of `scan` that select categories (`CategoryFilter`). -/
structure CategoryFilter where
  System : Bool := false
  Browser : Bool := false
  Xcode : Bool := false
  Large : Bool := false
  Docker : Bool := false
  Node : Bool := false
  Homebrew : Bool := false
  Simulator : Bool := false
  Python : Bool := false
  Rust : Bool := false
  Go : Bool := false
  JetBrains : Bool := false
  Maven : Bool := false
  Gradle : Bool := false
  Ruby : Bool := false
  Dev : Bool := false
  Caches : Bool := false
  All : Bool := false
  deriving DecidableEq, Repr

/-- The flags of `clean` (the package-level variables `cleanPermanent` ... `cleanSimulator`). -/
structure CleanFlags where
  cleanPermanent : Bool := false
  cleanYes : Bool := false
  cleanDryRun : Bool := false
  cleanSystem : Bool := false
  cleanBrowser : Bool := false
  cleanXcode : Bool := false
  cleanLarge : Bool := false
  cleanDocker : Bool := false
  cleanNode : Bool := false
  cleanHomebrew : Bool := false
  cleanSimulator : Bool := false
  deriving DecidableEq, Repr

/-- What a command does that is visible outside of it: what it prints (one constructor per
print statement, carrying the values that are formatted) and the collaborators it invokes
(with what they answered). -/
inductive CliEvent
  | println (s : String)
  | printScanResults (targets : List Target) (diff : Option DiffResult)
  | printDryRun (action : String) (items : Int) (totalSize : Int)
  | printYoloWarning
  | confirmDangerous (items : Int) (totalSize : Int) (answer : Bool)
  | confirmAction (items : Int) (totalSize : Int) (answer : Bool)
  | PermanentDelete (path : String) (err : Option String)
  | MoveToTrash (path : String) (err : Option String)
  | printFailed (path : String) (err : String)
  | printCleaned (cleaned : Int) (totalSize : Int)
  | printFailedCount (failed : Int)
  | Record (e : Entry) (err : Option String)
  | Load (result : Except String Snapshot)
  | Save (snapshot : Snapshot) (err : Option String)

/-- Everything outside the commands that they depend on, over a world state `σ`.
`scanSelected` is `scanWithCategories(buildEngine(), selectedCategories(...))` of `clean`
(given the eight category flags in source order), `scanFiltered` the same of `scan` (given
the filter and the exclusion list in force); `confirmDangerous` and `confirmAction` are
given the item count and byte total of their prompt; `PermanentDelete` and `MoveToTrash`
are those of package `trash`; `Record` is `history.New(history.DefaultPath()).Record`;
`Load` and `Save` are those of package `scancache` at `scancache.DefaultPath()`;
`now` is `time.Now()`. -/
structure CliWorld (σ : Type) where
  scanSelected : List Bool → σ → Except String (List Target) × σ
  scanFiltered : CategoryFilter → List String → σ → Except String (List Target) × σ
  shouldSkipConfirm : Bool → Bool
  confirmDangerous : Int → Int → σ → Bool × σ
  confirmAction : Int → Int → σ → Bool × σ
  PermanentDelete : String → σ → Option String × σ
  MoveToTrash : String → σ → Option String × σ
  Record : Entry → σ → Option String × σ
  Load : σ → Except String Snapshot × σ
  Save : Snapshot → σ → Option String × σ
  now : σ → Time × σ
  rangeOrder : RangeOrder

/-- What `RunE` returns together with what the command did and the world it leaves. -/
structure CmdOutcome (σ : Type) where
  err : Option String
  events : List CliEvent
  state : σ

/-- The loop `for _, t := range targets { totalSize += t.Size }` over the `int64`
variable `totalSize`. -/
def totalSize (targets : List Target) : Int :=
  targets.foldl (fun acc t => wrapInt64 (acc + t.Size)) 0

/-! ## The clean command (`internal/cli/clean.go`) -/

/-- The local type `catResult` of `cleanCmd`. -/
structure catResult where
  items : Int := 0
  bytes : Int := 0
  deriving DecidableEq, Repr

/-- State of the delete loop of `cleanCmd`. -/
structure CleanAcc (σ : Type) where
  cleaned : Int
  failed : Int
  byCategory : List (String × catResult)
  events : List CliEvent
  state : σ

/-- Body of the delete loop of `cleanCmd`: one Target. `cr.bytes` is an `int64`; the
counters `cleaned`, `failed` and `cr.items` count elements of a slice, whose length is an
`int`, and cannot overflow. -/
def cleanStep {σ : Type} (w : CliWorld σ) (permanent : Bool) (acc : CleanAcc σ) (t : Target) :
    CleanAcc σ :=
  let r := if permanent then w.PermanentDelete t.Path acc.state else w.MoveToTrash t.Path acc.state
  let call := if permanent then CliEvent.PermanentDelete t.Path r.1 else CliEvent.MoveToTrash t.Path r.1
  match r.1 with
  | some e =>
    { cleaned := acc.cleaned,
      failed := acc.failed + 1,
      byCategory := acc.byCategory,
      events := acc.events ++ [call, CliEvent.printFailed t.Path e],
      state := r.2 }
  | none =>
    { cleaned := acc.cleaned + 1,
      failed := acc.failed,
      byCategory := mapAlter t.Category
        (fun o => let cr := o.getD {}
                  { items := cr.items + 1, bytes := wrapInt64 (cr.bytes + t.Size) })
        acc.byCategory,
      events := acc.events ++ [call],
      state := r.2 }

/-- Body of the history loop of `cleanCmd`: one entry of `byCategory`. -/
def recordStep {σ : Type} (w : CliWorld σ) (now : Time) (method : String)
    (acc : List CliEvent × σ) (kv : String × catResult) : List CliEvent × σ :=
  let e : Entry :=
    { Timestamp := now, Category := kv.1, Items := kv.2.items, BytesFreed := kv.2.bytes,
      Method := method }
  let r := w.Record e acc.2
  (acc.1 ++ [CliEvent.Record e r.1], r.2)

/-- Everything of `cleanCmd.RunE` from the delete loop on, for an approved Target list. -/
def cleanApproved {σ : Type} (w : CliWorld σ) (permanent : Bool) (targets : List Target)
    (events : List CliEvent) (s : σ) : CmdOutcome σ :=
  let acc := targets.foldl (cleanStep w permanent) ⟨0, 0, [], events, s⟩
  let events := acc.events ++ [CliEvent.printCleaned acc.cleaned (totalSize targets)]
  let events := if acc.failed > 0 then events ++ [CliEvent.printFailedCount acc.failed] else events
  let events := events ++ [CliEvent.println ""]
  let method := if permanent then "permanent" else "trash"
  let n := w.now acc.state
  let rec_ := (w.rangeOrder.order acc.byCategory).foldl (recordStep w n.1 method) (events, n.2)
  ⟨none, rec_.1, rec_.2⟩

/-- `cleanCmd.RunE`. -/
def cleanCmd {σ : Type} (w : CliWorld σ) (f : CleanFlags) (s0 : σ) : CmdOutcome σ :=
  let events := [CliEvent.println "Scanning..."]
  match w.scanSelected [f.cleanSystem, f.cleanBrowser, f.cleanXcode, f.cleanLarge, f.cleanDocker,
      f.cleanNode, f.cleanHomebrew, f.cleanSimulator] s0 with
  | (.error e, s1) => ⟨some ("scan failed: " ++ e), events, s1⟩
  | (.ok targets, s1) =>
    if targets.length = 0 then ⟨none, events ++ [CliEvent.println "Nothing to clean!"], s1⟩
    else
      let events := events ++ [CliEvent.printScanResults targets none]
      let total := totalSize targets
      if f.cleanDryRun then
        let action := if f.cleanPermanent then "permanently delete" else "move"
        ⟨none, events ++ [CliEvent.printDryRun action targets.length total,
                          CliEvent.println "[DRY RUN] No files were deleted."], s1⟩
      else
        let events := events ++ [CliEvent.printYoloWarning]
        if ¬ w.shouldSkipConfirm f.cleanYes then
          if f.cleanPermanent then
            let r := w.confirmDangerous targets.length total s1
            let events := events ++ [CliEvent.confirmDangerous targets.length total r.1]
            if ¬ r.1 then ⟨none, events ++ [CliEvent.println "Cancelled."], r.2⟩
            else cleanApproved w f.cleanPermanent targets events r.2
          else
            let r := w.confirmAction targets.length total s1
            let events := events ++ [CliEvent.confirmAction targets.length total r.1]
            if ¬ r.1 then ⟨none, events ++ [CliEvent.println "Cancelled."], r.2⟩
            else cleanApproved w f.cleanPermanent targets events r.2
        else cleanApproved w f.cleanPermanent targets events s1

/-! ## The scan command (`internal/cli/scan.go`) -/

/-- Body of the grouping loop of `scanCmd`: one Target. `cs.Size` is an `int64`;
`cs.Items` counts elements of a slice and cannot overflow. -/
def groupStep (grouped : List (String × CategorySnapshot)) (t : Target) :
    List (String × CategorySnapshot) :=
  mapAlter t.Category
    (fun o => let cs := o.getD { Name := t.Category }
              { Name := cs.Name, Size := wrapInt64 (cs.Size + t.Size), Items := cs.Items + 1 })
    grouped

/-- The snapshot `curr` that `scanCmd` builds from the Targets of a scan taken at `now`. -/
def buildSnapshot (ro : RangeOrder) (now : Time) (targets : List Target) : Snapshot :=
  let grouped := targets.foldl groupStep []
  let cats2 := (ro.order grouped).foldl (fun acc kv => acc ++ [kv.2]) []
  { Timestamp := now, Categories := cats2, TotalSize := totalSize targets }

/-- `scanCmd.RunE`, with `scanFilter`, `scanExclude` and `appConfig.Exclude` as arguments. -/
def scanCmd {σ : Type} (w : CliWorld σ) (scanFilter : CategoryFilter)
    (scanExclude configExclude : List String) (s0 : σ) : CmdOutcome σ :=
  let exclude := if scanExclude.length > 0 then configExclude ++ scanExclude else configExclude
  let events := [CliEvent.println "Scanning..."]
  match w.scanFiltered scanFilter exclude s0 with
  | (.error e, s1) => ⟨some ("scan failed: " ++ e), events, s1⟩
  | (.ok targets, s1) =>
    let prev := w.Load s1
    let events := events ++ [CliEvent.Load prev.1]
    let n := w.now prev.2
    let curr := buildSnapshot w.rangeOrder n.1 targets
    let diff : Option DiffResult :=
      match prev.1 with
      | .ok p => some (Diff p curr)
      | .error _ => none
    let events := events ++ [CliEvent.printScanResults targets diff]
    let r := w.Save curr n.2
    ⟨none, events ++ [CliEvent.Save curr r.1], r.2⟩

/-! ## Vocabulary of the statements -/

/-- The image Target the specification assigns to one line of the dangling-image listing:
id before the first tab, size text after it. -/
def imageTarget (line : String) : Target :=
  let parts := SplitN2Tab line
  { Path := "docker image " ++ parts.getD 0 "",
    Description :=
      if parts.length > 1 then "Dangling image (" ++ TrimSpace (parts.getD 1 "") ++ ")"
      else "Dangling image",
    Category := "Docker",
    Risk := RiskLevel.Moderate }

/-- The non-empty lines of a whitespace-trimmed command output, in order. -/
def nonEmptyLines (out : String) : List String :=
  (SplitLines (TrimSpace out)).filter (fun l => decide (l ≠ ""))

/-- The records of type `Build Cache` among the decodable lines of a `system df` output. -/
def buildCacheRecords (decodeDf : String → Option DfRecord) (out : String) : List DfRecord :=
  (nonEmptyLines out).filterMap fun l =>
    (decodeDf l).bind fun df => if df.Type_ = "Build Cache" then some df else none

/-- The build-cache Target the specification assigns to a `Build Cache` record. -/
def buildCacheTarget (df : DfRecord) : Target :=
  { Path := "docker build cache",
    Description := "Build cache (" ++ df.Size ++ ", " ++ df.Reclaimable ++ " reclaimable)",
    Category := "Docker",
    Risk := RiskLevel.Safe }

/-- A cancelled context stays cancelled, with the same error, whatever the executable
lookup and the command runner do to the world (`ctx.Err()`: "successive calls return the
same value"). -/
def CtxSticky {σ : Type} (env : ScanEnv σ) : Prop :=
  ∀ (s : σ) (e : String), env.ctxErr s = some e →
    (∀ file, env.ctxErr (env.lookPath file s).2 = some e) ∧
    (∀ name args, env.ctxErr (env.runCmd name args s).2 = some e)

/-! ## Sample worlds -/

/-- The only line the sample decoder understands. -/
def sampleDfLine : String :=
  "\x7b\"Type\":\"Build Cache\",\"Size\":\"2.5GB\",\"Reclaimable\":\"1.8GB (72%)\"\x7d"

/-- A world without filesystem content in which every lookup succeeds, the image listing
has two lines and `system df` reports a build cache; the world state counts the commands
run, and the context is cancelled from `cancelAt` commands on (the runner notices this
only if `heed` is set). -/
def sampleEnv (installed heed : Bool) (cancelAt : Nat) : ScanEnv Nat where
  lookPath := fun _ s => if installed then (.ok "/usr/local/bin/tool", s) else (.error "not found", s)
  runCmd := fun _ args s =>
    if heed && decide (cancelAt ≤ s + 1) then (.error "context canceled", s + 1)
    else if args.contains "dangling=true" then (.ok "abc123\t1.2GB\ndef456\t500MB\n", s + 1)
    else if args.contains "df" then (.ok sampleDfLine, s + 1)
    else (.ok "", s + 1)
  ctxErr := fun s => if cancelAt ≤ s then some "context canceled" else none
  dirExists := fun _ s => (false, s)
  readDir := fun _ s => (.error "no such directory", s)
  dirSize := fun _ s => (0, s)
  joinPath := fun l => "/".intercalate l
  libraryPath := fun _ => "/Users/u/Library"
  decodeDf := fun l =>
    if l = sampleDfLine then some { Type_ := "Build Cache", Reclaimable := "1.8GB (72%)", Size := "2.5GB" }
    else none
  decodeSimctl := fun _ => .ok []
  rangeOrder := RangeOrder.insertion

/-- The delete primitive an event invokes, if it is such an invocation: whether it is
`PermanentDelete` (else `MoveToTrash`), the path passed, the error returned. -/
def CliEvent.deleteCall? : CliEvent → Option (Bool × String × Option String)
  | .PermanentDelete path err => some (true, path, err)
  | .MoveToTrash path err => some (false, path, err)
  | _ => none

/-- The invocations of the delete primitives among the events of a run, in order. -/
def deleteCalls (events : List CliEvent) : List (Bool × String × Option String) :=
  events.filterMap CliEvent.deleteCall?

/-- The history entry an event records, if it is a call of `Record`. -/
def CliEvent.recorded? : CliEvent → Option Entry
  | .Record e _ => some e
  | _ => none

/-- The history entries recorded during a run, in order. -/
def recorded (events : List CliEvent) : List Entry :=
  events.filterMap CliEvent.recorded?

/-- The Targets whose deletion succeeded, given the error each delete call returned (the
i-th result belongs to the i-th Target). -/
def succeeded (targets : List Target) (results : List (Option String)) : List Target :=
  ((targets.zip results).filter (fun p => p.2.isNone)).map Prod.fst

/-- The operator has approved the deletion of `targets`, or confirmation is skipped: the
three ways in which `cleanCmd` gets past its confirmation block in world state `s`. -/
def Approved {σ : Type} (w : CliWorld σ) (f : CleanFlags) (targets : List Target) (s : σ) :
    Prop :=
  w.shouldSkipConfirm f.cleanYes = true ∨
  (f.cleanPermanent = true ∧
    (w.confirmDangerous targets.length (totalSize targets) s).1 = true) ∨
  (f.cleanPermanent = false ∧
    (w.confirmAction targets.length (totalSize targets) s).1 = true)

/-- Number of delete calls of a run that returned an error. -/
def failedCalls (events : List CliEvent) : Nat :=
  ((deleteCalls events).filter (fun c => c.2.2.isSome)).length

/-- What the delete loop does to the `catResult` of the category of a deleted Target. -/
def catUpd (t : Target) (o : Option catResult) : catResult :=
  { items := (o.getD {}).items + 1, bytes := wrapInt64 ((o.getD {}).bytes + t.Size) }

/-- What the grouping loop of `scanCmd` does to the aggregate of the category of a
Target. -/
def groupUpd (t : Target) (o : Option CategorySnapshot) : CategorySnapshot :=
  { Name := (o.getD { Name := t.Category }).Name,
    Size := wrapInt64 ((o.getD { Name := t.Category }).Size + t.Size),
    Items := (o.getD { Name := t.Category }).Items + 1 }

/-- The Targets of category `c`. -/
def ofCategory (c : String) (targets : List Target) : List Target :=
  targets.filter (fun t => decide (t.Category = c))

/-- Sum of `Size` over a list of Targets. -/
def sumSize (targets : List Target) : Int :=
  (targets.map (·.Size)).sum

/-- The integer lies in the range of `int64`. -/
abbrev fitsInt64 (x : Int) : Prop :=
  -9223372036854775808 ≤ x ∧ x ≤ 9223372036854775807

/-- A Target with nothing but a path, a size and a category. -/
def sampleTarget (path : String) (size : Int) (category : String) : Target :=
  { Path := path, Size := size, Category := category, Description := "", Risk := RiskLevel.Safe }

/-- Five Targets of three categories. -/
def sampleTargets : List Target :=
  [sampleTarget "/a" 10 "Docker", sampleTarget "/locked/b" 5 "Docker",
   sampleTarget "/c" 7 "System Junk", sampleTarget "/locked/d" 4 "Xcode",
   sampleTarget "/e" 3 "Docker"]

/-- Two Targets of one category, of `2^62` bytes each. -/
def sampleHugeTargets : List Target :=
  [sampleTarget "/x" 4611686018427387904 "Docker", sampleTarget "/y" 4611686018427387904 "Docker"]

/-- A world in which the scan gives `scanResult`, the store gives `loadResult`, every
prompt is answered `answer`, deletion fails exactly below `/locked/`, the clock shows
`1700000000` and maps are visited in reverse insertion order; the state counts the
delete calls. -/
def sampleWorld (scanResult : Except String (List Target)) (loadResult : Except String Snapshot)
    (answer : Bool) : CliWorld Nat where
  scanSelected := fun _ s => (scanResult, s)
  scanFiltered := fun _ _ s => (scanResult, s)
  shouldSkipConfirm := fun yes => yes
  confirmDangerous := fun _ _ s => (answer, s)
  confirmAction := fun _ _ s => (answer, s)
  PermanentDelete := fun path s =>
    (if "/locked/".data.isPrefixOf path.data then some "permission denied" else none, s + 1)
  MoveToTrash := fun path s =>
    (if "/locked/".data.isPrefixOf path.data then some "permission denied" else none, s + 1)
  Record := fun _ s => (none, s)
  Load := fun s => (loadResult, s)
  Save := fun _ s => (none, s)
  now := fun s => (1700000000, s)
  rangeOrder := RangeOrder.reversed

/-- The snapshot of an earlier scan: two categories, one of them gone since. -/
def samplePrev : Snapshot :=
  { Timestamp := 1600000000,
    Categories := [{ Name := "Docker", Size := 20, Items := 2 },
                   { Name := "Homebrew", Size := 9, Items := 4 }],
    TotalSize := 29 }

/-- The CoreSimulator `Devices` directory a simulator scan looks into. -/
def devicesDir {σ : Type} (env : ScanEnv σ) (libraryBase : String) : String :=
  env.joinPath [SimulatorScanner.base env libraryBase, "Developer", "CoreSimulator", "Devices"]

/-- The CoreSimulator `Caches` directory a simulator scan looks into. -/
def cachesDir {σ : Type} (env : ScanEnv σ) (libraryBase : String) : String :=
  env.joinPath [SimulatorScanner.base env libraryBase, "Developer", "CoreSimulator", "Caches"]

/-- The world `env`, except that every command succeeds with empty output and the
unavailable-device listing decodes to no device at all. -/
def reportingNoDevices {σ : Type} (env : ScanEnv σ) : ScanEnv σ :=
  { env with
    runCmd := fun name args s => (.ok "", (env.runCmd name args s).2),
    decodeSimctl := fun _ => .ok [] }

/-- The only `simctl` output the sample decoder understands: the JSON text of
`sampleDevices`, as `json.Marshal` writes it in `TestSimulatorScanner_UnavailableDevices`. -/
def sampleSimctlOut : String :=
  "\x7b\"devices\":\x7b\"com.apple.CoreSimulator.SimRuntime.iOS-15-0\":["
  ++ "\x7b\"udid\":\"AAA-111\",\"name\":\"iPhone 13\",\"state\":\"Shutdown\","
  ++ "\"isAvailable\":false\x7d],"
  ++ "\"com.apple.CoreSimulator.SimRuntime.iOS-16-0\":["
  ++ "\x7b\"udid\":\"BBB-222\",\"name\":\"iPhone 14\",\"state\":\"Shutdown\","
  ++ "\"isAvailable\":false\x7d,"
  ++ "\x7b\"udid\":\"CCC-333\",\"name\":\"iPhone 14 Pro\",\"state\":\"Shutdown\","
  ++ "\"isAvailable\":false\x7d]\x7d\x7d"

/-- Three unavailable devices of two runtimes, as in
`TestSimulatorScanner_UnavailableDevices`. -/
def sampleDevices : List (String × List simctlDeviceInfo) :=
  [("com.apple.CoreSimulator.SimRuntime.iOS-15-0",
      [{ UDID := "AAA-111", Name := "iPhone 13", State := "Shutdown", IsAvailable := false }]),
   ("com.apple.CoreSimulator.SimRuntime.iOS-16-0",
      [{ UDID := "BBB-222", Name := "iPhone 14", State := "Shutdown", IsAvailable := false },
       { UDID := "CCC-333", Name := "iPhone 14 Pro", State := "Shutdown", IsAvailable := false }])]

/-- A world with `xcrun` installed (unless `installed` is off), a context that is never
cancelled, a `Devices` directory of four entries (a device directory of 4096 bytes, an
empty one, one whose `Info()` fails, a plain file of 12 bytes), a `Caches` directory of
one entry of 2048 bytes, and a command runner that answers `query`. The decoders
understand `sampleSimctlOut` only: as a device listing it holds `sampleDevices`, as a line
of `system df` it is a JSON object with none of the three fields. -/
def sampleFsEnv (installed : Bool) (query : Except String String) : ScanEnv Nat where
  lookPath := fun _ s => if installed then (.ok "/usr/bin/xcrun", s) else (.error "not found", s)
  runCmd := fun _ _ s => (query, s + 1)
  ctxErr := fun _ => none
  dirExists := fun dir s =>
    (dir = "/lib/Developer/CoreSimulator/Devices" || dir = "/lib/Developer/CoreSimulator/Caches", s)
  readDir := fun dir s =>
    if dir = "/lib/Developer/CoreSimulator/Devices" then
      (.ok [{ Name := "AAAA", Info := .ok { Size := 64, IsDir := true, ModTime := 5 } },
            { Name := "EMPTY", Info := .ok { Size := 64, IsDir := true, ModTime := 6 } },
            { Name := "GONE", Info := .error "no such file" },
            { Name := "notes.txt", Info := .ok { Size := 12, IsDir := false, ModTime := 7 } }], s)
    else if dir = "/lib/Developer/CoreSimulator/Caches" then
      (.ok [{ Name := "rt", Info := .ok { Size := 64, IsDir := true, ModTime := 8 } }], s)
    else (.error "not a directory", s)
  dirSize := fun path s =>
    (if path = "/lib/Developer/CoreSimulator/Devices/AAAA" then 4096
     else if path = "/lib/Developer/CoreSimulator/Caches/rt" then 2048 else 0, s)
  joinPath := fun l => "/".intercalate l
  libraryPath := fun _ => "/lib"
  decodeDf := fun l =>
    if l = sampleSimctlOut then some { Type_ := "", Reclaimable := "", Size := "" } else none
  decodeSimctl := fun out =>
    if out = sampleSimctlOut then .ok sampleDevices else .error "invalid character"
  rangeOrder := RangeOrder.insertion

/-- The first step of a simulator scan that found `xcrun`: the scan of the `Devices`
directory, started in the world the lookup left. -/
def devStep {σ : Type} (env : ScanEnv σ) (libraryBase : String) (s0 : σ) : ScanOutcome σ :=
  SimulatorScanner.scanDir env (devicesDir env libraryBase) "Simulator device data"
    RiskLevel.Moderate (env.lookPath "xcrun" s0).2

/-- The second step: the scan of the `Caches` directory. -/
def cacheStep {σ : Type} (env : ScanEnv σ) (libraryBase : String) (s0 : σ) : ScanOutcome σ :=
  SimulatorScanner.scanDir env (cachesDir env libraryBase) "Simulator cache"
    RiskLevel.Safe (devStep env libraryBase s0).state

/-- The third step: the unavailable-device query. -/
def queryStep {σ : Type} (env : ScanEnv σ) (libraryBase : String) (s0 : σ) : ScanOutcome σ :=
  SimulatorScanner.findUnavailableDevices env (cacheStep env libraryBase s0).state

/-- A directory entry whose `Info()` could be read, with the size the scanner takes for
it. -/
structure SizedEntry where
  path : String
  info : FileInfo
  size : Int
  deriving DecidableEq, Repr

/-- The entries of a directory listing whose `Info()` can be read, in listing order, each
with its size: the subtree size `utils.DirSize` reports for a directory, the file size
otherwise. The subtree sizes are asked of the world in listing order. -/
def measureEntries {σ : Type} (env : ScanEnv σ) (dir : String) :
    List DirEntry → σ → List SizedEntry × σ
  | [], s => ([], s)
  | e :: es, s =>
    match e.Info with
    | .error _ => measureEntries env dir es s
    | .ok info =>
      if info.IsDir then
        ({ path := env.joinPath [dir, e.Name], info := info,
           size := (env.dirSize (env.joinPath [dir, e.Name]) s).1 }
          :: (measureEntries env dir es (env.dirSize (env.joinPath [dir, e.Name]) s).2).1,
         (measureEntries env dir es (env.dirSize (env.joinPath [dir, e.Name]) s).2).2)
      else
        ({ path := env.joinPath [dir, e.Name], info := info, size := info.Size }
          :: (measureEntries env dir es s).1,
         (measureEntries env dir es s).2)

/-- The measured entries of directory `dir`: none when the directory is missing or cannot
be read. -/
def listDir {σ : Type} (env : ScanEnv σ) (dir : String) (s : σ) : List SizedEntry × σ :=
  match env.dirExists dir s with
  | (false, s1) => ([], s1)
  | (true, s1) =>
    match env.readDir dir s1 with
    | (.error _, s2) => ([], s2)
    | (.ok entries, s2) => measureEntries env dir entries s2

/-- The entries of non-zero size. -/
def nonZero (entries : List SizedEntry) : List SizedEntry :=
  entries.filter (fun e => decide (e.size ≠ 0))

/-- The Target the specification assigns to a measured directory entry. -/
def dirTarget (description : String) (risk : RiskLevel) (e : SizedEntry) : Target :=
  { Path := e.path, Size := e.size, Category := "iOS Simulators", Description := description,
    Risk := risk, ModTime := e.info.ModTime, IsDir := e.info.IsDir }

/-- The synthetic Target the specification assigns to an unavailable device of a runtime. -/
def unavailableTarget (rd : String × simctlDeviceInfo) : Target :=
  { Path := "simulator " ++ rd.2.UDID, Size := 0, Category := "iOS Simulators",
    Description := "Unavailable simulator: " ++ rd.2.Name ++ " (" ++ rd.1 ++ ")",
    Risk := RiskLevel.Moderate }

/-- The device records of the unavailable-device listing obtained in world `s`, each with
its runtime, in the order the runtimes are visited; none when the query fails or its
output cannot be decoded. -/
def unavailableListing {σ : Type} (env : ScanEnv σ) (s : σ) : List (String × simctlDeviceInfo) :=
  match env.runCmd "xcrun" SimulatorScanner.simctlArgs s with
  | (.error _, _) => []
  | (.ok out, _) =>
    match env.decodeSimctl out with
    | .error _ => []
    | .ok devices => (env.rangeOrder.order devices).flatMap fun kv => kv.2.map fun d => (kv.1, d)

/-- The text of a line before its first tab (the whole line if it has no tab). -/
def beforeTab (line : String) : String :=
  String.mk (line.data.takeWhile (fun c => decide (c ≠ '\t')))

/-- The text of a line after its first tab, if it has a tab. -/
def afterTab? (line : String) : Option String :=
  if '\t' ∈ line.data then
    some (String.mk (line.data.dropWhile (fun c => decide (c ≠ '\t'))).tail)
  else none

/-- The `Build Cache` records a `system df` query run in world `s` reports; none when
the query fails. -/
def dfListing {σ : Type} (env : ScanEnv σ) (s : σ) : List DfRecord :=
  match env.runCmd "docker" DockerScanner.dfArgs s with
  | (.ok out, _) => buildCacheRecords env.decodeDf out
  | (.error _, _) => []

/-- The world `env`, except that the `system df` query (a command with the arguments
`dfArgs`) succeeds with output `out`. -/
def withDfOutput {σ : Type} (env : ScanEnv σ) (out : String) : ScanEnv σ :=
  { env with
    runCmd := fun name args s =>
      if args = DockerScanner.dfArgs then (.ok out, (env.runCmd name args s).2)
      else env.runCmd name args s }

/-- A world with docker installed and a context that is never cancelled, in which the
image listing answers `listing` and `system df` answers `dfOut`; the decoder understands
`sampleDfLine` only. -/
def sampleDockerEnv (listing dfOut : Except String String) : ScanEnv Nat where
  lookPath := fun _ s => (.ok "/usr/local/bin/docker", s)
  runCmd := fun _ args s => if args.contains "dangling=true" then (listing, s + 1) else (dfOut, s + 1)
  ctxErr := fun _ => none
  dirExists := fun _ s => (false, s)
  readDir := fun _ s => (.error "no such directory", s)
  dirSize := fun _ s => (0, s)
  joinPath := fun l => "/".intercalate l
  libraryPath := fun _ => "/Users/u/Library"
  decodeDf := fun l =>
    if l = sampleDfLine then
      some { Type_ := "Build Cache", Reclaimable := "1.8GB (72%)", Size := "2.5GB" }
    else none
  decodeSimctl := fun _ => .ok []
  rangeOrder := RangeOrder.insertion

/-! ## History ledger (`internal/history`) -/

/-- Modelled from the spec: the per-category totals of `Stats`, "ByCategory:
map[Category → {Cleanups, BytesFreed}]" (§3). The source of package `history` is not
among the files at hand, only its tests are. -/
structure CategoryStats where
  Cleanups : Int := 0
  BytesFreed : Int := 0
  deriving DecidableEq, Repr

/-- Modelled from the spec: the derived view `Stats`, "{TotalFreed, TotalCleanups,
ByCategory, Recent: last N entries, most-recent-first}" (§3); the map `ByCategory` is a
Go map, here the list of its entries. -/
structure Stats where
  TotalFreed : Int
  TotalCleanups : Int
  ByCategory : List (String × CategoryStats)
  Recent : List Entry
  deriving DecidableEq, Repr

/-- Modelled from the spec: a history ledger, "a durable ordered log" (§4.5), as the list
of the entries its storage holds, in append order. -/
structure History where
  entries : List Entry
  deriving DecidableEq, Repr

/-- Modelled from the spec: the number N of entries in `Stats.Recent`, "a fixed small
constant" (§4.5), five by §8 and by `TestStats`. -/
def recentLimit : Nat := 5

namespace History

/-- Modelled from the spec: `history.New` at a storage location that holds no entry yet. -/
def New : History := { entries := [] }

/-- Modelled from the spec: "`Record(entry)` appends one entry to a durable ordered log
... Entries are never reordered or rewritten" (§4.5). -/
def Record (h : History) (e : Entry) : History := { entries := h.entries ++ [e] }

/-- Modelled from the spec: "`Load()` returns all entries in append order" (§4.5). -/
def Load (h : History) : Except String (List Entry) := .ok h.entries

/-- Modelled from the spec: what `Stats` does to the totals of the category of an entry,
"per-category entry counts and byte sums" (§4.5). -/
def statsUpd (e : Entry) (o : Option CategoryStats) : CategoryStats :=
  { Cleanups := (o.getD {}).Cleanups + 1, BytesFreed := (o.getD {}).BytesFreed + e.BytesFreed }

/-- Modelled from the spec: "`Stats()` derives: total bytes freed across all entries; total
entry count; per-category entry counts and byte sums; the most recent N entries ...
ordered most-recent-first" (§4.5). -/
def Stats (h : History) : Macbroom.Stats :=
  { TotalFreed := (h.entries.map (·.BytesFreed)).sum,
    TotalCleanups := h.entries.length,
    ByCategory := h.entries.foldl (fun m e => mapAlter e.Category (statsUpd e) m) [],
    Recent := h.entries.reverse.take recentLimit }

end History

/-- The ledger obtained by recording `entries`, in order, into an empty ledger. -/
def recordAll (entries : List Entry) : History :=
  entries.foldl History.Record History.New

/-- The entries of category `c`. -/
def entriesOf (c : String) (entries : List Entry) : List Entry :=
  entries.filter (fun e => decide (e.Category = c))

/-- The six entries of `TestStats` (days of February 2024 as timestamps). -/
def sampleEntries : List Entry :=
  [{ Timestamp := 10, Category := "System Junk", Items := 5, BytesFreed := 1073741824,
     Method := "trash" },
   { Timestamp := 11, Category := "Browser Cache", Items := 3, BytesFreed := 524288000,
     Method := "trash" },
   { Timestamp := 12, Category := "System Junk", Items := 8, BytesFreed := 2147483648,
     Method := "permanent" },
   { Timestamp := 13, Category := "Browser Cache", Items := 2, BytesFreed := 314572800,
     Method := "trash" },
   { Timestamp := 14, Category := "Large & Old Files", Items := 1, BytesFreed := 209715200,
     Method := "permanent" },
   { Timestamp := 15, Category := "System Junk", Items := 4, BytesFreed := 786432000,
     Method := "trash" }]

/-! ## Space Lens (`internal/tui/spacelens.go`) -/

/-- One immediate child of a directory with its subtree size (`scanner.SpaceLensNode`). -/
structure SpaceLensNode where
  Name : String
  Path : String
  Size : Int
  IsDir : Bool
  deriving DecidableEq, Repr

/-- The Space Lens model; Go `int` fields are integers. -/
structure SpaceLensModel where
  path : String
  nodes : List SpaceLensNode := []
  cursor : Int := 0
  scrollOffset : Int := 0
  loading : Bool := false
  width : Int := 0
  height : Int := 0
  deriving DecidableEq, Repr

/-- The messages `Update` distinguishes: `tea.WindowSizeMsg`, `spaceLensDoneMsg`,
`tea.KeyMsg` (given by its `String()`), and any other message. -/
inductive Msg
  | WindowSizeMsg (Width Height : Int)
  | spaceLensDoneMsg (nodes : List SpaceLensNode) (path : String)
  | KeyMsg (key : String)
  | other
  deriving DecidableEq, Repr

/-- The commands `Update` returns: `nil`, `tea.Quit`, or the analysis of a path
(`doAnalyze`, which captures `m.path`). -/
inductive Cmd
  | none
  | Quit
  | doAnalyze (path : String)
  deriving DecidableEq, Repr

namespace SpaceLensModel

/-- `NewSpaceLensModel`. -/
def NewSpaceLensModel (path : String) : SpaceLensModel :=
  { path := path, loading := true }

/-- `(SpaceLensModel).visibleLines`. -/
def visibleLines (m : SpaceLensModel) : Int :=
  let visible := m.height - 7
  if visible < 4 then 4 else visible

/-- `(*SpaceLensModel).ensureVisible`. -/
def ensureVisible (m : SpaceLensModel) : SpaceLensModel :=
  let visible := m.visibleLines
  let m := if m.cursor < m.scrollOffset then { m with scrollOffset := m.cursor } else m
  if m.cursor ≥ m.scrollOffset + visible then { m with scrollOffset := m.cursor - visible + 1 }
  else m

/-- The node `m.nodes[m.cursor]`, where the index is in range. The cursor is never
negative in a run of the program (it starts at 0 and is decremented only when
positive), so a negative index, on which Go would panic, is given no node here. -/
def nodeAt? (nodes : List SpaceLensNode) (i : Int) : Option SpaceLensNode :=
  if i < 0 then none else nodes.get? i.toNat

/-- `(SpaceLensModel).Update`; `lastSlash` is the helper of that name of package `tui`,
whose source is not among the files at hand, and `m.path[:idx]` keeps the first `idx`
characters of the path. -/
def Update (lastSlash : String → Int) (m : SpaceLensModel) (msg : Msg) : SpaceLensModel × Cmd :=
  match msg with
  | .WindowSizeMsg w h => ({ m with width := w, height := h }, Cmd.none)
  | .spaceLensDoneMsg nodes path =>
    ({ m with loading := false, nodes := nodes, path := path }, Cmd.none)
  | .KeyMsg key =>
    if key = "ctrl+c" ∨ key = "q" then (m, Cmd.Quit)
    else if key = "up" ∨ key = "k" then
      if m.cursor > 0 then (ensureVisible { m with cursor := m.cursor - 1 }, Cmd.none)
      else (m, Cmd.none)
    else if key = "down" ∨ key = "j" then
      if m.cursor < (m.nodes.length : Int) - 1 then
        (ensureVisible { m with cursor := m.cursor + 1 }, Cmd.none)
      else (m, Cmd.none)
    else if key = "enter" ∨ key = "right" ∨ key = "l" then
      if m.cursor < (m.nodes.length : Int) ∧ ((nodeAt? m.nodes m.cursor).map (·.IsDir)) = some true then
        ({ m with path := ((nodeAt? m.nodes m.cursor).map (·.Path)).getD m.path, loading := true,
                  cursor := 0, scrollOffset := 0 },
         Cmd.doAnalyze (((nodeAt? m.nodes m.cursor).map (·.Path)).getD m.path))
      else (m, Cmd.none)
    else if key = "left" ∨ key = "backspace" ∨ key = "h" then
      if lastSlash m.path > 0 then
        ({ m with path := String.mk (m.path.data.take (lastSlash m.path).toNat), loading := true,
                  cursor := 0, scrollOffset := 0 },
         Cmd.doAnalyze (String.mk (m.path.data.take (lastSlash m.path).toNat)))
      else (m, Cmd.none)
    else (m, Cmd.none)
  | .other => (m, Cmd.none)

/-- The model after a sequence of messages, each handled by `Update`. -/
def run (lastSlash : String → Int) (m : SpaceLensModel) (msgs : List Msg) : SpaceLensModel :=
  msgs.foldl (fun m msg => (Update lastSlash m msg).1) m

end SpaceLensModel

/-- Five directory entries. -/
def sampleNodes : List SpaceLensNode :=
  [{ Name := "a", Path := "/a", Size := 50, IsDir := true },
   { Name := "b", Path := "/b", Size := 40, IsDir := true },
   { Name := "c", Path := "/c", Size := 30, IsDir := false },
   { Name := "d", Path := "/d", Size := 20, IsDir := false },
   { Name := "e", Path := "/e", Size := 10, IsDir := false }]

/-- A `lastSlash` that finds no separator; the sample runs press no drill-out key. -/
def noSlash : String → Int := fun _ => -1

/-- A session: the analysis delivers five nodes, the window gets height 12 (five visible
lines), `down` is pressed four times, the window shrinks to height 11 (four visible
lines). -/
def sampleShrinkRun : List Msg :=
  [Msg.spaceLensDoneMsg sampleNodes "/", Msg.WindowSizeMsg 80 12, Msg.KeyMsg "down",
   Msg.KeyMsg "down", Msg.KeyMsg "down", Msg.KeyMsg "down", Msg.WindowSizeMsg 80 11]

/-- Index of the last `/` in a list of characters, `-1` when there is none. -/
def lastSlashChars : List Char → Int
  | [] => -1
  | c :: cs =>
    if lastSlashChars cs ≥ 0 then lastSlashChars cs + 1
    else if c = '/' then 0 else -1

/-- Modelled from the spec: the helper `lastSlash` of package `tui`, whose source is not
among the files at hand (only its call in `Update` is): the index of the last path
separator of the path, negative when the path has none. Spec §4.6: the parent path is
"computed by stripping the last path component — if already at a root with no parent
separator, drill-out is a no-op". -/
def lastSlash (path : String) : Int :=
  lastSlashChars path.data

/-- The cursor lies in the window that starts at `scrollOffset` and shows `visible`
lines. -/
def inWindow (cursor scrollOffset visible : Int) : Prop :=
  scrollOffset ≤ cursor ∧ cursor < scrollOffset + visible

/-- The byte total and the item count of the summary line `Cleaned N items (X freed)` a
run prints: one pair per such line. -/
def CliEvent.printedSummary? : CliEvent → Option (Int × Int)
  | .printCleaned cleaned total => some (cleaned, total)
  | _ => none

/-- The summary lines of a run: item count and byte total. -/
def printedSummary (events : List CliEvent) : List (Int × Int) :=
  events.filterMap CliEvent.printedSummary?

/-- The listing of `/a`: two files. -/
def sampleChildNodes : List SpaceLensNode :=
  [{ Name := "x", Path := "/a/x", Size := 30, IsDir := false },
   { Name := "y", Path := "/a/y", Size := 20, IsDir := false }]

/-- A session: the analysis of `/` delivers five nodes, `enter` drills into the directory
under the cursor, `down` is pressed four times while the analysis of `/a` is still
running, then that analysis delivers `nodes`. -/
def sampleLoadingRun (nodes : List SpaceLensNode) : List Msg :=
  [Msg.spaceLensDoneMsg sampleNodes "/", Msg.KeyMsg "enter", Msg.KeyMsg "down",
   Msg.KeyMsg "down", Msg.KeyMsg "down", Msg.KeyMsg "down", Msg.spaceLensDoneMsg nodes "/a"]

/-! ## Lemmas on loops -/

theorem foldl_append_filterMap {α β : Type} (g : α → Option β) (step : List β → α → List β)
    (h : ∀ acc x, step acc x = acc ++ (g x).toList) (l : List α) (init : List β) :
    l.foldl step init = init ++ l.filterMap g := by
  induction l generalizing init with
  | nil => simp
  | cons x xs ih =>
    rw [List.foldl_cons, ih, h]
    cases hx : g x <;> simp [List.filterMap_cons, hx]

theorem filterMap_nonEmpty_eq {β : Type} (g : String → β) (l : List String) :
    l.filterMap (fun x => if x = "" then none else some (g x))
      = (l.filter (fun x => decide (x ≠ ""))).map g := by
  induction l with
  | nil => rfl
  | cons x xs ih =>
    by_cases hx : x = ""
    · simp [List.filterMap_cons, hx, ih]
    · simp [List.filterMap_cons, List.filter_cons, hx, ih]

theorem foldl_imageStep (lines : List String) (init : List Target) :
    lines.foldl DockerScanner.imageStep init
      = init ++ (lines.filter (fun l => decide (l ≠ ""))).map imageTarget := by
  rw [← filterMap_nonEmpty_eq]
  apply foldl_append_filterMap
  intro acc x
  by_cases hx : x = ""
  · simp [DockerScanner.imageStep, hx]
  · by_cases hp : (SplitN2Tab x).length > 1 <;>
      simp [DockerScanner.imageStep, imageTarget, hx, hp, String.append_assoc]

theorem foldl_dfStep (decodeDf : String → Option DfRecord) (lines : List String)
    (init : List Target) :
    lines.foldl (DockerScanner.dfStep decodeDf) init
      = init ++ ((lines.filter (fun l => decide (l ≠ ""))).filterMap fun l =>
          (decodeDf l).bind fun df => if df.Type_ = "Build Cache" then some df else none).map
            buildCacheTarget := by
  rw [← List.filterMap_eq_map, List.filterMap_filterMap, ← List.filterMap_eq_filter,
    List.filterMap_filterMap]
  apply foldl_append_filterMap
  intro acc x
  by_cases hx : x = ""
  · simp [DockerScanner.dfStep, Option.guard, hx]
  · cases hd : decodeDf x with
    | none => simp [DockerScanner.dfStep, Option.guard, hx, hd]
    | some df =>
      by_cases ht : df.Type_ = "Build Cache" <;>
        simp [DockerScanner.dfStep, buildCacheTarget, Option.guard, hx, hd, ht]

/-! ## Theorems: DockerScanner -/

/-- C1: when docker is found and both queries succeed, `Scan` returns no error and the
Targets are one image Target per non-empty line of the trimmed listing, in line order,
followed by one build-cache Target per `Build Cache` record of the `system df` output;
so a listing of two lines and one `Build Cache` record give exactly three Targets,
image 1, image 2, build cache. -/
theorem docker_scan_images_then_build_cache {σ : Type} (env : ScanEnv σ) (s0 s1 s2 s3 : σ)
    (p out1 out2 : String)
    (hlook : env.lookPath "docker" s0 = (.ok p, s1))
    (himg : env.runCmd "docker" DockerScanner.imagesArgs s1 = (.ok out1, s2))
    (hdf : env.runCmd "docker" DockerScanner.dfArgs s2 = (.ok out2, s3)) :
    (DockerScanner.Scan env s0).err = none ∧
    (DockerScanner.Scan env s0).targets
      = (nonEmptyLines out1).map imageTarget
        ++ (buildCacheRecords env.decodeDf out2).map buildCacheTarget ∧
    (∀ l1 l2 df, nonEmptyLines out1 = [l1, l2] → buildCacheRecords env.decodeDf out2 = [df] →
      (DockerScanner.Scan env s0).targets
        = [imageTarget l1, imageTarget l2, buildCacheTarget df]) := by
  have ht : (DockerScanner.Scan env s0).targets
      = (nonEmptyLines out1).map imageTarget
        ++ (buildCacheRecords env.decodeDf out2).map buildCacheTarget := by
    simp only [DockerScanner.Scan, hlook, himg, hdf]
    rw [foldl_dfStep, foldl_imageStep]
    simp [nonEmptyLines, buildCacheRecords]
  refine ⟨?_, ht, ?_⟩
  · simp only [DockerScanner.Scan, hlook, himg, hdf]
  · intro l1 l2 df h1 h2
    rw [ht, h1, h2]
    rfl

/-- Witness of C1 on the outputs of `TestDockerScanner_ParsesDanglingImages`. -/
theorem docker_scan_images_then_build_cache_witness :
    (DockerScanner.Scan (sampleEnv true true 9) 0).err = none ∧
    (DockerScanner.Scan (sampleEnv true true 9) 0).targets
      = (nonEmptyLines "abc123\t1.2GB\ndef456\t500MB\n").map imageTarget
        ++ (buildCacheRecords (sampleEnv true true 9).decodeDf sampleDfLine).map buildCacheTarget ∧
    ((DockerScanner.Scan (sampleEnv true true 9) 0).targets).map (fun t => (t.Path, t.Description))
      = [("docker image abc123", "Dangling image (1.2GB)"),
         ("docker image def456", "Dangling image (500MB)"),
         ("docker build cache", "Build cache (2.5GB, 1.8GB (72%) reclaimable)")] :=
  ⟨(docker_scan_images_then_build_cache (sampleEnv true true 9) 0 0 1 2
      "/usr/local/bin/tool" "abc123\t1.2GB\ndef456\t500MB\n" sampleDfLine rfl rfl rfl).1,
   (docker_scan_images_then_build_cache (sampleEnv true true 9) 0 0 1 2
      "/usr/local/bin/tool" "abc123\t1.2GB\ndef456\t500MB\n" sampleDfLine rfl rfl rfl).2.1,
   by decide⟩

/-- C2: whenever one of the two docker commands returns an error while the context reports
cancellation, `Scan` returns the context's error and a nil Target slice; the image Targets
collected from a successful first query are dropped when the second query is cancelled. -/
theorem docker_scan_cancelled_command {σ : Type} (env : ScanEnv σ) (s0 s1 : σ) (p e : String)
    (hlook : env.lookPath "docker" s0 = (.ok p, s1)) :
    (∀ e1 s2, env.runCmd "docker" DockerScanner.imagesArgs s1 = (.error e1, s2) →
      env.ctxErr s2 = some e →
      (DockerScanner.Scan env s0).targets = [] ∧ (DockerScanner.Scan env s0).err = some e) ∧
    (∀ out s2 e2 s3, env.runCmd "docker" DockerScanner.imagesArgs s1 = (.ok out, s2) →
      env.runCmd "docker" DockerScanner.dfArgs s2 = (.error e2, s3) →
      env.ctxErr s3 = some e →
      (DockerScanner.Scan env s0).targets = [] ∧ (DockerScanner.Scan env s0).err = some e) := by
  constructor
  · intro e1 s2 h1 hc
    simp only [DockerScanner.Scan, hlook, h1, hc, and_self]
  · intro out s2 e2 s3 h1 h2 hc
    simp only [DockerScanner.Scan, hlook, h1, h2, hc, and_self]

/-- Witness of C2: the listing succeeds with two images, then the context is cancelled
during `system df`. -/
theorem docker_scan_cancelled_command_witness :
    (nonEmptyLines "abc123\t1.2GB\ndef456\t500MB\n").length = 2 ∧
    (DockerScanner.Scan (sampleEnv true true 2) 0).targets = [] ∧
    (DockerScanner.Scan (sampleEnv true true 2) 0).err = some "context canceled" :=
  ⟨by decide,
   (docker_scan_cancelled_command (sampleEnv true true 2) 0 0 "/usr/local/bin/tool"
      "context canceled" rfl).2 "abc123\t1.2GB\ndef456\t500MB\n" 1 "context canceled" 2
      rfl rfl rfl⟩

/-! ## Theorems: executable lookup and cancellation, both scanners -/

/-- C9: when the lookup of `docker`, respectively `xcrun`, fails, `Scan` returns a nil Target
slice and a nil error, and the lookup is the only collaborator it has invoked: no command
is run and, for the simulator scanner, no directory is read. -/
theorem scan_tool_absent {σ : Type} (env : ScanEnv σ) (libraryBase : String) (s0 s1 : σ)
    (e : String) :
    (env.lookPath "docker" s0 = (.error e, s1) →
      (DockerScanner.Scan env s0).targets = [] ∧ (DockerScanner.Scan env s0).err = none ∧
      (DockerScanner.Scan env s0).calls = [Call.lookPath "docker"] ∧
      (DockerScanner.Scan env s0).state = s1 ∧
      (∀ c ∈ (DockerScanner.Scan env s0).calls, c.isRunCmd = false)) ∧
    (env.lookPath "xcrun" s0 = (.error e, s1) →
      (SimulatorScanner.Scan env libraryBase s0).targets = [] ∧
      (SimulatorScanner.Scan env libraryBase s0).err = none ∧
      (SimulatorScanner.Scan env libraryBase s0).calls = [Call.lookPath "xcrun"] ∧
      (SimulatorScanner.Scan env libraryBase s0).state = s1 ∧
      (∀ c ∈ (SimulatorScanner.Scan env libraryBase s0).calls,
        c.isRunCmd = false ∧ c.isFilesystem = false)) := by
  constructor
  · intro h
    simp [DockerScanner.Scan, h, Call.isRunCmd]
  · intro h
    simp [SimulatorScanner.Scan, h, Call.isRunCmd, Call.isFilesystem]

/-- Witness of C9: a world in which no executable is found. -/
theorem scan_tool_absent_witness :
    (DockerScanner.Scan (sampleEnv false true 9) 0).targets = [] ∧
    (DockerScanner.Scan (sampleEnv false true 9) 0).err = none ∧
    (SimulatorScanner.Scan (sampleEnv false true 9) "" 0).targets = [] ∧
    (SimulatorScanner.Scan (sampleEnv false true 9) "" 0).err = none :=
  ⟨((scan_tool_absent (sampleEnv false true 9) "" 0 0 "not found").1 rfl).1,
   ((scan_tool_absent (sampleEnv false true 9) "" 0 0 "not found").1 rfl).2.1,
   ((scan_tool_absent (sampleEnv false true 9) "" 0 0 "not found").2 rfl).1,
   ((scan_tool_absent (sampleEnv false true 9) "" 0 0 "not found").2 rfl).2.1⟩

/-- C10, as stated, fails: with the context already cancelled, both scanners still return
a nil error when the executable lookup fails, and the docker scanner returns its three
Targets and a nil error when the command runner answers in spite of the cancellation. -/
theorem cancelled_scan_without_error :
    (sampleEnv false true 0).ctxErr 0 = some "context canceled" ∧
    (DockerScanner.Scan (sampleEnv false true 0) 0).err = none ∧
    (SimulatorScanner.Scan (sampleEnv false true 0) "" 0).err = none ∧
    (sampleEnv true false 0).ctxErr 0 = some "context canceled" ∧
    (DockerScanner.Scan (sampleEnv true false 0) 0).err = none ∧
    ((DockerScanner.Scan (sampleEnv true false 0) 0).targets).length = 3 := by
  decide

/-- C10, amended: for a context that is already cancelled when `Scan` is called (and stays
so), if the executable lookup succeeds then `SimulatorScanner.Scan` returns the context's
error and no Targets whatever the command runner does, and `DockerScanner.Scan` returns the
context's error and no Targets whenever one of its two commands returns an error. -/
theorem cancelled_scan_propagates {σ : Type} (env : ScanEnv σ) (libraryBase : String)
    (s0 s1 : σ) (p e : String) (hsticky : CtxSticky env) (hc : env.ctxErr s0 = some e) :
    (env.lookPath "xcrun" s0 = (.ok p, s1) →
      (SimulatorScanner.Scan env libraryBase s0).targets = [] ∧
      (SimulatorScanner.Scan env libraryBase s0).err = some e) ∧
    (env.lookPath "docker" s0 = (.ok p, s1) →
      ((∃ e1, (env.runCmd "docker" DockerScanner.imagesArgs s1).1 = .error e1) ∨
       (∃ e2, (env.runCmd "docker" DockerScanner.dfArgs
          (env.runCmd "docker" DockerScanner.imagesArgs s1).2).1 = .error e2)) →
      (DockerScanner.Scan env s0).targets = [] ∧ (DockerScanner.Scan env s0).err = some e) := by
  constructor
  · intro h
    have h1 : env.ctxErr s1 = some e := by
      have := (hsticky s0 e hc).1 "xcrun"
      rwa [h] at this
    simp [SimulatorScanner.Scan, h, h1]
  · intro h hfail
    have h1 : env.ctxErr s1 = some e := by
      have := (hsticky s0 e hc).1 "docker"
      rwa [h] at this
    have h2 : env.ctxErr (env.runCmd "docker" DockerScanner.imagesArgs s1).2 = some e :=
      (hsticky s1 e h1).2 "docker" DockerScanner.imagesArgs
    have h3 : env.ctxErr (env.runCmd "docker" DockerScanner.dfArgs
        (env.runCmd "docker" DockerScanner.imagesArgs s1).2).2 = some e :=
      (hsticky _ e h2).2 "docker" DockerScanner.dfArgs
    rcases hr1 : env.runCmd "docker" DockerScanner.imagesArgs s1 with ⟨r1, s2⟩
    rw [hr1] at h2 h3 hfail
    cases r1 with
    | error e1 => simp only [DockerScanner.Scan, h, hr1, h2, and_self]
    | ok out =>
      rcases hr2 : env.runCmd "docker" DockerScanner.dfArgs s2 with ⟨r2, s3⟩
      rw [hr2] at h3 hfail
      cases r2 with
      | error e2 => simp only [DockerScanner.Scan, h, hr1, hr2, h3, and_self]
      | ok out2 =>
        rcases hfail with ⟨e1, he1⟩ | ⟨e2, he2⟩
        · cases he1
        · cases he2

theorem sampleEnv_sticky (installed heed : Bool) (cancelAt : Nat) :
    CtxSticky (sampleEnv installed heed cancelAt) := by
  intro s e h
  have hs : (sampleEnv installed heed cancelAt).ctxErr s
      = if cancelAt ≤ s then some "context canceled" else none := rfl
  rw [hs] at h
  by_cases hle : cancelAt ≤ s
  · rw [if_pos hle] at h
    constructor
    · intro file
      have : ((sampleEnv installed heed cancelAt).lookPath file s).2 = s := by
        cases installed <;> rfl
      rw [this, hs, if_pos hle]; exact h
    · intro name args
      have : ((sampleEnv installed heed cancelAt).runCmd name args s).2 = s + 1 := by
        simp only [sampleEnv]
        split_ifs <;> rfl
      rw [this]
      have hs1 : (sampleEnv installed heed cancelAt).ctxErr (s + 1)
          = if cancelAt ≤ s + 1 then some "context canceled" else none := rfl
      rw [hs1, if_pos (Nat.le_succ_of_le hle)]; exact h
  · rw [if_neg hle] at h
    cases h

/-- Witness of the amended C10: every collaborator heeds a context cancelled from the
start. -/
theorem cancelled_scan_propagates_witness :
    (sampleEnv true true 0).ctxErr 0 = some "context canceled" ∧
    (SimulatorScanner.Scan (sampleEnv true true 0) "" 0).targets = [] ∧
    (SimulatorScanner.Scan (sampleEnv true true 0) "" 0).err = some "context canceled" ∧
    (DockerScanner.Scan (sampleEnv true true 0) 0).targets = [] ∧
    (DockerScanner.Scan (sampleEnv true true 0) 0).err = some "context canceled" :=
  ⟨rfl,
   ((cancelled_scan_propagates (sampleEnv true true 0) "" 0 0 "/usr/local/bin/tool"
      "context canceled" (sampleEnv_sticky true true 0) rfl).1 rfl).1,
   ((cancelled_scan_propagates (sampleEnv true true 0) "" 0 0 "/usr/local/bin/tool"
      "context canceled" (sampleEnv_sticky true true 0) rfl).1 rfl).2,
   ((cancelled_scan_propagates (sampleEnv true true 0) "" 0 0 "/usr/local/bin/tool"
      "context canceled" (sampleEnv_sticky true true 0) rfl).2 rfl
      (Or.inl ⟨"context canceled", rfl⟩)).1,
   ((cancelled_scan_propagates (sampleEnv true true 0) "" 0 0 "/usr/local/bin/tool"
      "context canceled" (sampleEnv_sticky true true 0) rfl).2 rfl
      (Or.inl ⟨"context canceled", rfl⟩)).2⟩

/-! ## Lemmas on Go maps -/

theorem mapGet?_mapAlter_self {β : Type} (k : String) (f : Option β → β)
    (m : List (String × β)) :
    mapGet? k (mapAlter k f m) = some (f (mapGet? k m)) := by
  induction m with
  | nil => simp [mapAlter, mapGet?]
  | cons kv rest ih =>
    obtain ⟨k', v⟩ := kv
    by_cases h : k' = k
    · simp [mapAlter, mapGet?, h]
    · simp [mapAlter, mapGet?, h, ih]

theorem mapGet?_mapAlter_of_ne {β : Type} (k k' : String) (f : Option β → β)
    (m : List (String × β)) (hne : k' ≠ k) :
    mapGet? k' (mapAlter k f m) = mapGet? k' m := by
  induction m with
  | nil => simp [mapAlter, mapGet?, Ne.symm hne]
  | cons kv rest ih =>
    obtain ⟨k1, v⟩ := kv
    by_cases h : k1 = k
    · subst h
      simp [mapAlter, mapGet?, Ne.symm hne]
    · by_cases h' : k1 = k'
      · subst h'
        simp [mapAlter, mapGet?, h]
      · simp [mapAlter, mapGet?, h, h', ih]

theorem mem_keys_mapAlter {β : Type} (k k' : String) (f : Option β → β)
    (m : List (String × β)) :
    k' ∈ (mapAlter k f m).map Prod.fst ↔ k' = k ∨ k' ∈ m.map Prod.fst := by
  induction m with
  | nil => simp [mapAlter]
  | cons kv rest ih =>
    obtain ⟨k1, v⟩ := kv
    by_cases h : k1 = k
    · subst h
      simp [mapAlter]
    · simp only [mapAlter, h, if_false, List.map_cons, List.mem_cons, ih]
      tauto

theorem nodup_keys_mapAlter {β : Type} (k : String) (f : Option β → β)
    (m : List (String × β)) (hn : (m.map Prod.fst).Nodup) :
    ((mapAlter k f m).map Prod.fst).Nodup := by
  induction m with
  | nil => simp [mapAlter]
  | cons kv rest ih =>
    obtain ⟨k1, v⟩ := kv
    by_cases h : k1 = k
    · subst h
      simpa [mapAlter] using hn
    · simp only [List.map_cons, List.nodup_cons] at hn
      have hmem : k1 ∉ (mapAlter k f rest).map Prod.fst := by
        rw [mem_keys_mapAlter]
        rintro (h1 | h1)
        · exact h h1
        · exact hn.1 h1
      simp only [mapAlter, h, if_false, List.map_cons, List.nodup_cons]
      exact ⟨hmem, ih hn.2⟩

theorem mapGet?_of_mem {β : Type} (m : List (String × β)) (hn : (m.map Prod.fst).Nodup)
    (k : String) (v : β) (hmem : (k, v) ∈ m) : mapGet? k m = some v := by
  induction m with
  | nil => cases hmem
  | cons kv rest ih =>
    obtain ⟨k1, v1⟩ := kv
    simp only [List.map_cons, List.nodup_cons] at hn
    rcases List.mem_cons.mp hmem with h | h
    · cases h
      simp [mapGet?]
    · have hk : k1 ≠ k := by
        intro hk
        apply hn.1
        rw [hk]
        exact List.mem_map_of_mem Prod.fst h
      simp [mapGet?, hk, ih hn.2 h]

/-- Folding an update-or-insert step over a list: which keys the map ends with. -/
theorem mem_keys_foldl_mapAlter {α β : Type} (key : α → String) (upd : α → Option β → β)
    (ts : List α) (m : List (String × β)) (k : String) :
    k ∈ (ts.foldl (fun m t => mapAlter (key t) (upd t) m) m).map Prod.fst
      ↔ k ∈ m.map Prod.fst ∨ ∃ t ∈ ts, key t = k := by
  induction ts generalizing m with
  | nil => simp
  | cons t ts ih =>
    rw [List.foldl_cons, ih, mem_keys_mapAlter]
    constructor
    · rintro ((h | h) | ⟨t', ht', h⟩)
      · exact Or.inr ⟨t, List.mem_cons_self _ _, h.symm⟩
      · exact Or.inl h
      · exact Or.inr ⟨t', List.mem_cons_of_mem _ ht', h⟩
    · rintro (h | ⟨t', ht', h⟩)
      · exact Or.inl (Or.inr h)
      · rcases List.mem_cons.mp ht' with h' | h'
        · subst h'
          exact Or.inl (Or.inl h.symm)
        · exact Or.inr ⟨t', h', h⟩

theorem nodup_keys_foldl_mapAlter {α β : Type} (key : α → String) (upd : α → Option β → β)
    (ts : List α) (m : List (String × β)) (hn : (m.map Prod.fst).Nodup) :
    ((ts.foldl (fun m t => mapAlter (key t) (upd t) m) m).map Prod.fst).Nodup := by
  induction ts generalizing m with
  | nil => simpa using hn
  | cons t ts ih =>
    rw [List.foldl_cons]
    exact ih _ (nodup_keys_mapAlter _ _ _ hn)

/-- Folding an update-or-insert step over a list: a quantity `μ` of the entry of key `k`
that every step on `k` raises by `wt t` ends as its start value plus the sum of `wt` over
the elements of key `k`. -/
theorem measure_foldl_mapAlter {α β : Type} (key : α → String) (upd : α → Option β → β)
    (μ : Option β → Int) (wt : α → Int) (hμ : ∀ t o, μ (some (upd t o)) = μ o + wt t)
    (ts : List α) (m : List (String × β)) (k : String) :
    μ (mapGet? k (ts.foldl (fun m t => mapAlter (key t) (upd t) m) m))
      = μ (mapGet? k m) + ((ts.filter (fun t => decide (key t = k))).map wt).sum := by
  induction ts generalizing m with
  | nil => simp
  | cons t ts ih =>
    rw [List.foldl_cons, ih]
    by_cases h : key t = k
    · subst h
      rw [mapGet?_mapAlter_self, hμ]
      simp [List.filter_cons, add_assoc]
    · rw [mapGet?_mapAlter_of_ne _ _ _ _ (Ne.symm h)]
      simp [List.filter_cons, h]

/-! ## Lemmas on `int64` sums -/

theorem wrapInt64_add_wrap (a b : Int) : wrapInt64 (wrapInt64 a + b) = wrapInt64 (a + b) := by
  unfold wrapInt64
  omega

theorem wrapInt64_wrap (a : Int) : wrapInt64 (wrapInt64 a) = wrapInt64 a := by
  unfold wrapInt64
  omega

theorem wrapInt64_of_fits (x : Int) (h : fitsInt64 x) : wrapInt64 x = x := by
  unfold wrapInt64
  unfold fitsInt64 at h
  omega

theorem wrapInt64_add_congr (a b c : Int) (h : wrapInt64 a = wrapInt64 b) :
    wrapInt64 (c + a) = wrapInt64 (c + b) := by
  unfold wrapInt64 at *
  omega

/-- The `int64` sum of values that are themselves `int64` sums is the `int64` sum of the
whole. -/
theorem wrapInt64_sum_map_wrap {α : Type} (f : α → Int) (l : List α) :
    wrapInt64 ((l.map (fun x => wrapInt64 (f x))).sum) = wrapInt64 ((l.map f).sum) := by
  induction l with
  | nil => rfl
  | cons x xs ih =>
    simp only [List.map_cons, List.sum_cons]
    rw [wrapInt64_add_wrap]
    exact wrapInt64_add_congr _ _ _ ih

/-- Folding an update-or-insert step over a list: a quantity `μ` of the entry of key `k`
that every step on `k` raises by `wt t` in `int64` arithmetic ends as the `int64` sum of
its start value and of `wt` over the elements of key `k`. -/
theorem measure_foldl_mapAlter_wrap {α β : Type} (key : α → String) (upd : α → Option β → β)
    (μ : Option β → Int) (wt : α → Int)
    (hμ : ∀ t o, μ (some (upd t o)) = wrapInt64 (μ o + wt t))
    (ts : List α) (m : List (String × β)) (k : String)
    (hstart : wrapInt64 (μ (mapGet? k m)) = μ (mapGet? k m)) :
    μ (mapGet? k (ts.foldl (fun m t => mapAlter (key t) (upd t) m) m))
      = wrapInt64 (μ (mapGet? k m) + ((ts.filter (fun t => decide (key t = k))).map wt).sum) := by
  induction ts generalizing m with
  | nil => simpa using hstart.symm
  | cons t ts ih =>
    rw [List.foldl_cons]
    by_cases h : key t = k
    · subst h
      rw [ih, mapGet?_mapAlter_self, hμ, wrapInt64_add_wrap]
      · simp [List.filter_cons, add_assoc]
      · rw [mapGet?_mapAlter_self, hμ, wrapInt64_wrap]
    · rw [ih, mapGet?_mapAlter_of_ne _ _ _ _ (Ne.symm h)]
      · simp [List.filter_cons, h]
      · rw [mapGet?_mapAlter_of_ne _ _ _ _ (Ne.symm h)]
        exact hstart

/-- The loop that adds up `Size` in an `int64` yields the `int64` sum. -/
theorem foldl_wrap_size (targets : List Target) (init : Int) (hinit : wrapInt64 init = init) :
    targets.foldl (fun acc t => wrapInt64 (acc + t.Size)) init
      = wrapInt64 (init + sumSize targets) := by
  induction targets generalizing init with
  | nil => simpa [sumSize] using hinit.symm
  | cons t ts ih =>
    rw [List.foldl_cons, ih _ (wrapInt64_wrap _), wrapInt64_add_wrap]
    simp [sumSize, add_assoc]

theorem totalSize_eq (targets : List Target) : totalSize targets = wrapInt64 (sumSize targets) := by
  rw [totalSize, foldl_wrap_size targets 0 rfl, zero_add]

theorem sum_map_ite_eq (ks : List String) (c : String) (v : Int) (hn : ks.Nodup) :
    (ks.map (fun k => if c = k then v else 0)).sum = if c ∈ ks then v else 0 := by
  induction ks with
  | nil => simp
  | cons k ks ih =>
    simp only [List.nodup_cons] at hn
    simp only [List.map_cons, List.sum_cons, ih hn.2, List.mem_cons]
    by_cases h : c = k
    · subst h
      simp [hn.1]
    · simp [h]

/-- The sizes of the Targets of each category of a duplicate-free list of categories that
covers the Targets add up to the size of all Targets. -/
theorem sum_sumSize_ofCategory (ks : List String) (hn : ks.Nodup) (targets : List Target)
    (hcover : ∀ t ∈ targets, t.Category ∈ ks) :
    (ks.map (fun k => sumSize (ofCategory k targets))).sum = sumSize targets := by
  induction targets with
  | nil => simp [sumSize, ofCategory]
  | cons t ts ih =>
    have hstep : ∀ k, sumSize (ofCategory k (t :: ts))
        = (if t.Category = k then t.Size else 0) + sumSize (ofCategory k ts) := by
      intro k
      by_cases h : t.Category = k <;> simp [sumSize, ofCategory, List.filter_cons, h]
    simp only [hstep, List.sum_map_add]
    rw [sum_map_ite_eq ks t.Category t.Size hn, if_pos (hcover t (List.mem_cons_self _ _)),
      ih (fun t' ht' => hcover t' (List.mem_cons_of_mem _ ht'))]
    simp [sumSize]

theorem sumSize_filter_bounds (targets : List Target) (hnn : ∀ t ∈ targets, 0 ≤ t.Size)
    (p : Target → Bool) :
    0 ≤ sumSize (targets.filter p) ∧ sumSize (targets.filter p) ≤ sumSize targets := by
  induction targets with
  | nil => simp [sumSize]
  | cons t ts ih =>
    have ht := hnn t (List.mem_cons_self _ _)
    have := ih (fun t' ht' => hnn t' (List.mem_cons_of_mem _ ht'))
    cases h : p t
    · simp only [List.filter_cons, h, Bool.false_eq_true, if_false, sumSize, List.map_cons,
        List.sum_cons] at this ⊢
      omega
    · simp only [List.filter_cons, h, if_true, sumSize, List.map_cons, List.sum_cons] at this ⊢
      omega

/-! ## Lemmas on the clean command -/

theorem cleanStep_spec {σ : Type} (w : CliWorld σ) (permanent : Bool) (acc : CleanAcc σ)
    (t : Target) :
    ∃ d : Option String,
      deleteCalls (cleanStep w permanent acc t).events
        = deleteCalls acc.events ++ [(permanent, t.Path, d)] ∧
      recorded (cleanStep w permanent acc t).events = recorded acc.events ∧
      (cleanStep w permanent acc t).cleaned = acc.cleaned + (if d.isNone then 1 else 0) ∧
      (cleanStep w permanent acc t).failed = acc.failed + (if d.isSome then 1 else 0) ∧
      (cleanStep w permanent acc t).byCategory
        = if d.isNone then mapAlter t.Category (catUpd t) acc.byCategory else acc.byCategory := by
  cases permanent
  · cases h : (w.MoveToTrash t.Path acc.state).1 with
    | none =>
      refine ⟨none, ?_⟩
      simp [cleanStep, h, deleteCalls, recorded, CliEvent.deleteCall?, CliEvent.recorded?,
        List.filterMap_append]
      rfl
    | some e =>
      refine ⟨some e, ?_⟩
      simp [cleanStep, h, deleteCalls, recorded, CliEvent.deleteCall?, CliEvent.recorded?,
        List.filterMap_append]
  · cases h : (w.PermanentDelete t.Path acc.state).1 with
    | none =>
      refine ⟨none, ?_⟩
      simp [cleanStep, h, deleteCalls, recorded, CliEvent.deleteCall?, CliEvent.recorded?,
        List.filterMap_append]
      rfl
    | some e =>
      refine ⟨some e, ?_⟩
      simp [cleanStep, h, deleteCalls, recorded, CliEvent.deleteCall?, CliEvent.recorded?,
        List.filterMap_append]

theorem cleanLoop_spec {σ : Type} (w : CliWorld σ) (permanent : Bool) (targets : List Target)
    (acc : CleanAcc σ) :
    ∃ D : List (Option String), D.length = targets.length ∧
      deleteCalls (targets.foldl (cleanStep w permanent) acc).events
        = deleteCalls acc.events ++ (targets.zip D).map (fun p => (permanent, p.1.Path, p.2)) ∧
      recorded (targets.foldl (cleanStep w permanent) acc).events = recorded acc.events ∧
      (targets.foldl (cleanStep w permanent) acc).cleaned
        = acc.cleaned + ((D.filter (fun d => d.isNone)).length : Int) ∧
      (targets.foldl (cleanStep w permanent) acc).failed
        = acc.failed + ((D.filter (fun d => d.isSome)).length : Int) ∧
      (targets.foldl (cleanStep w permanent) acc).byCategory
        = (succeeded targets D).foldl (fun m t => mapAlter t.Category (catUpd t) m)
            acc.byCategory := by
  induction targets generalizing acc with
  | nil => exact ⟨[], by simp [succeeded]⟩
  | cons t ts ih =>
    obtain ⟨d, hd1, hd2, hd3, hd4, hd5⟩ := cleanStep_spec w permanent acc t
    obtain ⟨D, hD0, hD1, hD2, hD3, hD4, hD5⟩ := ih (cleanStep w permanent acc t)
    refine ⟨d :: D, by simp [hD0], ?_, ?_, ?_, ?_, ?_⟩
    · rw [List.foldl_cons, hD1, hd1]
      simp
    · rw [List.foldl_cons, hD2, hd2]
    · rw [List.foldl_cons, hD3, hd3]
      cases d <;> (simp [List.filter_cons]; try ring)
    · rw [List.foldl_cons, hD4, hd4]
      cases d <;> (simp [List.filter_cons]; try ring)
    · rw [List.foldl_cons, hD5, hd5]
      cases d <;> simp [succeeded, List.filter_cons]

theorem recordLoop_spec {σ : Type} (w : CliWorld σ) (now : Time) (method : String)
    (l : List (String × catResult)) (events : List CliEvent) (s : σ) :
    ∃ L : List CliEvent,
      (l.foldl (recordStep w now method) (events, s)).1 = events ++ L ∧
      deleteCalls L = [] ∧
      recorded L = l.map (fun kv =>
        { Timestamp := now, Category := kv.1, Items := kv.2.items, BytesFreed := kv.2.bytes,
          Method := method }) := by
  induction l generalizing events s with
  | nil => exact ⟨[], by simp [deleteCalls, recorded]⟩
  | cons kv rest ih =>
    obtain ⟨L, h1, h2, h3⟩ := ih
      (events ++ [CliEvent.Record
        { Timestamp := now, Category := kv.1, Items := kv.2.items, BytesFreed := kv.2.bytes,
          Method := method }
        (w.Record { Timestamp := now, Category := kv.1, Items := kv.2.items,
                    BytesFreed := kv.2.bytes, Method := method } s).1])
      (w.Record { Timestamp := now, Category := kv.1, Items := kv.2.items,
                  BytesFreed := kv.2.bytes, Method := method } s).2
    refine ⟨CliEvent.Record
        { Timestamp := now, Category := kv.1, Items := kv.2.items, BytesFreed := kv.2.bytes,
          Method := method }
        (w.Record { Timestamp := now, Category := kv.1, Items := kv.2.items,
                    BytesFreed := kv.2.bytes, Method := method } s).1 :: L, ?_, ?_, ?_⟩
    · rw [List.foldl_cons]
      simp only [recordStep]
      rw [h1]
      simp
    · simpa [deleteCalls, CliEvent.deleteCall?, List.filterMap_cons] using h2
    · simpa [recorded, CliEvent.recorded?, List.filterMap_cons] using h3

/-- What a run of `cleanApproved` does, in terms of the errors `D` its delete calls
returned. -/
theorem cleanApproved_spec {σ : Type} (w : CliWorld σ) (permanent : Bool)
    (targets : List Target) (events : List CliEvent) (s : σ) :
    ∃ D : List (Option String), D.length = targets.length ∧
      (cleanApproved w permanent targets events s).err = none ∧
      deleteCalls (cleanApproved w permanent targets events s).events
        = deleteCalls events ++ (targets.zip D).map (fun p => (permanent, p.1.Path, p.2)) ∧
      recorded (cleanApproved w permanent targets events s).events
        = recorded events ++
          (w.rangeOrder.order ((succeeded targets D).foldl
            (fun m t => mapAlter t.Category (catUpd t) m) [])).map (fun kv =>
              { Timestamp := (w.now (targets.foldl (cleanStep w permanent)
                  ⟨0, 0, [], events, s⟩).state).1,
                Category := kv.1, Items := kv.2.items, BytesFreed := kv.2.bytes,
                Method := if permanent then "permanent" else "trash" }) ∧
      CliEvent.printCleaned ((D.filter (fun d => d.isNone)).length : Int) (totalSize targets)
        ∈ (cleanApproved w permanent targets events s).events ∧
      (0 < (D.filter (fun d => d.isSome)).length →
        CliEvent.printFailedCount ((D.filter (fun d => d.isSome)).length : Int)
          ∈ (cleanApproved w permanent targets events s).events) := by
  obtain ⟨D, hD0, hD1, hD2, hD3, hD4, hD5⟩ :=
    cleanLoop_spec w permanent targets ⟨0, 0, [], events, s⟩
  simp only [zero_add] at hD3 hD4
  refine ⟨D, hD0, rfl, ?_⟩
  have hunf : (cleanApproved w permanent targets events s).events
      = ((w.rangeOrder.order (targets.foldl (cleanStep w permanent)
            ⟨0, 0, [], events, s⟩).byCategory).foldl
          (recordStep w (w.now (targets.foldl (cleanStep w permanent)
            ⟨0, 0, [], events, s⟩).state).1 (if permanent then "permanent" else "trash"))
          ((if (targets.foldl (cleanStep w permanent) ⟨0, 0, [], events, s⟩).failed > 0 then
              (targets.foldl (cleanStep w permanent) ⟨0, 0, [], events, s⟩).events
                ++ [CliEvent.printCleaned
                      (targets.foldl (cleanStep w permanent) ⟨0, 0, [], events, s⟩).cleaned
                      (totalSize targets)]
                ++ [CliEvent.printFailedCount
                      (targets.foldl (cleanStep w permanent) ⟨0, 0, [], events, s⟩).failed]
            else
              (targets.foldl (cleanStep w permanent) ⟨0, 0, [], events, s⟩).events
                ++ [CliEvent.printCleaned
                      (targets.foldl (cleanStep w permanent) ⟨0, 0, [], events, s⟩).cleaned
                      (totalSize targets)])
            ++ [CliEvent.println ""],
           (w.now (targets.foldl (cleanStep w permanent) ⟨0, 0, [], events, s⟩).state).2)).1 :=
    rfl
  obtain ⟨L, hL, hL1, hL2⟩ := recordLoop_spec w
    (w.now (targets.foldl (cleanStep w permanent) ⟨0, 0, [], events, s⟩).state).1
    (if permanent then "permanent" else "trash")
    (w.rangeOrder.order (targets.foldl (cleanStep w permanent)
      ⟨0, 0, [], events, s⟩).byCategory)
    ((if (targets.foldl (cleanStep w permanent) ⟨0, 0, [], events, s⟩).failed > 0 then
        (targets.foldl (cleanStep w permanent) ⟨0, 0, [], events, s⟩).events
          ++ [CliEvent.printCleaned
                (targets.foldl (cleanStep w permanent) ⟨0, 0, [], events, s⟩).cleaned
                (totalSize targets)]
          ++ [CliEvent.printFailedCount
                (targets.foldl (cleanStep w permanent) ⟨0, 0, [], events, s⟩).failed]
      else
        (targets.foldl (cleanStep w permanent) ⟨0, 0, [], events, s⟩).events
          ++ [CliEvent.printCleaned
                (targets.foldl (cleanStep w permanent) ⟨0, 0, [], events, s⟩).cleaned
                (totalSize targets)])
      ++ [CliEvent.println ""])
    (w.now (targets.foldl (cleanStep w permanent) ⟨0, 0, [], events, s⟩).state).2
  rw [hunf, hL, hD5] at *
  clear hunf hL
  rw [hD3, hD4]
  have hdel : deleteCalls L = [] := hL1
  have hrec := hL2
  simp only [deleteCalls, recorded] at hD1 hD2 hdel hrec ⊢
  by_cases hf : (0 : Int) < ((D.filter (fun d => d.isSome)).length : Int)
  · have hf' : 0 < (D.filter (fun d => d.isSome)).length := by exact_mod_cast hf
    simp only [gt_iff_lt, hf, if_true, List.filterMap_append, hD1, hD2, hdel, hrec]
    simp [CliEvent.deleteCall?, CliEvent.recorded?]
  · have hf' : ¬ 0 < (D.filter (fun d => d.isSome)).length := by
      intro h; exact hf (by exact_mod_cast h)
    simp only [gt_iff_lt, hf, if_false, List.filterMap_append, hD1, hD2, hdel, hrec]
    simp [CliEvent.deleteCall?, CliEvent.recorded?, hf']

/-- The ways through `cleanCmd` after a successful scan: either it hands the Targets to
`cleanApproved`, having neither deleted nor recorded anything before, or it returns
success without deleting or recording anything at all. -/
theorem cleanCmd_cases {σ : Type} (w : CliWorld σ) (f : CleanFlags) (s0 s1 : σ)
    (targets : List Target)
    (hscan : w.scanSelected [f.cleanSystem, f.cleanBrowser, f.cleanXcode, f.cleanLarge,
      f.cleanDocker, f.cleanNode, f.cleanHomebrew, f.cleanSimulator] s0 = (.ok targets, s1)) :
    (targets ≠ [] ∧ f.cleanDryRun = false ∧ Approved w f targets s1 ∧
      ∃ ev s, cleanCmd w f s0 = cleanApproved w f.cleanPermanent targets ev s ∧
        deleteCalls ev = [] ∧ recorded ev = []) ∨
    ((targets = [] ∨ f.cleanDryRun = true ∨ ¬ Approved w f targets s1) ∧
      (cleanCmd w f s0).err = none ∧
      deleteCalls (cleanCmd w f s0).events = [] ∧ recorded (cleanCmd w f s0).events = []) := by
  by_cases hne : targets = []
  · right
    subst hne
    simp [cleanCmd, hscan, deleteCalls, recorded, CliEvent.deleteCall?, CliEvent.recorded?]
  have hlen : ¬ targets.length = 0 := by
    intro h; exact hne (List.length_eq_zero.mp h)
  by_cases hdry : f.cleanDryRun = true
  · right
    simp [cleanCmd, hscan, hlen, hdry, deleteCalls, recorded, CliEvent.deleteCall?,
      CliEvent.recorded?]
  have hdry' : f.cleanDryRun = false := by simpa using hdry
  by_cases hskip : w.shouldSkipConfirm f.cleanYes = true
  · left
    refine ⟨hne, hdry', Or.inl hskip,
      [CliEvent.println "Scanning...", CliEvent.printScanResults targets none,
        CliEvent.printYoloWarning], s1, ?_, ?_, ?_⟩
    · simp [cleanCmd, hscan, hlen, hdry', hskip]
    · simp [deleteCalls, CliEvent.deleteCall?]
    · simp [recorded, CliEvent.recorded?]
  by_cases hperm : f.cleanPermanent = true
  · by_cases hans : (w.confirmDangerous targets.length (totalSize targets) s1).1 = true
    · left
      refine ⟨hne, hdry', Or.inr (Or.inl ⟨hperm, hans⟩),
        [CliEvent.println "Scanning...", CliEvent.printScanResults targets none,
          CliEvent.printYoloWarning,
          CliEvent.confirmDangerous targets.length (totalSize targets) true],
        (w.confirmDangerous targets.length (totalSize targets) s1).2, ?_, ?_, ?_⟩
      · simp [cleanCmd, hscan, hlen, hdry', hskip, hperm, hans]
      · simp [deleteCalls, CliEvent.deleteCall?]
      · simp [recorded, CliEvent.recorded?]
    · right
      refine ⟨Or.inr (Or.inr ?_), ?_⟩
      · rintro (h | ⟨_, h⟩ | ⟨h, _⟩)
        · exact hskip h
        · exact hans h
        · rw [hperm] at h; cases h
      · simp [cleanCmd, hscan, hlen, hdry', hskip, hperm, hans, deleteCalls, recorded,
          CliEvent.deleteCall?, CliEvent.recorded?]
  · have hperm' : f.cleanPermanent = false := by simpa using hperm
    by_cases hans : (w.confirmAction targets.length (totalSize targets) s1).1 = true
    · left
      refine ⟨hne, hdry', Or.inr (Or.inr ⟨hperm', hans⟩),
        [CliEvent.println "Scanning...", CliEvent.printScanResults targets none,
          CliEvent.printYoloWarning,
          CliEvent.confirmAction targets.length (totalSize targets) true],
        (w.confirmAction targets.length (totalSize targets) s1).2, ?_, ?_, ?_⟩
      · simp [cleanCmd, hscan, hlen, hdry', hskip, hperm', hans]
      · simp [deleteCalls, CliEvent.deleteCall?]
      · simp [recorded, CliEvent.recorded?]
    · right
      refine ⟨Or.inr (Or.inr ?_), ?_⟩
      · rintro (h | ⟨h, _⟩ | ⟨_, h⟩)
        · exact hskip h
        · rw [hperm'] at h; cases h
        · exact hans h
      · simp [cleanCmd, hscan, hlen, hdry', hskip, hperm', hans, deleteCalls, recorded,
          CliEvent.deleteCall?, CliEvent.recorded?]

theorem length_filter_isNone_add_isSome (D : List (Option String)) :
    (D.filter (fun d => d.isNone)).length + (D.filter (fun d => d.isSome)).length
      = D.length := by
  induction D with
  | nil => rfl
  | cons d D ih =>
    cases d <;> simp [List.filter_cons] <;> omega

theorem zip_calls_targets (permanent : Bool) (targets : List Target) (D : List (Option String))
    (hlen : D.length = targets.length) :
    ((targets.zip D).map (fun p => (permanent, p.1.Path, p.2))).map (fun c => (c.1, c.2.1))
      = targets.map (fun t => (permanent, t.Path)) := by
  induction targets generalizing D with
  | nil => simp
  | cons t ts ih =>
    cases D with
    | nil => simp at hlen
    | cons d D =>
      simp only [List.length_cons, Nat.succ.injEq] at hlen
      simp [List.zip_cons_cons, ih D hlen]

theorem zip_calls_results (permanent : Bool) (targets : List Target) (D : List (Option String))
    (hlen : D.length = targets.length) :
    ((targets.zip D).map (fun p => (permanent, p.1.Path, p.2))).map (fun c => c.2.2) = D := by
  induction targets generalizing D with
  | nil =>
    cases D with
    | nil => rfl
    | cons d D => simp at hlen
  | cons t ts ih =>
    cases D with
    | nil => simp at hlen
    | cons d D =>
      simp only [List.length_cons, Nat.succ.injEq] at hlen
      simp [List.zip_cons_cons, ih D hlen]

theorem length_filter_results (l : List (Bool × String × Option String)) :
    (l.filter (fun c => c.2.2.isSome)).length
      = ((l.map (fun c => c.2.2)).filter (fun d => d.isSome)).length := by
  induction l with
  | nil => rfl
  | cons c l ih =>
    by_cases h : c.2.2.isSome = true
    · simp [List.filter_cons, h, ih]
    · simp [List.filter_cons, h, ih]

theorem sum_map_one {α : Type} (l : List α) : (l.map (fun _ => (1 : Int))).sum = l.length := by
  induction l with
  | nil => rfl
  | cons a l ih => simp [ih]; ring

/-- What the map `byCategory` holds after the delete loop, in terms of the Targets `ok`
whose deletion succeeded. -/
theorem byCategory_spec (ok : List Target) :
    ((ok.foldl (fun m t => mapAlter t.Category (catUpd t) m) []).map Prod.fst).Nodup ∧
    (∀ c, c ∈ (ok.foldl (fun m t => mapAlter t.Category (catUpd t) m) []).map Prod.fst
      ↔ ∃ t ∈ ok, t.Category = c) ∧
    (∀ kv ∈ ok.foldl (fun m t => mapAlter t.Category (catUpd t) m) [],
      kv.2.items = (ofCategory kv.1 ok).length ∧
      kv.2.bytes = wrapInt64 (sumSize (ofCategory kv.1 ok))) := by
  have hn := nodup_keys_foldl_mapAlter (fun t : Target => t.Category) catUpd ok []
    (by simp)
  refine ⟨hn, ?_, ?_⟩
  · intro c
    rw [mem_keys_foldl_mapAlter (fun t : Target => t.Category) catUpd ok [] c]
    simp
  · rintro ⟨k, v⟩ hmem
    have hget := mapGet?_of_mem _ hn k v hmem
    have h1 := measure_foldl_mapAlter (fun t : Target => t.Category) catUpd
      (fun o => (o.getD {}).items) (fun _ => 1) (by intro t o; simp [catUpd]) ok [] k
    have h2 := measure_foldl_mapAlter_wrap (fun t : Target => t.Category) catUpd
      (fun o => (o.getD {}).bytes) (fun t => t.Size) (by intro t o; simp [catUpd]) ok [] k rfl
    simp only [hget, Option.getD_some, mapGet?, Option.getD_none, zero_add] at h1 h2
    constructor
    · rw [h1, sum_map_one]; rfl
    · rw [h2]; rfl

/-! ## Theorems: the clean command -/

/-- C3: once the operator has approved (or confirmation is skipped) in a run that is not a
dry run, the delete calls of `clean` are, in list order, one call per Target, of
`PermanentDelete` if the permanent flag is set and of `MoveToTrash` otherwise, whatever
errors the calls return; and the final counters `cleaned` and `failed`, as printed in the
summary, satisfy `cleaned + failed = len(targets)` with `failed` the number of delete calls
that returned an error. -/
theorem clean_deletes_each_target_once {σ : Type} (w : CliWorld σ) (f : CleanFlags)
    (s0 s1 : σ) (targets : List Target)
    (hscan : w.scanSelected [f.cleanSystem, f.cleanBrowser, f.cleanXcode, f.cleanLarge,
      f.cleanDocker, f.cleanNode, f.cleanHomebrew, f.cleanSimulator] s0 = (.ok targets, s1))
    (hdry : f.cleanDryRun = false) (happ : Approved w f targets s1) :
    (deleteCalls (cleanCmd w f s0).events).map (fun c => (c.1, c.2.1))
      = targets.map (fun t => (f.cleanPermanent, t.Path)) ∧
    (targets ≠ [] → ∃ cleaned failed : Int,
      CliEvent.printCleaned cleaned (totalSize targets) ∈ (cleanCmd w f s0).events ∧
      (0 < failed → CliEvent.printFailedCount failed ∈ (cleanCmd w f s0).events) ∧
      cleaned + failed = targets.length ∧
      failed = failedCalls (cleanCmd w f s0).events) := by
  rcases cleanCmd_cases w f s0 s1 targets hscan with
    ⟨hne, -, -, ev, s, hrun, hev1, -⟩ | ⟨hnot, -, hdel, -⟩
  · obtain ⟨D, hD0, -, hD1, -, hD2, hD3⟩ := cleanApproved_spec w f.cleanPermanent targets ev s
    rw [hrun]
    rw [hev1, List.nil_append] at hD1
    constructor
    · rw [hD1]
      exact zip_calls_targets _ _ _ hD0
    · intro _
      refine ⟨((D.filter (fun d => d.isNone)).length : Int),
        ((D.filter (fun d => d.isSome)).length : Int), hD2, ?_, ?_, ?_⟩
      · intro h
        exact hD3 (by exact_mod_cast h)
      · rw [← hD0, ← length_filter_isNone_add_isSome D]
        push_cast
        rfl
      · rw [failedCalls, hD1, length_filter_results, zip_calls_results _ _ _ hD0]
  · rcases hnot with h | h | h
    · subst h
      rw [hdel]
      exact ⟨rfl, fun h => absurd rfl h⟩
    · rw [hdry] at h
      cases h
    · exact absurd happ h

/-- Witness of C3: five Targets, two of which cannot be moved to the Trash. -/
theorem clean_deletes_each_target_once_witness :
    deleteCalls (cleanCmd (sampleWorld (.ok sampleTargets) (.error "none") true)
        { cleanYes := true } 0).events
      = [(false, "/a", none), (false, "/locked/b", some "permission denied"),
         (false, "/c", none), (false, "/locked/d", some "permission denied"),
         (false, "/e", none)] ∧
    ∃ cleaned failed : Int,
      CliEvent.printCleaned cleaned (totalSize sampleTargets)
        ∈ (cleanCmd (sampleWorld (.ok sampleTargets) (.error "none") true)
            { cleanYes := true } 0).events ∧
      (0 < failed → CliEvent.printFailedCount failed
        ∈ (cleanCmd (sampleWorld (.ok sampleTargets) (.error "none") true)
            { cleanYes := true } 0).events) ∧
      cleaned + failed = sampleTargets.length ∧
      failed = failedCalls (cleanCmd (sampleWorld (.ok sampleTargets) (.error "none") true)
            { cleanYes := true } 0).events :=
  ⟨by decide,
   (clean_deletes_each_target_once (sampleWorld (.ok sampleTargets) (.error "none") true)
      { cleanYes := true } 0 0 sampleTargets rfl rfl (Or.inl rfl)).2 (by decide)⟩

/-- C4: with the dry-run flag set, whatever the scan returns and whatever the other
flags are, `clean` invokes neither `MoveToTrash` nor `PermanentDelete`, records no history
entry, leaves the world as the scan left it, and returns success for every Target list
the scan produces. -/
theorem clean_dry_run_touches_nothing {σ : Type} (w : CliWorld σ) (f : CleanFlags) (s0 : σ)
    (hdry : f.cleanDryRun = true) :
    deleteCalls (cleanCmd w f s0).events = [] ∧
    recorded (cleanCmd w f s0).events = [] ∧
    (cleanCmd w f s0).state
      = (w.scanSelected [f.cleanSystem, f.cleanBrowser, f.cleanXcode, f.cleanLarge,
          f.cleanDocker, f.cleanNode, f.cleanHomebrew, f.cleanSimulator] s0).2 ∧
    (∀ targets s1,
      w.scanSelected [f.cleanSystem, f.cleanBrowser, f.cleanXcode, f.cleanLarge,
        f.cleanDocker, f.cleanNode, f.cleanHomebrew, f.cleanSimulator] s0 = (.ok targets, s1) →
      (cleanCmd w f s0).err = none) := by
  rcases hs : w.scanSelected [f.cleanSystem, f.cleanBrowser, f.cleanXcode, f.cleanLarge,
      f.cleanDocker, f.cleanNode, f.cleanHomebrew, f.cleanSimulator] s0 with ⟨r, s1⟩
  cases r with
  | error e =>
    simp [cleanCmd, hs, deleteCalls, recorded, CliEvent.deleteCall?, CliEvent.recorded?]
  | ok targets =>
    by_cases hlen : targets.length = 0
    · simp [cleanCmd, hs, hlen, deleteCalls, recorded, CliEvent.deleteCall?,
        CliEvent.recorded?]
    · simp [cleanCmd, hs, hlen, hdry, deleteCalls, recorded, CliEvent.deleteCall?,
        CliEvent.recorded?]

/-- Witness of C4: a dry run with `--permanent` and `--yes` over five Targets. -/
theorem clean_dry_run_touches_nothing_witness :
    deleteCalls (cleanCmd (sampleWorld (.ok sampleTargets) (.error "none") true)
      { cleanDryRun := true, cleanPermanent := true, cleanYes := true } 0).events = [] ∧
    recorded (cleanCmd (sampleWorld (.ok sampleTargets) (.error "none") true)
      { cleanDryRun := true, cleanPermanent := true, cleanYes := true } 0).events = [] ∧
    (cleanCmd (sampleWorld (.ok sampleTargets) (.error "none") true)
      { cleanDryRun := true, cleanPermanent := true, cleanYes := true } 0).err = none :=
  ⟨(clean_dry_run_touches_nothing (sampleWorld (.ok sampleTargets) (.error "none") true)
      { cleanDryRun := true, cleanPermanent := true, cleanYes := true } 0 rfl).1,
   (clean_dry_run_touches_nothing (sampleWorld (.ok sampleTargets) (.error "none") true)
      { cleanDryRun := true, cleanPermanent := true, cleanYes := true } 0 rfl).2.1,
   (clean_dry_run_touches_nothing (sampleWorld (.ok sampleTargets) (.error "none") true)
      { cleanDryRun := true, cleanPermanent := true, cleanYes := true } 0 rfl).2.2.2
      sampleTargets 0 rfl⟩

/-- C5, as stated, fails: two Targets of one category of `2^62` bytes each are deleted;
the history entry recorded has `BytesFreed = -2^63`, while their Sizes sum to `2^63`. -/
theorem clean_history_bytes_wrap :
    recorded (cleanCmd (sampleWorld (.ok sampleHugeTargets) (.error "none") true)
        { cleanYes := true } 0).events
      = [{ Timestamp := 1700000000, Category := "Docker", Items := 2,
           BytesFreed := -9223372036854775808, Method := "trash" }] ∧
    sumSize (ofCategory "Docker" (succeeded sampleHugeTargets
      ((deleteCalls (cleanCmd (sampleWorld (.ok sampleHugeTargets) (.error "none") true)
        { cleanYes := true } 0).events).map (fun c => c.2.2))))
      = 9223372036854775808 := by
  decide

/-- C5, amended: the history entries a clean run records are exactly one per distinct
Category among the Targets whose deletion succeeded; each entry's `Items` is the number of
successfully deleted Targets of its category and its `BytesFreed` the sum of their Sizes
in `int64` arithmetic, which is the sum itself whenever that lies in the range of `int64`;
all entries of the run carry the same Timestamp and the same Method, `permanent` if the
permanent flag is set and `trash` otherwise. -/
theorem clean_history_per_category {σ : Type} (w : CliWorld σ) (f : CleanFlags)
    (s0 s1 : σ) (targets : List Target)
    (hscan : w.scanSelected [f.cleanSystem, f.cleanBrowser, f.cleanXcode, f.cleanLarge,
      f.cleanDocker, f.cleanNode, f.cleanHomebrew, f.cleanSimulator] s0 = (.ok targets, s1)) :
    ((recorded (cleanCmd w f s0).events).map (·.Category)).Nodup ∧
    (∀ c, c ∈ (recorded (cleanCmd w f s0).events).map (·.Category) ↔
      ∃ t ∈ succeeded targets ((deleteCalls (cleanCmd w f s0).events).map (fun c => c.2.2)),
        t.Category = c) ∧
    (∀ h ∈ recorded (cleanCmd w f s0).events,
      h.Items = (ofCategory h.Category
        (succeeded targets ((deleteCalls (cleanCmd w f s0).events).map (fun c => c.2.2)))).length ∧
      h.BytesFreed = wrapInt64 (sumSize (ofCategory h.Category
        (succeeded targets ((deleteCalls (cleanCmd w f s0).events).map (fun c => c.2.2))))) ∧
      (fitsInt64 (sumSize (ofCategory h.Category
          (succeeded targets ((deleteCalls (cleanCmd w f s0).events).map (fun c => c.2.2))))) →
        h.BytesFreed = sumSize (ofCategory h.Category
          (succeeded targets ((deleteCalls (cleanCmd w f s0).events).map (fun c => c.2.2)))))) ∧
    (∃ ts : Time, ∀ h ∈ recorded (cleanCmd w f s0).events,
      h.Timestamp = ts ∧ h.Method = if f.cleanPermanent then "permanent" else "trash") := by
  rcases cleanCmd_cases w f s0 s1 targets hscan with
    ⟨-, -, -, ev, s, hrun, hev1, hev2⟩ | ⟨-, -, hdel, hrec⟩
  · obtain ⟨D, hD0, -, hD1, hD2, -, -⟩ := cleanApproved_spec w f.cleanPermanent targets ev s
    rw [hev1, List.nil_append] at hD1
    rw [hev2, List.nil_append] at hD2
    rw [hrun, hD1, hD2, zip_calls_results _ _ _ hD0]
    obtain ⟨hn, hmem, hval⟩ := byCategory_spec (succeeded targets D)
    have hperm := w.rangeOrder.perm ((succeeded targets D).foldl
      (fun m t => mapAlter t.Category (catUpd t) m) [])
    refine ⟨?_, ?_, ?_, ⟨(w.now (targets.foldl (cleanStep w f.cleanPermanent)
      ⟨0, 0, [], ev, s⟩).state).1, ?_⟩⟩
    · rw [List.map_map]
      exact ((hperm.map Prod.fst).nodup_iff).mpr hn
    · intro c
      rw [List.map_map, ← hmem c]
      exact (hperm.map Prod.fst).mem_iff
    · intro h hh
      obtain ⟨kv, hkv, rfl⟩ := List.mem_map.mp hh
      obtain ⟨h1, h2⟩ := hval kv (hperm.mem_iff.mp hkv)
      refine ⟨h1, h2, fun hfit => ?_⟩
      exact h2.trans (wrapInt64_of_fits _ hfit)
    · intro h hh
      obtain ⟨kv, -, rfl⟩ := List.mem_map.mp hh
      exact ⟨rfl, rfl⟩
  · rw [hrec, hdel]
    simp [succeeded]

/-- Witness of the amended C5: of five Targets in three categories two fail, among them
the only one of category `Xcode`; two entries are recorded, and the entry of `Docker`
holds the 13 bytes of the two Targets of that category that were deleted. -/
theorem clean_history_per_category_witness :
    recorded (cleanCmd (sampleWorld (.ok sampleTargets) (.error "none") true)
        { cleanPermanent := true } 0).events
      = [{ Timestamp := 1700000000, Category := "System Junk", Items := 1, BytesFreed := 7,
           Method := "permanent" },
         { Timestamp := 1700000000, Category := "Docker", Items := 2, BytesFreed := 13,
           Method := "permanent" }] ∧
    ((recorded (cleanCmd (sampleWorld (.ok sampleTargets) (.error "none") true)
        { cleanPermanent := true } 0).events).map (·.Category)).Nodup ∧
    (13 : Int) = sumSize (ofCategory "Docker" (succeeded sampleTargets
      ((deleteCalls (cleanCmd (sampleWorld (.ok sampleTargets) (.error "none") true)
        { cleanPermanent := true } 0).events).map (fun c => c.2.2)))) :=
  ⟨by decide,
   (clean_history_per_category (sampleWorld (.ok sampleTargets) (.error "none") true)
      { cleanPermanent := true } 0 0 sampleTargets rfl).1,
   ((clean_history_per_category (sampleWorld (.ok sampleTargets) (.error "none") true)
      { cleanPermanent := true } 0 0 sampleTargets rfl).2.2.1
      { Timestamp := 1700000000, Category := "Docker", Items := 2, BytesFreed := 13,
        Method := "permanent" } (by decide)).2.2 (by decide)⟩

/-! ## Lemmas on the scan command -/

theorem sum_values_mapAlter {β : Type} (ν : β → Int) (k : String) (f : Option β → β)
    (m : List (String × β)) :
    ((mapAlter k f m).map (fun kv => ν kv.2)).sum
      = (m.map (fun kv => ν kv.2)).sum
        + (ν (f (mapGet? k m)) - ((mapGet? k m).map ν).getD 0) := by
  induction m with
  | nil => simp [mapAlter, mapGet?]
  | cons kv rest ih =>
    obtain ⟨k1, v⟩ := kv
    by_cases h : k1 = k
    · simp [mapAlter, mapGet?, h]
      ring
    · simp [mapAlter, mapGet?, h, ih]
      ring

/-- Folding an update-or-insert step over a list: a quantity `ν` of the entries that
every step raises by `wt t` in the entry it touches sums, over the whole map, to its
start sum plus the sum of `wt` over the list. -/
theorem sum_values_foldl_mapAlter {α β : Type} (key : α → String) (upd : α → Option β → β)
    (ν : β → Int) (wt : α → Int) (hν : ∀ t o, ν (upd t o) = (o.map ν).getD 0 + wt t)
    (ts : List α) (m : List (String × β)) :
    ((ts.foldl (fun m t => mapAlter (key t) (upd t) m) m).map (fun kv => ν kv.2)).sum
      = (m.map (fun kv => ν kv.2)).sum + (ts.map wt).sum := by
  induction ts generalizing m with
  | nil => simp
  | cons t ts ih =>
    rw [List.foldl_cons, ih, sum_values_mapAlter, hν]
    simp
    ring

theorem forall_mapAlter {β : Type} (P : String → β → Prop) (k : String) (f : Option β → β)
    (m : List (String × β)) (hm : ∀ kv ∈ m, P kv.1 kv.2)
    (hf : ∀ o, (∀ v, o = some v → P k v) → P k (f o)) :
    ∀ kv ∈ mapAlter k f m, P kv.1 kv.2 := by
  induction m with
  | nil =>
    intro kv hkv
    simp only [mapAlter, List.mem_singleton] at hkv
    subst hkv
    exact hf none (fun v hv => by cases hv)
  | cons kv0 rest ih =>
    obtain ⟨k1, v⟩ := kv0
    intro kv hkv
    by_cases h : k1 = k
    · simp only [mapAlter, h, if_true, List.mem_cons] at hkv
      rcases hkv with hkv | hkv
      · subst hkv
        refine hf (some v) (fun v' hv' => ?_)
        cases hv'
        have := hm (k1, v) (List.mem_cons_self _ _)
        rwa [h] at this
      · exact hm kv (List.mem_cons_of_mem _ hkv)
    · simp only [mapAlter, h, if_false, List.mem_cons] at hkv
      rcases hkv with hkv | hkv
      · subst hkv
        exact hm _ (List.mem_cons_self _ _)
      · exact ih (fun kv hkv => hm kv (List.mem_cons_of_mem _ hkv)) kv hkv

theorem groupStep_eq (grouped : List (String × CategorySnapshot)) (t : Target) :
    groupStep grouped t = mapAlter t.Category (groupUpd t) grouped := rfl

theorem foldl_groupStep_eq (targets : List Target) (m : List (String × CategorySnapshot)) :
    targets.foldl groupStep m = targets.foldl (fun m t => mapAlter t.Category (groupUpd t) m) m :=
  rfl

theorem grouped_names (targets : List Target) (m : List (String × CategorySnapshot))
    (hm : ∀ kv ∈ m, kv.2.Name = kv.1) :
    ∀ kv ∈ targets.foldl groupStep m, kv.2.Name = kv.1 := by
  induction targets generalizing m with
  | nil => simpa using hm
  | cons t ts ih =>
    rw [List.foldl_cons]
    apply ih
    rw [groupStep_eq]
    refine forall_mapAlter (fun k v => v.Name = k) t.Category (groupUpd t) m hm ?_
    intro o ho
    cases o with
    | none => rfl
    | some v => exact ho v rfl

theorem foldl_append_singleton_eq_map {α β : Type} (g : α → β) (l : List α) (init : List β) :
    l.foldl (fun acc x => acc ++ [g x]) init = init ++ l.map g := by
  induction l generalizing init with
  | nil => simp
  | cons x xs ih => rw [List.foldl_cons, ih]; simp

/-! ## Theorems: the scan command -/

/-- C6, as stated, fails: for two Targets of one category of `2^62` bytes each, the
Snapshot holds `Size = -2^63` for the category and `TotalSize = -2^63`, while the Sizes sum
to `2^63`. -/
theorem snapshot_size_wraps :
    buildSnapshot RangeOrder.insertion 1700000000 sampleHugeTargets
      = { Timestamp := 1700000000,
          Categories := [{ Name := "Docker", Size := -9223372036854775808, Items := 2 }],
          TotalSize := -9223372036854775808 } ∧
    sumSize sampleHugeTargets = 9223372036854775808 ∧
    sumSize (ofCategory "Docker" sampleHugeTargets) = 9223372036854775808 := by
  decide

/-- C6, amended: the Snapshot that `scan` builds from a Target list holds exactly one
CategorySnapshot per distinct Category of the list; its `Size` is the sum of `Size` over
the Targets of that category in `int64` arithmetic (the sum itself whenever that lies in
the range of `int64`) and its `Items` their number; `TotalSize` is the sum of `Size` over
all Targets in `int64` arithmetic (the sum itself whenever that lies in the range of
`int64`), which is also the `int64` sum of the CategorySnapshot sizes, and equal to their
sum when no Size is negative and the sum over all Targets lies in the range of `int64`;
the `Items` sum to the number of Targets. -/
theorem snapshot_groups_by_category (ro : RangeOrder) (now : Time) (targets : List Target) :
    (((buildSnapshot ro now targets).Categories.map (·.Name)).Nodup ∧
     ∀ c, c ∈ (buildSnapshot ro now targets).Categories.map (·.Name)
       ↔ ∃ t ∈ targets, t.Category = c) ∧
    (∀ cs ∈ (buildSnapshot ro now targets).Categories,
      cs.Size = wrapInt64 (sumSize (ofCategory cs.Name targets)) ∧
      (fitsInt64 (sumSize (ofCategory cs.Name targets)) →
        cs.Size = sumSize (ofCategory cs.Name targets)) ∧
      cs.Items = (ofCategory cs.Name targets).length) ∧
    (buildSnapshot ro now targets).TotalSize = wrapInt64 (sumSize targets) ∧
    (fitsInt64 (sumSize targets) → (buildSnapshot ro now targets).TotalSize = sumSize targets) ∧
    (buildSnapshot ro now targets).TotalSize
      = wrapInt64 (((buildSnapshot ro now targets).Categories.map (·.Size)).sum) ∧
    ((∀ t ∈ targets, 0 ≤ t.Size) → fitsInt64 (sumSize targets) →
      (buildSnapshot ro now targets).TotalSize
        = ((buildSnapshot ro now targets).Categories.map (·.Size)).sum) ∧
    ((buildSnapshot ro now targets).Categories.map (·.Items)).sum = targets.length := by
  have hcats : (buildSnapshot ro now targets).Categories
      = (ro.order (targets.foldl groupStep [])).map Prod.snd := by
    simp [buildSnapshot, foldl_append_singleton_eq_map]
  have htotal : (buildSnapshot ro now targets).TotalSize = wrapInt64 (sumSize targets) := by
    simp [buildSnapshot, totalSize_eq]
  have hperm := ro.perm (targets.foldl groupStep [])
  have hname := grouped_names targets [] (by simp)
  have hn := nodup_keys_foldl_mapAlter (fun t : Target => t.Category) groupUpd targets []
    (by simp)
  rw [← foldl_groupStep_eq] at hn
  have hkeys : ((ro.order (targets.foldl groupStep [])).map Prod.snd).map (·.Name)
      = (ro.order (targets.foldl groupStep [])).map Prod.fst := by
    rw [List.map_map]
    apply List.map_congr_left
    intro kv hkv
    exact hname kv (hperm.mem_iff.mp hkv)
  have hnodup : (((ro.order (targets.foldl groupStep [])).map Prod.snd).map (·.Name)).Nodup := by
    rw [hkeys]
    exact ((hperm.map Prod.fst).nodup_iff).mpr hn
  have hmemc : ∀ c, c ∈ ((ro.order (targets.foldl groupStep [])).map Prod.snd).map (·.Name)
      ↔ ∃ t ∈ targets, t.Category = c := by
    intro c
    rw [hkeys, (hperm.map Prod.fst).mem_iff, foldl_groupStep_eq,
      mem_keys_foldl_mapAlter (fun t : Target => t.Category) groupUpd targets [] c]
    simp
  have hsize : ∀ cs ∈ (ro.order (targets.foldl groupStep [])).map Prod.snd,
      cs.Size = wrapInt64 (sumSize (ofCategory cs.Name targets)) ∧
      cs.Items = (ofCategory cs.Name targets).length := by
    intro cs hcs
    obtain ⟨kv, hkv, rfl⟩ := List.mem_map.mp hcs
    obtain ⟨k, v⟩ := kv
    have hmem := hperm.mem_iff.mp hkv
    have hk : v.Name = k := hname _ hmem
    have hget := mapGet?_of_mem _ hn k v hmem
    rw [foldl_groupStep_eq] at hget
    have h1 := measure_foldl_mapAlter_wrap (fun t : Target => t.Category) groupUpd
      (fun o => (o.map (·.Size)).getD 0) (fun t => t.Size)
      (by intro t o; cases o <;> simp [groupUpd]) targets [] k rfl
    have h2 := measure_foldl_mapAlter (fun t : Target => t.Category) groupUpd
      (fun o => (o.map (·.Items)).getD 0) (fun _ => 1)
      (by intro t o; cases o <;> simp [groupUpd]) targets [] k
    simp only [hget, Option.map_some', Option.getD_some, mapGet?, Option.map_none',
      Option.getD_none, zero_add] at h1 h2
    simp only [hk]
    constructor
    · rw [h1]; rfl
    · rw [h2, sum_map_one]; rfl
  have hsizes : ((ro.order (targets.foldl groupStep [])).map Prod.snd).map (·.Size)
      = (((ro.order (targets.foldl groupStep [])).map Prod.snd).map (·.Name)).map
          (fun k => wrapInt64 (sumSize (ofCategory k targets))) := by
    simp only [List.map_map]
    apply List.map_congr_left
    intro kv hkv
    exact (hsize kv.2 (List.mem_map_of_mem _ hkv)).1
  have hcover : ∀ t ∈ targets,
      t.Category ∈ ((ro.order (targets.foldl groupStep [])).map Prod.snd).map (·.Name) :=
    fun t ht => (hmemc t.Category).mpr ⟨t, ht, rfl⟩
  have hpart := sum_sumSize_ofCategory _ hnodup targets hcover
  rw [hcats, htotal]
  refine ⟨⟨hnodup, hmemc⟩, ?_, rfl, fun hfit => wrapInt64_of_fits _ hfit, ?_, ?_, ?_⟩
  · intro cs hcs
    obtain ⟨h1, h2⟩ := hsize cs hcs
    exact ⟨h1, fun hfit => h1.trans (wrapInt64_of_fits _ hfit), h2⟩
  · rw [hsizes, wrapInt64_sum_map_wrap, hpart]
  · intro hnn hfit
    rw [hsizes, wrapInt64_of_fits _ hfit, ← hpart]
    congr 1
    apply List.map_congr_left
    intro k _
    have hb := sumSize_filter_bounds targets hnn (fun t => decide (t.Category = k))
    symm
    apply wrapInt64_of_fits
    unfold fitsInt64 at hfit ⊢
    unfold ofCategory
    omega
  · have h := sum_values_foldl_mapAlter (fun t : Target => t.Category) groupUpd
      (fun v => v.Items) (fun _ => 1)
      (by intro t o; cases o <;> simp [groupUpd]) targets []
    rw [← foldl_groupStep_eq] at h
    rw [List.map_map]
    have hp := (hperm.map (fun kv : String × CategorySnapshot => kv.2.Items)).sum_eq
    simp only [List.map_nil, List.sum_nil, zero_add] at h
    rw [show ((fun x : CategorySnapshot => x.Items) ∘ Prod.snd)
        = (fun kv : String × CategorySnapshot => kv.2.Items) from rfl, hp, h, sum_map_one]

/-- Witness of the amended C6: five Targets of three categories. -/
theorem snapshot_groups_by_category_witness :
    buildSnapshot RangeOrder.reversed 1700000000 sampleTargets
      = { Timestamp := 1700000000,
          Categories := [{ Name := "Xcode", Size := 4, Items := 1 },
                         { Name := "System Junk", Size := 7, Items := 1 },
                         { Name := "Docker", Size := 18, Items := 3 }],
          TotalSize := 29 } ∧
    (buildSnapshot RangeOrder.reversed 1700000000 sampleTargets).TotalSize
      = sumSize sampleTargets ∧
    (buildSnapshot RangeOrder.reversed 1700000000 sampleTargets).TotalSize
      = ((buildSnapshot RangeOrder.reversed 1700000000 sampleTargets).Categories.map
          (·.Size)).sum :=
  ⟨by decide,
   (snapshot_groups_by_category RangeOrder.reversed 1700000000 sampleTargets).2.2.2.1
     (by decide),
   (snapshot_groups_by_category RangeOrder.reversed 1700000000 sampleTargets).2.2.2.2.2.1
     (by decide) (by decide)⟩

theorem lookup_some_name (s : Snapshot) (c : String) (p : CategorySnapshot)
    (h : s.lookup c = some p) : p.Name = c ∧ c ∈ s.Categories.map (·.Name) := by
  have h1 : p.Name = c := by
    have := List.find?_some h
    simpa using this
  have h2 := List.mem_of_find?_eq_some h
  exact ⟨h1, List.mem_map.mpr ⟨p, h2, h1⟩⟩

theorem lookup_none_name (s : Snapshot) (c : String) (h : s.lookup c = none) :
    c ∉ s.Categories.map (·.Name) := by
  intro hc
  obtain ⟨p, hp, hpn⟩ := List.mem_map.mp hc
  have := List.find?_eq_none.mp h p hp
  simp [hpn] at this

theorem diff_names (prev curr : Snapshot) :
    (Diff prev curr).Categories.map (·.Name)
      = (prev.Categories.map (·.Name) ++ curr.Categories.map (·.Name)).dedup := by
  simp [Diff, List.map_map, Function.comp_def]

theorem diff_entry (prev curr : Snapshot) (c : String)
    (hc : c ∈ prev.Categories.map (·.Name) ∨ c ∈ curr.Categories.map (·.Name)) :
    { Name := c,
      SizeDelta := ((curr.lookup c).getD { Name := c, Size := 0, Items := 0 }).Size
        - ((prev.lookup c).getD { Name := c, Size := 0, Items := 0 }).Size,
      ItemsDelta := ((curr.lookup c).getD { Name := c, Size := 0, Items := 0 }).Items
        - ((prev.lookup c).getD { Name := c, Size := 0, Items := 0 }).Items }
      ∈ (Diff prev curr).Categories := by
  simp only [Diff]
  exact List.mem_map.mpr ⟨c, List.mem_dedup.mpr (List.mem_append.mpr hc), rfl⟩

/-- C7: `Diff(prev, curr)` has exactly one entry per category name of either snapshot
and none for any other name; a category present in both gets the differences
`curr − prev` of `Size` and of `Items`, one present only in `curr` gets its new values,
one present only in `prev` the negation of its old values; and the overall delta is
`curr.TotalSize − prev.TotalSize`. -/
theorem diff_covers_union (prev curr : Snapshot) :
    ((Diff prev curr).Categories.map (·.Name)).Nodup ∧
    (∀ c, c ∈ (Diff prev curr).Categories.map (·.Name)
      ↔ c ∈ prev.Categories.map (·.Name) ∨ c ∈ curr.Categories.map (·.Name)) ∧
    (∀ c p q, prev.lookup c = some p → curr.lookup c = some q →
      { Name := c, SizeDelta := q.Size - p.Size, ItemsDelta := q.Items - p.Items }
        ∈ (Diff prev curr).Categories) ∧
    (∀ c q, prev.lookup c = none → curr.lookup c = some q →
      { Name := c, SizeDelta := q.Size, ItemsDelta := q.Items } ∈ (Diff prev curr).Categories) ∧
    (∀ c p, prev.lookup c = some p → curr.lookup c = none →
      { Name := c, SizeDelta := -p.Size, ItemsDelta := -p.Items }
        ∈ (Diff prev curr).Categories) ∧
    (∀ c, prev.lookup c = none → curr.lookup c = none →
      ∀ d ∈ (Diff prev curr).Categories, d.Name ≠ c) ∧
    (Diff prev curr).TotalDelta = curr.TotalSize - prev.TotalSize := by
  refine ⟨?_, ?_, ?_, ?_, ?_, ?_, rfl⟩
  · rw [diff_names]
    exact List.nodup_dedup _
  · intro c
    rw [diff_names, List.mem_dedup, List.mem_append]
  · intro c p q hp hq
    have h := diff_entry prev curr c (Or.inl (lookup_some_name prev c p hp).2)
    simpa [hp, hq] using h
  · intro c q hp hq
    have h := diff_entry prev curr c (Or.inr (lookup_some_name curr c q hq).2)
    simpa [hp, hq] using h
  · intro c p hp hq
    have h := diff_entry prev curr c (Or.inl (lookup_some_name prev c p hp).2)
    simpa [hp, hq] using h
  · intro c hp hq d hd hdc
    have hmem : c ∈ (Diff prev curr).Categories.map (·.Name) :=
      List.mem_map.mpr ⟨d, hd, hdc⟩
    rw [diff_names, List.mem_dedup, List.mem_append] at hmem
    rcases hmem with h | h
    · exact lookup_none_name prev c hp h
    · exact lookup_none_name curr c hq h

/-- Witness of C7: `Docker` is in both snapshots, `Homebrew` only in the earlier one,
`Xcode` and `System Junk` only in the later one. -/
theorem diff_covers_union_witness :
    Diff samplePrev (buildSnapshot RangeOrder.reversed 1700000000 sampleTargets)
      = { Categories := [{ Name := "Homebrew", SizeDelta := -9, ItemsDelta := -4 },
                         { Name := "Xcode", SizeDelta := 4, ItemsDelta := 1 },
                         { Name := "System Junk", SizeDelta := 7, ItemsDelta := 1 },
                         { Name := "Docker", SizeDelta := -2, ItemsDelta := 1 }],
          TotalDelta := 0 } ∧
    ({ Name := "Docker", SizeDelta := 18 - 20, ItemsDelta := 3 - 2 } : CategoryDiff)
      ∈ (Diff samplePrev
          (buildSnapshot RangeOrder.reversed 1700000000 sampleTargets)).Categories :=
  ⟨by decide,
   (diff_covers_union samplePrev
      (buildSnapshot RangeOrder.reversed 1700000000 sampleTargets)).2.2.1 "Docker"
      { Name := "Docker", Size := 20, Items := 2 } { Name := "Docker", Size := 18, Items := 3 }
      (by decide) (by decide)⟩

/-- C8: when the engine's scan succeeds, `scan` returns no error and saves the newly built
snapshot whatever the load of the previous snapshot gave; the report gets
`Diff(prev, curr)` when the load succeeded and no diff when it failed (missing or corrupt
file). When the engine's scan fails, `scan` returns an error and neither loads nor saves a
snapshot. -/
theorem scan_saves_snapshot_and_diffs {σ : Type} (w : CliWorld σ) (scanFilter : CategoryFilter)
    (scanExclude configExclude : List String) (s0 : σ) :
    (∀ targets s1,
      w.scanFiltered scanFilter
        (if scanExclude.length > 0 then configExclude ++ scanExclude else configExclude) s0
        = (.ok targets, s1) →
      (scanCmd w scanFilter scanExclude configExclude s0).err = none ∧
      (∀ prev, (w.Load s1).1 = .ok prev →
        (scanCmd w scanFilter scanExclude configExclude s0).events
          = [CliEvent.println "Scanning...", CliEvent.Load (.ok prev),
             CliEvent.printScanResults targets
               (some (Diff prev (buildSnapshot w.rangeOrder (w.now (w.Load s1).2).1 targets))),
             CliEvent.Save (buildSnapshot w.rangeOrder (w.now (w.Load s1).2).1 targets)
               (w.Save (buildSnapshot w.rangeOrder (w.now (w.Load s1).2).1 targets)
                 (w.now (w.Load s1).2).2).1]) ∧
      (∀ e, (w.Load s1).1 = .error e →
        (scanCmd w scanFilter scanExclude configExclude s0).events
          = [CliEvent.println "Scanning...", CliEvent.Load (.error e),
             CliEvent.printScanResults targets none,
             CliEvent.Save (buildSnapshot w.rangeOrder (w.now (w.Load s1).2).1 targets)
               (w.Save (buildSnapshot w.rangeOrder (w.now (w.Load s1).2).1 targets)
                 (w.now (w.Load s1).2).2).1])) ∧
    (∀ e s1,
      w.scanFiltered scanFilter
        (if scanExclude.length > 0 then configExclude ++ scanExclude else configExclude) s0
        = (.error e, s1) →
      (scanCmd w scanFilter scanExclude configExclude s0).err = some ("scan failed: " ++ e) ∧
      (scanCmd w scanFilter scanExclude configExclude s0).events
        = [CliEvent.println "Scanning..."] ∧
      (scanCmd w scanFilter scanExclude configExclude s0).state = s1) := by
  constructor
  · intro targets s1 hscan
    refine ⟨?_, ?_, ?_⟩
    · simp only [scanCmd, hscan]
    · intro prev hprev
      simp only [scanCmd, hscan, hprev, List.cons_append, List.nil_append]
    · intro e he
      simp only [scanCmd, hscan, he, List.cons_append, List.nil_append]
  · intro e s1 hscan
    simp only [scanCmd, hscan, and_self]

/-- Witness of C8: a scan over a loaded, a missing and a corrupt previous snapshot. -/
theorem scan_saves_snapshot_and_diffs_witness :
    (scanCmd (sampleWorld (.ok sampleTargets) (.ok samplePrev) true) {} [] [] 0).events
      = [CliEvent.println "Scanning...", CliEvent.Load (.ok samplePrev),
         CliEvent.printScanResults sampleTargets
           (some (Diff samplePrev (buildSnapshot RangeOrder.reversed 1700000000 sampleTargets))),
         CliEvent.Save (buildSnapshot RangeOrder.reversed 1700000000 sampleTargets) none] ∧
    (scanCmd (sampleWorld (.ok sampleTargets) (.error "no such file") true) {} [] [] 0).events
      = [CliEvent.println "Scanning...", CliEvent.Load (.error "no such file"),
         CliEvent.printScanResults sampleTargets none,
         CliEvent.Save (buildSnapshot RangeOrder.reversed 1700000000 sampleTargets) none] ∧
    (scanCmd (sampleWorld (.ok sampleTargets) (.error "unexpected end of JSON input") true)
        {} ["/tmp/**"] [] 0).err = none ∧
    (scanCmd (sampleWorld (.error "cancelled") (.ok samplePrev) true) {} [] [] 0).events
      = [CliEvent.println "Scanning..."] :=
  ⟨((scan_saves_snapshot_and_diffs (sampleWorld (.ok sampleTargets) (.ok samplePrev) true)
      {} [] [] 0).1 sampleTargets 0 rfl).2.1 samplePrev rfl,
   ((scan_saves_snapshot_and_diffs
      (sampleWorld (.ok sampleTargets) (.error "no such file") true)
      {} [] [] 0).1 sampleTargets 0 rfl).2.2 "no such file" rfl,
   ((scan_saves_snapshot_and_diffs
      (sampleWorld (.ok sampleTargets) (.error "unexpected end of JSON input") true)
      {} ["/tmp/**"] [] 0).1 sampleTargets 0 rfl).1,
   ((scan_saves_snapshot_and_diffs (sampleWorld (.error "cancelled") (.ok samplePrev) true)
      {} [] [] 0).2 "cancelled" 0 rfl).2.1⟩

/-! ## Theorems: failures of the external tools -/

/-- C11: with docker installed and a context that is not cancelled, a failing
dangling-image listing makes `Scan` return a nil Target slice and a nil error, and the
`system df` query is not run: the listing is the only command of the call log. -/
theorem docker_scan_daemon_down {σ : Type} (env : ScanEnv σ) (s0 s1 s2 : σ) (p e : String)
    (hlook : env.lookPath "docker" s0 = (.ok p, s1))
    (himg : env.runCmd "docker" DockerScanner.imagesArgs s1 = (.error e, s2))
    (hctx : env.ctxErr s2 = none) :
    (DockerScanner.Scan env s0).targets = [] ∧ (DockerScanner.Scan env s0).err = none ∧
    (DockerScanner.Scan env s0).calls
      = [Call.lookPath "docker", Call.runCmd "docker" DockerScanner.imagesArgs] ∧
    Call.runCmd "docker" DockerScanner.dfArgs ∉ (DockerScanner.Scan env s0).calls ∧
    (DockerScanner.Scan env s0).state = s2 := by
  simp only [DockerScanner.Scan, hlook, himg, hctx]
  simp [DockerScanner.dfArgs, DockerScanner.imagesArgs]

/-- Witness of C11: the daemon does not answer. -/
theorem docker_scan_daemon_down_witness :
    (DockerScanner.Scan
      (sampleDockerEnv (.error "Cannot connect to the Docker daemon") (.ok sampleDfLine))
      0).targets = [] ∧
    (DockerScanner.Scan
      (sampleDockerEnv (.error "Cannot connect to the Docker daemon") (.ok sampleDfLine))
      0).err = none :=
  ⟨(docker_scan_daemon_down
      (sampleDockerEnv (.error "Cannot connect to the Docker daemon") (.ok sampleDfLine))
      0 0 1 "/usr/local/bin/docker" "Cannot connect to the Docker daemon" rfl rfl rfl).1,
   (docker_scan_daemon_down
      (sampleDockerEnv (.error "Cannot connect to the Docker daemon") (.ok sampleDfLine))
      0 0 1 "/usr/local/bin/docker" "Cannot connect to the Docker daemon" rfl rfl rfl).2.1⟩

theorem scanDir_err {σ : Type} (env : ScanEnv σ) (dir description : String) (risk : RiskLevel)
    (s : σ) : (SimulatorScanner.scanDir env dir description risk s).err = none := by
  unfold SimulatorScanner.scanDir
  split
  · rfl
  · split <;> rfl

theorem scanDir_reportingNoDevices {σ : Type} (env : ScanEnv σ) (dir description : String)
    (risk : RiskLevel) (s : σ) :
    SimulatorScanner.scanDir (reportingNoDevices env) dir description risk s
      = SimulatorScanner.scanDir env dir description risk s := rfl

/-- What `Scan` returns when `xcrun` is found and the context is never cancelled, in terms
of its three steps. -/
theorem simulator_scan_steps {σ : Type} (env : ScanEnv σ) (libraryBase : String) (s0 s1 : σ)
    (p : String) (hlook : env.lookPath "xcrun" s0 = (.ok p, s1))
    (hctx : ∀ s, env.ctxErr s = none) :
    (SimulatorScanner.Scan env libraryBase s0).err = none ∧
    (SimulatorScanner.Scan env libraryBase s0).targets
      = (devStep env libraryBase s0).targets ++ (cacheStep env libraryBase s0).targets
        ++ (match (queryStep env libraryBase s0).err with
            | some _ => []
            | none => (queryStep env libraryBase s0).targets) := by
  simp only [SimulatorScanner.Scan, hlook, hctx, scanDir_err, devStep, cacheStep, queryStep,
    devicesDir, cachesDir]
  cases (SimulatorScanner.findUnavailableDevices env _).err <;> simp

theorem rangeOrder_nil (ro : RangeOrder) {α : Type} : ro.order ([] : List α) = [] :=
  List.Perm.eq_nil (ro.perm [])

theorem devStep_reportingNoDevices {σ : Type} (env : ScanEnv σ) (libraryBase : String)
    (s0 : σ) : devStep (reportingNoDevices env) libraryBase s0 = devStep env libraryBase s0 :=
  rfl

theorem cacheStep_reportingNoDevices {σ : Type} (env : ScanEnv σ) (libraryBase : String)
    (s0 : σ) : cacheStep (reportingNoDevices env) libraryBase s0 = cacheStep env libraryBase s0 :=
  rfl

theorem queryStep_reportingNoDevices {σ : Type} (env : ScanEnv σ) (libraryBase : String)
    (s0 : σ) :
    (queryStep (reportingNoDevices env) libraryBase s0).err = none ∧
    (queryStep (reportingNoDevices env) libraryBase s0).targets = [] := by
  have h : (reportingNoDevices env).rangeOrder.order
      ([] : List (String × List simctlDeviceInfo)) = [] := rangeOrder_nil _
  simp [queryStep, SimulatorScanner.findUnavailableDevices, reportingNoDevices] at h ⊢
  simp [h]

/-- C12: with `xcrun` installed and a context that is not cancelled, a failing
unavailable-device query (command error, or output that is not parseable JSON) makes
`Scan` return no error and exactly the Targets of the `Devices` and `Caches` directories,
the same Targets in the same order as in the world where the query reports no devices. -/
theorem simulator_scan_query_failure {σ : Type} (env : ScanEnv σ) (libraryBase : String)
    (s0 s1 : σ) (p : String) (hlook : env.lookPath "xcrun" s0 = (.ok p, s1))
    (hctx : ∀ s, env.ctxErr s = none)
    (hfail : (∃ e, (env.runCmd "xcrun" SimulatorScanner.simctlArgs
        (cacheStep env libraryBase s0).state).1 = .error e) ∨
      (∃ out e, (env.runCmd "xcrun" SimulatorScanner.simctlArgs
        (cacheStep env libraryBase s0).state).1 = .ok out ∧ env.decodeSimctl out = .error e)) :
    (SimulatorScanner.Scan env libraryBase s0).err = none ∧
    (SimulatorScanner.Scan env libraryBase s0).targets
      = (devStep env libraryBase s0).targets ++ (cacheStep env libraryBase s0).targets ∧
    (SimulatorScanner.Scan (reportingNoDevices env) libraryBase s0).err = none ∧
    (SimulatorScanner.Scan (reportingNoDevices env) libraryBase s0).targets
      = (SimulatorScanner.Scan env libraryBase s0).targets := by
  have hq : (queryStep env libraryBase s0).err ≠ none := by
    simp only [queryStep]
    rcases hr : env.runCmd "xcrun" SimulatorScanner.simctlArgs
      (cacheStep env libraryBase s0).state with ⟨r, s'⟩
    rw [hr] at hfail
    rcases hfail with ⟨e, he⟩ | ⟨out, e, ho, hd⟩
    · simp only at he
      subst he
      simp [SimulatorScanner.findUnavailableDevices, hr]
    · simp only at ho
      subst ho
      simp [SimulatorScanner.findUnavailableDevices, hr, hd]
  obtain ⟨h1, h2⟩ := simulator_scan_steps env libraryBase s0 s1 p hlook hctx
  obtain ⟨h3, h4⟩ := simulator_scan_steps (reportingNoDevices env) libraryBase s0 s1 p hlook
    hctx
  have h2' : (SimulatorScanner.Scan env libraryBase s0).targets
      = (devStep env libraryBase s0).targets ++ (cacheStep env libraryBase s0).targets := by
    rw [h2]
    cases hq' : (queryStep env libraryBase s0).err with
    | none => exact absurd hq' hq
    | some e => simp
  refine ⟨h1, h2', h3, ?_⟩
  rw [h2', h4, devStep_reportingNoDevices, cacheStep_reportingNoDevices,
    (queryStep_reportingNoDevices env libraryBase s0).1,
    (queryStep_reportingNoDevices env libraryBase s0).2]
  simp

/-- Witness of C12: the query fails, then its output is not JSON; both times the two
Targets on disk with non-zero size besides the plain file are returned. -/
theorem simulator_scan_query_failure_witness :
    ((SimulatorScanner.Scan (sampleFsEnv true (.error "simctl failed")) "/lib" 0).targets).map
        (fun t => (t.Path, t.Size))
      = [("/lib/Developer/CoreSimulator/Devices/AAAA", 4096),
         ("/lib/Developer/CoreSimulator/Devices/notes.txt", 12),
         ("/lib/Developer/CoreSimulator/Caches/rt", 2048)] ∧
    (SimulatorScanner.Scan (sampleFsEnv true (.error "simctl failed")) "/lib" 0).err = none ∧
    (SimulatorScanner.Scan (sampleFsEnv true (.ok "not json")) "/lib" 0).targets
      = (SimulatorScanner.Scan (reportingNoDevices (sampleFsEnv true (.ok "not json"))) "/lib"
          0).targets :=
  ⟨by decide,
   (simulator_scan_query_failure (sampleFsEnv true (.error "simctl failed")) "/lib" 0 0
      "/usr/bin/xcrun" rfl (fun _ => rfl) (Or.inl ⟨"simctl failed", rfl⟩)).1,
   ((simulator_scan_query_failure (sampleFsEnv true (.ok "not json")) "/lib" 0 0
      "/usr/bin/xcrun" rfl (fun _ => rfl)
      (Or.inr ⟨"not json", "invalid character", rfl, rfl⟩)).2.2.2).symm⟩

/-! ## Lemmas on the simulator scanner -/

theorem scanDir_loop {σ : Type} (env : ScanEnv σ) (dir description : String) (risk : RiskLevel)
    (entries : List DirEntry) (acc : SimulatorScanner.DirAcc σ) :
    (entries.foldl (SimulatorScanner.scanDirStep env dir description risk) acc).targets
      = acc.targets
        ++ (nonZero (measureEntries env dir entries acc.state).1).map (dirTarget description risk) ∧
    (entries.foldl (SimulatorScanner.scanDirStep env dir description risk) acc).state
      = (measureEntries env dir entries acc.state).2 := by
  induction entries generalizing acc with
  | nil => simp [measureEntries, nonZero]
  | cons e es ih =>
    rw [List.foldl_cons]
    obtain ⟨ih1, ih2⟩ := ih (SimulatorScanner.scanDirStep env dir description risk acc e)
    rw [ih1, ih2]
    cases hi : e.Info with
    | error err => simp [SimulatorScanner.scanDirStep, measureEntries, hi]
    | ok info =>
      by_cases hd : info.IsDir = true
      · by_cases hz : (env.dirSize (env.joinPath [dir, e.Name]) acc.state).1 = 0
        · simp [SimulatorScanner.scanDirStep, measureEntries, hi, hd, hz, nonZero,
            List.filter_cons]
        · simp [SimulatorScanner.scanDirStep, measureEntries, hi, hd, hz, nonZero,
            List.filter_cons, dirTarget]
      · by_cases hz : info.Size = 0
        · simp [SimulatorScanner.scanDirStep, measureEntries, hi, hd, hz, nonZero,
            List.filter_cons]
        · simp [SimulatorScanner.scanDirStep, measureEntries, hi, hd, hz, nonZero,
            List.filter_cons, dirTarget]

/-- `scanDir` returns one Target per measured entry of non-zero size, in listing order. -/
theorem scanDir_spec {σ : Type} (env : ScanEnv σ) (dir description : String) (risk : RiskLevel)
    (s : σ) :
    (SimulatorScanner.scanDir env dir description risk s).targets
      = (nonZero (listDir env dir s).1).map (dirTarget description risk) ∧
    (SimulatorScanner.scanDir env dir description risk s).state = (listDir env dir s).2 := by
  rcases h1 : env.dirExists dir s with ⟨b, s1⟩
  cases b with
  | false => simp [SimulatorScanner.scanDir, listDir, h1, nonZero]
  | true =>
    rcases h2 : env.readDir dir s1 with ⟨r, s2⟩
    cases r with
    | error e => simp [SimulatorScanner.scanDir, listDir, h1, h2, nonZero]
    | ok entries =>
      have := scanDir_loop env dir description risk entries
        ⟨[], [.dirExists dir, .readDir dir], s2⟩
      simpa [SimulatorScanner.scanDir, listDir, h1, h2] using this

theorem foldl_deviceStep (runtime : String) (devs : List simctlDeviceInfo) (init : List Target) :
    devs.foldl (SimulatorScanner.deviceStep runtime) init
      = init ++ devs.map (fun d => unavailableTarget (runtime, d)) := by
  induction devs generalizing init with
  | nil => simp
  | cons d ds ih =>
    rw [List.foldl_cons, ih]
    simp [SimulatorScanner.deviceStep, unavailableTarget]

theorem foldl_runtimeStep (l : List (String × List simctlDeviceInfo)) (init : List Target) :
    l.foldl SimulatorScanner.runtimeStep init
      = init ++ (l.flatMap fun kv => kv.2.map fun d => (kv.1, d)).map unavailableTarget := by
  induction l generalizing init with
  | nil => simp
  | cons kv rest ih =>
    rw [List.foldl_cons, ih]
    simp [SimulatorScanner.runtimeStep, foldl_deviceStep, List.flatMap_cons]

/-- What the unavailable-device query contributes to a scan: one Target per device
record of its listing. -/
theorem findUnavailableDevices_spec {σ : Type} (env : ScanEnv σ) (s : σ) :
    (match (SimulatorScanner.findUnavailableDevices env s).err with
      | some _ => []
      | none => (SimulatorScanner.findUnavailableDevices env s).targets)
      = (unavailableListing env s).map unavailableTarget ∧
    (SimulatorScanner.findUnavailableDevices env s).targets
      = (unavailableListing env s).map unavailableTarget := by
  rcases h1 : env.runCmd "xcrun" SimulatorScanner.simctlArgs s with ⟨r, s1⟩
  cases r with
  | error e => simp [SimulatorScanner.findUnavailableDevices, unavailableListing, h1]
  | ok out =>
    cases h2 : env.decodeSimctl out with
    | error e => simp [SimulatorScanner.findUnavailableDevices, unavailableListing, h1, h2]
    | ok devices =>
      simp [SimulatorScanner.findUnavailableDevices, unavailableListing, h1, h2,
        foldl_runtimeStep]

/-- The Targets of every simulator scan come from its three steps. -/
theorem simulator_scan_subset {σ : Type} (env : ScanEnv σ) (libraryBase : String) (s0 : σ) :
    ∀ t ∈ (SimulatorScanner.Scan env libraryBase s0).targets,
      t ∈ (devStep env libraryBase s0).targets ∨ t ∈ (cacheStep env libraryBase s0).targets ∨
      t ∈ (queryStep env libraryBase s0).targets := by
  intro t ht
  rcases hl : env.lookPath "xcrun" s0 with ⟨r, s1⟩
  cases r with
  | error e => simp [SimulatorScanner.Scan, hl] at ht
  | ok p =>
    simp only [SimulatorScanner.Scan, hl, scanDir_err] at ht
    simp only [devStep, cacheStep, queryStep, devicesDir, cachesDir, hl]
    split at ht
    · simp at ht
    · split at ht
      · simp at ht
      · split at ht
        · simp at ht
        · split at ht
          · split at ht
            · simp at ht
            · simp only [List.mem_append] at ht
              tauto
          · simp only [List.mem_append] at ht
            tauto

/-- What a simulator scan that found `xcrun` and returned no error returns, in terms of
its three steps. -/
theorem simulator_scan_ok {σ : Type} (env : ScanEnv σ) (libraryBase : String) (s0 s1 : σ)
    (p : String) (hlook : env.lookPath "xcrun" s0 = (.ok p, s1))
    (hok : (SimulatorScanner.Scan env libraryBase s0).err = none) :
    (SimulatorScanner.Scan env libraryBase s0).targets
      = (devStep env libraryBase s0).targets ++ (cacheStep env libraryBase s0).targets
        ++ (match (queryStep env libraryBase s0).err with
            | some _ => []
            | none => (queryStep env libraryBase s0).targets) := by
  simp only [SimulatorScanner.Scan, hlook, scanDir_err] at hok ⊢
  simp only [devStep, cacheStep, queryStep, devicesDir, cachesDir, hlook]
  split at hok
  · simp at hok
  · split at hok
    · simp at hok
    · split at hok
      · simp at hok
      · split at hok
        · split at hok
          · simp at hok
          · rename_i h4 _ h5
            simp [h4, h5]
        · rename_i h4
          simp [h4]

/-! ## Theorems: what the simulator scanner returns -/

/-- C13, as stated, fails: when `xcrun` is not found the scan is successful and empty,
although the `Devices` directory holds two entries of non-zero size. -/
theorem simulator_scan_absent_tool_lists_nothing :
    (SimulatorScanner.Scan (sampleFsEnv false (.ok sampleSimctlOut)) "/lib" 0).err = none ∧
    (SimulatorScanner.Scan (sampleFsEnv false (.ok sampleSimctlOut)) "/lib" 0).targets = [] ∧
    (nonZero (listDir (sampleFsEnv false (.ok sampleSimctlOut))
      (devicesDir (sampleFsEnv false (.ok sampleSimctlOut)) "/lib") 0).1).map (·.path)
      = ["/lib/Developer/CoreSimulator/Devices/AAAA",
         "/lib/Developer/CoreSimulator/Devices/notes.txt"] := by
  decide

/-- C13, amended: every successful `Scan` that found `xcrun` returns the concatenation of
(1) one Target per readable entry of non-zero size of the `Devices` directory, Risk
Moderate, Description `Simulator device data`, (2) one Target per readable entry of
non-zero size of the `Caches` directory, Risk Safe, Description `Simulator cache`, (3) one
synthetic Target per device record of the unavailable-device listing, Path `simulator `
followed by the UDID, Size 0, Risk Moderate; a missing or unreadable directory
contributes no Target, and every Target has Category `iOS Simulators`. -/
theorem simulator_scan_three_groups {σ : Type} (env : ScanEnv σ) (libraryBase : String)
    (s0 s1 : σ) (p : String) (hlook : env.lookPath "xcrun" s0 = (.ok p, s1))
    (hok : (SimulatorScanner.Scan env libraryBase s0).err = none) :
    (SimulatorScanner.Scan env libraryBase s0).targets
      = (nonZero (listDir env (devicesDir env libraryBase) s1).1).map
          (dirTarget "Simulator device data" RiskLevel.Moderate)
        ++ (nonZero (listDir env (cachesDir env libraryBase)
              (listDir env (devicesDir env libraryBase) s1).2).1).map
            (dirTarget "Simulator cache" RiskLevel.Safe)
        ++ (unavailableListing env (listDir env (cachesDir env libraryBase)
              (listDir env (devicesDir env libraryBase) s1).2).2).map unavailableTarget ∧
    (∀ t ∈ (SimulatorScanner.Scan env libraryBase s0).targets, t.Category = "iOS Simulators") ∧
    (∀ description risk e,
      (dirTarget description risk e).Path = e.path ∧ (dirTarget description risk e).Size = e.size ∧
      (dirTarget description risk e).Description = description ∧
      (dirTarget description risk e).Risk = risk) ∧
    (∀ rd, (unavailableTarget rd).Path = "simulator " ++ rd.2.UDID ∧
      (unavailableTarget rd).Size = 0 ∧ (unavailableTarget rd).Risk = RiskLevel.Moderate) ∧
    (∀ dir s, (env.dirExists dir s).1 = false → (listDir env dir s).1 = []) ∧
    (∀ dir s e, (env.dirExists dir s).1 = true →
      (env.readDir dir (env.dirExists dir s).2).1 = .error e → (listDir env dir s).1 = []) := by
  have hs1 : (env.lookPath "xcrun" s0).2 = s1 := by rw [hlook]
  have ht : (SimulatorScanner.Scan env libraryBase s0).targets
      = (nonZero (listDir env (devicesDir env libraryBase) s1).1).map
          (dirTarget "Simulator device data" RiskLevel.Moderate)
        ++ (nonZero (listDir env (cachesDir env libraryBase)
              (listDir env (devicesDir env libraryBase) s1).2).1).map
            (dirTarget "Simulator cache" RiskLevel.Safe)
        ++ (unavailableListing env (listDir env (cachesDir env libraryBase)
              (listDir env (devicesDir env libraryBase) s1).2).2).map unavailableTarget := by
    rw [simulator_scan_ok env libraryBase s0 s1 p hlook hok]
    simp only [queryStep, (findUnavailableDevices_spec env _).1]
    simp only [cacheStep, devStep, hs1, (scanDir_spec env _ _ _ _).1, (scanDir_spec env _ _ _ _).2]
  refine ⟨ht, ?_, fun _ _ _ => ⟨rfl, rfl, rfl, rfl⟩, fun _ => ⟨rfl, rfl, rfl⟩, ?_, ?_⟩
  · intro t hmem
    rw [ht] at hmem
    simp only [List.mem_append, List.mem_map] at hmem
    rcases hmem with (⟨e, -, rfl⟩ | ⟨e, -, rfl⟩) | ⟨rd, -, rfl⟩ <;> rfl
  · intro dir s h
    rcases hd : env.dirExists dir s with ⟨b, s'⟩
    rw [hd] at h
    simp only at h
    subst h
    simp [listDir, hd]
  · intro dir s e hb h
    rcases hd : env.dirExists dir s with ⟨b, s'⟩
    rw [hd] at h hb
    simp only at hb
    subst hb
    rcases hr : env.readDir dir s' with ⟨r, s''⟩
    rw [hr] at h
    simp only at h
    subst h
    simp [listDir, hd, hr]

set_option maxRecDepth 20000 in
/-- Witness of the amended C13: two device entries, one cache entry, three unavailable
devices. -/
theorem simulator_scan_three_groups_witness :
    ((SimulatorScanner.Scan (sampleFsEnv true (.ok sampleSimctlOut)) "/lib" 0).targets).map
        (fun t => (t.Path, t.Size, t.Risk))
      = [("/lib/Developer/CoreSimulator/Devices/AAAA", 4096, RiskLevel.Moderate),
         ("/lib/Developer/CoreSimulator/Devices/notes.txt", 12, RiskLevel.Moderate),
         ("/lib/Developer/CoreSimulator/Caches/rt", 2048, RiskLevel.Safe),
         ("simulator AAA-111", 0, RiskLevel.Moderate),
         ("simulator BBB-222", 0, RiskLevel.Moderate),
         ("simulator CCC-333", 0, RiskLevel.Moderate)] ∧
    ∀ t ∈ (SimulatorScanner.Scan (sampleFsEnv true (.ok sampleSimctlOut)) "/lib" 0).targets,
      t.Category = "iOS Simulators" :=
  ⟨by decide,
   (simulator_scan_three_groups (sampleFsEnv true (.ok sampleSimctlOut)) "/lib" 0 0
      "/usr/bin/xcrun" rfl (by decide)).2.1⟩

/-! ## Lemmas on the docker scanner -/

/-- What a docker scan whose two queries succeed returns. -/
theorem docker_scan_both_succeed {σ : Type} (env : ScanEnv σ) (s0 s1 s2 s3 : σ)
    (p out1 out2 : String)
    (hlook : env.lookPath "docker" s0 = (.ok p, s1))
    (himg : env.runCmd "docker" DockerScanner.imagesArgs s1 = (.ok out1, s2))
    (hdf : env.runCmd "docker" DockerScanner.dfArgs s2 = (.ok out2, s3)) :
    (DockerScanner.Scan env s0).err = none ∧
    (DockerScanner.Scan env s0).targets
      = (nonEmptyLines out1).map imageTarget
        ++ (buildCacheRecords env.decodeDf out2).map buildCacheTarget := by
  constructor
  · simp only [DockerScanner.Scan, hlook, himg, hdf]
  · simp only [DockerScanner.Scan, hlook, himg, hdf]
    rw [foldl_dfStep, foldl_imageStep]
    simp [nonEmptyLines, buildCacheRecords]

theorem splitN2Chars_tab (cs : List Char) :
    splitN2Chars '\t' cs
      = if '\t' ∈ cs then
          [cs.takeWhile (fun c => decide (c ≠ '\t')),
           (cs.dropWhile (fun c => decide (c ≠ '\t'))).tail]
        else [cs] := by
  induction cs with
  | nil => simp [splitN2Chars]
  | cons c cs ih =>
    by_cases hc : c = '\t'
    · subst hc
      simp [splitN2Chars]
    · have hc' : ¬ '\t' = c := fun h => hc h.symm
      rw [splitN2Chars, if_neg hc, ih]
      by_cases hm : '\t' ∈ cs
      · simp [hm, hc, hc', List.takeWhile_cons, List.dropWhile_cons]
      · simp [hm, hc, hc']

/-- The image Target of a line, field by field. -/
theorem imageTarget_fields (line : String) :
    imageTarget line
      = { Path := "docker image " ++ beforeTab line,
          Size := 0,
          Category := "Docker",
          Description :=
            match afterTab? line with
            | some size => "Dangling image (" ++ TrimSpace size ++ ")"
            | none => "Dangling image",
          Risk := RiskLevel.Moderate,
          ModTime := 0,
          IsDir := false } := by
  by_cases hm : '\t' ∈ line.data
  · simp [imageTarget, SplitN2Tab, splitN2Chars_tab, beforeTab, afterTab?, hm]
  · have htw : line.data.takeWhile (fun c => !decide (c = '\t')) = line.data := by
      apply List.takeWhile_eq_self_iff.mpr
      intro c hc
      simp only [Bool.not_eq_true', decide_eq_false_iff_not]
      rintro rfl
      exact hm hc
    simp [imageTarget, SplitN2Tab, splitN2Chars_tab, beforeTab, afterTab?, hm, htw]

theorem trimSpaceChars_of_all_space (cs : List Char) (h : ∀ c ∈ cs, isSpace c = true) :
    trimSpaceChars cs = [] := by
  have : cs.dropWhile isSpace = [] := List.dropWhile_eq_nil_iff.mpr h
  simp [trimSpaceChars, this]

theorem nonEmptyLines_of_all_space (out : String) (h : ∀ c ∈ out.data, isSpace c = true) :
    nonEmptyLines out = [] := by
  simp [nonEmptyLines, TrimSpace, trimSpaceChars_of_all_space _ h, SplitLines, splitChars]

theorem imagePath_ne_buildCachePath (x : String) : "docker image " ++ x ≠ "docker build cache" := by
  intro h
  have h' := congrArg String.data h
  rw [String.data_append] at h'
  have e1 : "docker image ".data
      = ['d', 'o', 'c', 'k', 'e', 'r', ' ', 'i', 'm', 'a', 'g', 'e', ' '] := rfl
  have e2 : "docker build cache".data
      = ['d', 'o', 'c', 'k', 'e', 'r', ' ', 'b', 'u', 'i', 'l', 'd', ' ', 'c', 'a', 'c', 'h', 'e'] :=
    rfl
  rw [e1, e2] at h'
  simp at h'

/-- What a docker scan that got its image listing and returned no error returns. -/
theorem docker_scan_ok {σ : Type} (env : ScanEnv σ) (s0 s1 s2 : σ) (p out1 : String)
    (hlook : env.lookPath "docker" s0 = (.ok p, s1))
    (himg : env.runCmd "docker" DockerScanner.imagesArgs s1 = (.ok out1, s2))
    (hok : (DockerScanner.Scan env s0).err = none) :
    (DockerScanner.Scan env s0).targets
      = (nonEmptyLines out1).map imageTarget ++ (dfListing env s2).map buildCacheTarget := by
  rcases hdf : env.runCmd "docker" DockerScanner.dfArgs s2 with ⟨r, s3⟩
  cases r with
  | ok out2 =>
    have := (docker_scan_both_succeed env s0 s1 s2 s3 p out1 out2 hlook himg hdf).2
    rw [this]
    simp [dfListing, hdf]
  | error e =>
    simp only [DockerScanner.Scan, hlook, himg, hdf] at hok ⊢
    cases hc : env.ctxErr s3 with
    | some e' => simp [hc] at hok
    | none => simp [hc, dfListing, hdf, foldl_imageStep, nonEmptyLines]

/-- Every Target of a docker scan is the image Target of a line or the build-cache Target
of a record. -/
theorem docker_scan_subset {σ : Type} (env : ScanEnv σ) (s0 : σ) :
    ∀ t ∈ (DockerScanner.Scan env s0).targets,
      (∃ line, t = imageTarget line) ∨ (∃ df, t = buildCacheTarget df) := by
  intro t ht
  rcases hl : env.lookPath "docker" s0 with ⟨r, s1⟩
  cases r with
  | error e => simp [DockerScanner.Scan, hl] at ht
  | ok p =>
    rcases hi : env.runCmd "docker" DockerScanner.imagesArgs s1 with ⟨r1, s2⟩
    cases r1 with
    | error e =>
      simp only [DockerScanner.Scan, hl, hi] at ht
      cases hc : env.ctxErr s2 <;> simp [hc] at ht
    | ok out1 =>
      rcases hd : env.runCmd "docker" DockerScanner.dfArgs s2 with ⟨r2, s3⟩
      cases r2 with
      | error e =>
        simp only [DockerScanner.Scan, hl, hi, hd] at ht
        cases hc : env.ctxErr s3 with
        | some e' => simp [hc] at ht
        | none =>
          simp only [hc, foldl_imageStep, List.nil_append, List.mem_map] at ht
          obtain ⟨line, -, rfl⟩ := ht
          exact Or.inl ⟨line, rfl⟩
      | ok out2 =>
        simp only [DockerScanner.Scan, hl, hi, hd, foldl_dfStep, foldl_imageStep,
          List.nil_append, List.mem_append, List.mem_map] at ht
        rcases ht with ⟨line, -, rfl⟩ | ⟨df, -, rfl⟩
        · exact Or.inl ⟨line, rfl⟩
        · exact Or.inr ⟨df, rfl⟩

/-! ## Theorems: what the docker scanner returns -/

/-- C14: in a docker scan that got its image listing and returned no error, the Targets
are one image Target per non-empty line of the trimmed listing, in line order, followed
by build-cache Targets only; the image Target of a line has Path `docker image ` followed
by the text before the first tab, Description `Dangling image (<size>)` with `<size>` the
trimmed text after the first tab, or `Dangling image` when the line has no tab, Category
`Docker`, Risk Moderate and Size 0; an empty or whitespace-only listing yields no image
Target. -/
theorem docker_scan_image_targets {σ : Type} (env : ScanEnv σ) (s0 s1 s2 : σ)
    (p out1 : String)
    (hlook : env.lookPath "docker" s0 = (.ok p, s1))
    (himg : env.runCmd "docker" DockerScanner.imagesArgs s1 = (.ok out1, s2))
    (hok : (DockerScanner.Scan env s0).err = none) :
    (DockerScanner.Scan env s0).targets
      = (nonEmptyLines out1).map imageTarget ++ (dfListing env s2).map buildCacheTarget ∧
    (∀ line,
      imageTarget line
        = { Path := "docker image " ++ beforeTab line,
            Size := 0,
            Category := "Docker",
            Description :=
              match afterTab? line with
              | some size => "Dangling image (" ++ TrimSpace size ++ ")"
              | none => "Dangling image",
            Risk := RiskLevel.Moderate,
            ModTime := 0,
            IsDir := false }) ∧
    (∀ df line, buildCacheTarget df ≠ imageTarget line) ∧
    ((∀ c ∈ out1.data, isSpace c = true) →
      ∀ t ∈ (DockerScanner.Scan env s0).targets, ∀ line, t ≠ imageTarget line) := by
  have ht := docker_scan_ok env s0 s1 s2 p out1 hlook himg hok
  have hne : ∀ df line, buildCacheTarget df ≠ imageTarget line := by
    intro df line h
    have hp := congrArg Target.Path h
    exact imagePath_ne_buildCachePath _ hp.symm
  refine ⟨ht, imageTarget_fields, hne, ?_⟩
  intro hsp t hmem line
  rw [ht, nonEmptyLines_of_all_space out1 hsp] at hmem
  simp only [List.map_nil, List.nil_append, List.mem_map] at hmem
  obtain ⟨df, -, rfl⟩ := hmem
  exact hne df line

/-- Witness of C14: a line with id and size, a line with an id only, and a failing
`system df`. -/
theorem docker_scan_image_targets_witness :
    (DockerScanner.Scan (sampleDockerEnv (.ok "abc123\t 1.2GB \n\ndef456\n") (.error "exit 1"))
        0).targets
      = [{ Path := "docker image abc123", Description := "Dangling image (1.2GB)",
           Category := "Docker", Risk := RiskLevel.Moderate },
         { Path := "docker image def456", Description := "Dangling image",
           Category := "Docker", Risk := RiskLevel.Moderate }] ∧
    (DockerScanner.Scan (sampleDockerEnv (.ok "abc123\t 1.2GB \n\ndef456\n") (.error "exit 1"))
        0).targets
      = (nonEmptyLines "abc123\t 1.2GB \n\ndef456\n").map imageTarget
        ++ (dfListing (sampleDockerEnv (.ok "abc123\t 1.2GB \n\ndef456\n") (.error "exit 1"))
            1).map buildCacheTarget :=
  ⟨by decide,
   (docker_scan_image_targets (sampleDockerEnv (.ok "abc123\t 1.2GB \n\ndef456\n")
      (.error "exit 1")) 0 0 1 "/usr/local/bin/docker" "abc123\t 1.2GB \n\ndef456\n"
      rfl rfl (by decide)).1⟩

/-- C15, as stated, fails: a `system df` output with two `Build Cache` records gives two
Targets with Path `docker build cache`. -/
theorem docker_scan_two_build_caches :
    ((DockerScanner.Scan
        (sampleDockerEnv (.ok "") (.ok (sampleDfLine ++ "\n" ++ sampleDfLine))) 0).targets).map
        (·.Path)
      = ["docker build cache", "docker build cache"] := by
  decide

/-- C15, amended: in a docker scan whose two queries succeed, the Targets with Path
`docker build cache` are one per record of Type `Build Cache` of the `system df` output,
in order (exactly one when there is exactly one such record, none when there is none);
each is tagged Safe, has Category `Docker` and Description
`Build cache (<Size>, <Reclaimable> reclaimable)` with the record's fields verbatim. -/
theorem docker_scan_build_cache_targets {σ : Type} (env : ScanEnv σ) (s0 s1 s2 s3 : σ)
    (p out1 out2 : String)
    (hlook : env.lookPath "docker" s0 = (.ok p, s1))
    (himg : env.runCmd "docker" DockerScanner.imagesArgs s1 = (.ok out1, s2))
    (hdf : env.runCmd "docker" DockerScanner.dfArgs s2 = (.ok out2, s3)) :
    (DockerScanner.Scan env s0).targets.filter (fun t => decide (t.Path = "docker build cache"))
      = (buildCacheRecords env.decodeDf out2).map buildCacheTarget ∧
    (∀ df, buildCacheRecords env.decodeDf out2 = [df] →
      (DockerScanner.Scan env s0).targets.filter
          (fun t => decide (t.Path = "docker build cache"))
        = [buildCacheTarget df]) ∧
    (buildCacheRecords env.decodeDf out2 = [] →
      ∀ t ∈ (DockerScanner.Scan env s0).targets, t.Path ≠ "docker build cache") ∧
    (∀ df,
      buildCacheTarget df
        = { Path := "docker build cache",
            Size := 0,
            Category := "Docker",
            Description := "Build cache (" ++ df.Size ++ ", " ++ df.Reclaimable ++ " reclaimable)",
            Risk := RiskLevel.Safe,
            ModTime := 0,
            IsDir := false }) ∧
    (∀ df ∈ buildCacheRecords env.decodeDf out2, df.Type_ = "Build Cache") := by
  have ht := (docker_scan_both_succeed env s0 s1 s2 s3 p out1 out2 hlook himg hdf).2
  have hf : (DockerScanner.Scan env s0).targets.filter
      (fun t => decide (t.Path = "docker build cache"))
      = (buildCacheRecords env.decodeDf out2).map buildCacheTarget := by
    rw [ht, List.filter_append]
    have h1 : ((nonEmptyLines out1).map imageTarget).filter
        (fun t => decide (t.Path = "docker build cache")) = [] := by
      rw [List.filter_eq_nil_iff]
      intro t hmem
      obtain ⟨line, -, rfl⟩ := List.mem_map.mp hmem
      simpa [imageTarget] using imagePath_ne_buildCachePath _
    have h2 : ((buildCacheRecords env.decodeDf out2).map buildCacheTarget).filter
        (fun t => decide (t.Path = "docker build cache"))
        = (buildCacheRecords env.decodeDf out2).map buildCacheTarget := by
      rw [List.filter_eq_self]
      intro t hmem
      obtain ⟨df, -, rfl⟩ := List.mem_map.mp hmem
      simp [buildCacheTarget]
    rw [h1, h2, List.nil_append]
  refine ⟨hf, ?_, ?_, fun _ => rfl, ?_⟩
  · intro df h
    rw [hf, h]
    rfl
  · intro h t hmem hp
    have : t ∈ (DockerScanner.Scan env s0).targets.filter
        (fun t => decide (t.Path = "docker build cache")) :=
      List.mem_filter.mpr ⟨hmem, by simpa using hp⟩
    rw [hf, h] at this
    cases this
  · intro df hmem
    simp only [buildCacheRecords, List.mem_filterMap] at hmem
    obtain ⟨l, -, hl⟩ := hmem
    cases hd : env.decodeDf l with
    | none => simp [hd] at hl
    | some df' =>
      by_cases ht' : df'.Type_ = "Build Cache"
      · simp [hd, ht'] at hl
        subst hl
        exact ht'
      · simp [hd, ht'] at hl

/-- Witness of the amended C15: the outputs of `TestDockerScanner_ParsesDanglingImages`. -/
theorem docker_scan_build_cache_targets_witness :
    (DockerScanner.Scan (sampleDockerEnv (.ok "abc123\t1.2GB\ndef456\t500MB\n")
        (.ok sampleDfLine)) 0).targets.filter (fun t => decide (t.Path = "docker build cache"))
      = [{ Path := "docker build cache",
           Description := "Build cache (2.5GB, 1.8GB (72%) reclaimable)",
           Category := "Docker", Risk := RiskLevel.Safe }] :=
  (docker_scan_build_cache_targets (sampleDockerEnv (.ok "abc123\t1.2GB\ndef456\t500MB\n")
      (.ok sampleDfLine)) 0 0 1 2 "/usr/local/bin/docker" "abc123\t1.2GB\ndef456\t500MB\n"
      sampleDfLine rfl rfl rfl).2.1
    { Type_ := "Build Cache", Reclaimable := "1.8GB (72%)", Size := "2.5GB" } (by decide)

/-- C16, as stated, fails: a line of the image listing without tab-separated fields is
not skipped, it produces a Target, whereas without that line there is none. -/
theorem docker_scan_keeps_line_without_tab :
    '\t' ∉ "abc123".data ∧
    (DockerScanner.Scan (sampleDockerEnv (.ok "abc123") (.ok "")) 0).targets
      = [{ Path := "docker image abc123", Description := "Dangling image",
           Category := "Docker", Risk := RiskLevel.Moderate }] ∧
    (DockerScanner.Scan (sampleDockerEnv (.ok "") (.ok "")) 0).targets = [] := by
  decide

/-- A line of the `system df` output that cannot be decoded leaves the loop as it found
it. -/
theorem foldl_dfStep_skip (decodeDf : String → Option DfRecord) (pre post : List String)
    (bad : String) (hbad : decodeDf bad = none) (init : List Target) :
    (pre ++ bad :: post).foldl (DockerScanner.dfStep decodeDf) init
      = (pre ++ post).foldl (DockerScanner.dfStep decodeDf) init := by
  have hstep : ∀ acc, DockerScanner.dfStep decodeDf acc bad = acc := by
    intro acc
    by_cases hb : bad = "" <;> simp [DockerScanner.dfStep, hb, hbad]
  simp only [List.foldl_append, List.foldl_cons, hstep]

/-- C16, amended: a line of the `system df` output that cannot be decoded produces no
Target and no error, and the scan returns the same Targets in the same order as if the
line were absent: as the two loops give when the second runs over the other lines only,
and as the scan gives on every output whose non-empty lines are the other non-empty lines
(the empty output when the line is the only one); a non-empty line of the image listing is
never skipped: without a tab it yields the Target whose Path is `docker image ` followed by
the line and whose Description is `Dangling image`. -/
theorem docker_scan_skips_undecodable_df_line {σ : Type} (env : ScanEnv σ) (s0 s1 s2 s3 : σ)
    (p out1 out2 : String) (pre post : List String) (bad : String)
    (hlook : env.lookPath "docker" s0 = (.ok p, s1))
    (himg : env.runCmd "docker" DockerScanner.imagesArgs s1 = (.ok out1, s2))
    (hdf : env.runCmd "docker" DockerScanner.dfArgs s2 = (.ok out2, s3))
    (hbad : env.decodeDf bad = none)
    (hlines : SplitLines (TrimSpace out2) = pre ++ bad :: post) :
    (DockerScanner.Scan env s0).err = none ∧
    (DockerScanner.Scan env s0).targets
      = (pre ++ post).foldl (DockerScanner.dfStep env.decodeDf)
          ((SplitLines (TrimSpace out1)).foldl DockerScanner.imageStep []) ∧
    (∀ out2', nonEmptyLines out2' = (pre ++ post).filter (fun l => decide (l ≠ "")) →
      (DockerScanner.Scan (withDfOutput env out2') s0).err = none ∧
      (DockerScanner.Scan env s0).targets
        = (DockerScanner.Scan (withDfOutput env out2') s0).targets) ∧
    (∀ acc line, line ≠ "" → '\t' ∉ line.data →
      DockerScanner.imageStep acc line
        = acc ++ [{ Path := "docker image " ++ line, Description := "Dangling image",
                    Category := "Docker", Risk := RiskLevel.Moderate }]) := by
  have hargs : DockerScanner.imagesArgs ≠ DockerScanner.dfArgs := by decide
  obtain ⟨a1, a2⟩ := docker_scan_both_succeed env s0 s1 s2 s3 p out1 out2 hlook himg hdf
  have hloops : (DockerScanner.Scan env s0).targets
      = (pre ++ post).foldl (DockerScanner.dfStep env.decodeDf)
          ((SplitLines (TrimSpace out1)).foldl DockerScanner.imageStep []) := by
    simp only [DockerScanner.Scan, hlook, himg, hdf]
    rw [hlines, foldl_dfStep_skip env.decodeDf pre post bad hbad]
  refine ⟨a1, hloops, ?_, ?_⟩
  · intro out2' hlines'
    have hlook' : (withDfOutput env out2').lookPath "docker" s0 = (.ok p, s1) := hlook
    have himg' : (withDfOutput env out2').runCmd "docker" DockerScanner.imagesArgs s1
        = (.ok out1, s2) := by
      simp only [withDfOutput, hargs, if_false]
      exact himg
    have hdf' : (withDfOutput env out2').runCmd "docker" DockerScanner.dfArgs s2
        = (.ok out2', s3) := by
      simp [withDfOutput, hdf]
    obtain ⟨b1, b2⟩ :=
      docker_scan_both_succeed (withDfOutput env out2') s0 s1 s2 s3 p out1 out2' hlook' himg' hdf'
    refine ⟨b1, ?_⟩
    have hdec : (withDfOutput env out2').decodeDf = env.decodeDf := rfl
    rw [hloops, b2, hdec, foldl_dfStep, foldl_imageStep, buildCacheRecords, hlines']
    rfl
  · intro acc line hne htab
    have h := foldl_imageStep [line] acc
    simp only [List.foldl_cons, List.foldl_nil] at h
    rw [h]
    have hb : beforeTab line = line := by
      have htw : line.data.takeWhile (fun c => decide (c ≠ '\t')) = line.data := by
        apply List.takeWhile_eq_self_iff.mpr
        intro c hc
        simp only [ne_eq, decide_not, Bool.not_eq_true', decide_eq_false_iff_not]
        rintro rfl
        exact htab hc
      show String.mk (line.data.takeWhile (fun c => decide (c ≠ '\t'))) = line
      rw [htw]
    simp [hne, imageTarget_fields, afterTab?, htab, hb]

/-- Witness of the amended C16: a line of `system df` that is not JSON and is the only
line of the output, and such a line followed by a blank line and the build-cache record. -/
theorem docker_scan_skips_undecodable_df_line_witness :
    (DockerScanner.Scan (sampleDockerEnv (.ok "abc123\t1.2GB") (.ok "not json")) 0).targets
      = (DockerScanner.Scan
          (withDfOutput (sampleDockerEnv (.ok "abc123\t1.2GB") (.ok "not json")) "") 0).targets ∧
    ((DockerScanner.Scan (sampleDockerEnv (.ok "abc123\t1.2GB") (.ok "not json")) 0).targets).map
        (·.Path)
      = ["docker image abc123"] ∧
    (DockerScanner.Scan
        (sampleDockerEnv (.ok "abc123\t1.2GB") (.ok ("not json\n\n" ++ sampleDfLine))) 0).targets
      = (DockerScanner.Scan
          (withDfOutput
            (sampleDockerEnv (.ok "abc123\t1.2GB") (.ok ("not json\n\n" ++ sampleDfLine)))
            sampleDfLine) 0).targets ∧
    ((DockerScanner.Scan
        (sampleDockerEnv (.ok "abc123\t1.2GB") (.ok ("not json\n\n" ++ sampleDfLine))) 0).targets).map
        (·.Path)
      = ["docker image abc123", "docker build cache"] :=
  ⟨((docker_scan_skips_undecodable_df_line
      (sampleDockerEnv (.ok "abc123\t1.2GB") (.ok "not json"))
      0 0 1 2 "/usr/local/bin/docker" "abc123\t1.2GB" "not json"
      [] [] "not json" rfl rfl rfl rfl (by decide)).2.2.1 "" (by decide)).2,
   by decide,
   ((docker_scan_skips_undecodable_df_line
      (sampleDockerEnv (.ok "abc123\t1.2GB") (.ok ("not json\n\n" ++ sampleDfLine)))
      0 0 1 2 "/usr/local/bin/docker" "abc123\t1.2GB" ("not json\n\n" ++ sampleDfLine)
      [] ["", sampleDfLine] "not json" rfl rfl rfl rfl (by decide)).2.2.1 sampleDfLine
      (by decide)).2,
   by decide⟩

/-! ## Theorems: well-formed Targets -/

theorem measureEntries_nonneg {σ : Type} (env : ScanEnv σ) (dir : String)
    (hsize : ∀ path s, 0 ≤ (env.dirSize path s).1) (entries : List DirEntry)
    (hinfo : ∀ e ∈ entries, ∀ info, e.Info = .ok info → 0 ≤ info.Size) (s : σ) :
    ∀ x ∈ (measureEntries env dir entries s).1, 0 ≤ x.size := by
  induction entries generalizing s with
  | nil => simp [measureEntries]
  | cons e es ih =>
    have ih' := fun s => ih (fun e' he' => hinfo e' (List.mem_cons_of_mem _ he')) s
    intro x hx
    cases hi : e.Info with
    | error err =>
      simp only [measureEntries, hi] at hx
      exact ih' s x hx
    | ok info =>
      by_cases hd : info.IsDir = true
      · simp only [measureEntries, hi, hd, if_true, List.mem_cons] at hx
        rcases hx with hx | hx
        · rw [hx]
          exact hsize _ _
        · exact ih' _ x hx
      · have hd' : info.IsDir = false := by simpa using hd
        simp only [measureEntries, hi, hd', Bool.false_eq_true, if_false, List.mem_cons] at hx
        rcases hx with hx | hx
        · rw [hx]
          exact hinfo e (List.mem_cons_self _ _) info hi
        · exact ih' _ x hx

theorem scanDir_targets_wellformed {σ : Type} (env : ScanEnv σ)
    (hsize : ∀ path s, 0 ≤ (env.dirSize path s).1)
    (hinfo : ∀ dir s entries, (env.readDir dir s).1 = .ok entries →
      ∀ e ∈ entries, ∀ info, e.Info = .ok info → 0 ≤ info.Size)
    (dir description : String) (risk : RiskLevel) (s : σ) :
    ∀ t ∈ (SimulatorScanner.scanDir env dir description risk s).targets,
      0 ≤ t.Size ∧ t.Category = "iOS Simulators" := by
  intro t ht
  rw [(scanDir_spec env dir description risk s).1] at ht
  obtain ⟨x, hx, rfl⟩ := List.mem_map.mp ht
  refine ⟨?_, rfl⟩
  have hx' : x ∈ (listDir env dir s).1 := (List.mem_filter.mp hx).1
  rcases h1 : env.dirExists dir s with ⟨b, s1⟩
  cases b with
  | false => simp [listDir, h1] at hx'
  | true =>
    rcases h2 : env.readDir dir s1 with ⟨r, s2⟩
    cases r with
    | error e => simp [listDir, h1, h2] at hx'
    | ok entries =>
      simp only [listDir, h1, h2] at hx'
      exact measureEntries_nonneg env dir hsize entries
        (hinfo dir s1 entries (by rw [h2])) s2 x hx'

/-- C17: every Target returned by `DockerScanner.Scan` or `SimulatorScanner.Scan` has
`Size ≥ 0` and a non-empty Category, on every input on which the filesystem reports
non-negative file and subtree sizes. -/
theorem scan_targets_wellformed {σ : Type} (env : ScanEnv σ) (libraryBase : String) (s0 : σ)
    (hsize : ∀ path s, 0 ≤ (env.dirSize path s).1)
    (hinfo : ∀ dir s entries, (env.readDir dir s).1 = .ok entries →
      ∀ e ∈ entries, ∀ info, e.Info = .ok info → 0 ≤ info.Size) :
    (∀ t ∈ (DockerScanner.Scan env s0).targets, 0 ≤ t.Size ∧ t.Category ≠ "") ∧
    (∀ t ∈ (SimulatorScanner.Scan env libraryBase s0).targets, 0 ≤ t.Size ∧ t.Category ≠ "") := by
  constructor
  · intro t ht
    have hdocker : "Docker" ≠ "" := by decide
    rcases docker_scan_subset env s0 t ht with ⟨line, rfl⟩ | ⟨df, rfl⟩
    · exact ⟨le_refl _, hdocker⟩
    · exact ⟨le_refl _, hdocker⟩
  · intro t ht
    have hsim : "iOS Simulators" ≠ "" := by decide
    rcases simulator_scan_subset env libraryBase s0 t ht with h | h | h
    · obtain ⟨h1, h2⟩ := scanDir_targets_wellformed env hsize hinfo _ _ _ _ t h
      exact ⟨h1, by rw [h2]; exact hsim⟩
    · obtain ⟨h1, h2⟩ := scanDir_targets_wellformed env hsize hinfo _ _ _ _ t h
      exact ⟨h1, by rw [h2]; exact hsim⟩
    · rw [queryStep, (findUnavailableDevices_spec env _).2] at h
      obtain ⟨rd, -, rfl⟩ := List.mem_map.mp h
      exact ⟨le_refl _, hsim⟩

theorem sampleFsEnv_sizes (installed : Bool) (query : Except String String) :
    (∀ path s, 0 ≤ ((sampleFsEnv installed query).dirSize path s).1) ∧
    (∀ dir s entries, ((sampleFsEnv installed query).readDir dir s).1 = .ok entries →
      ∀ e ∈ entries, ∀ info, e.Info = .ok info → 0 ≤ info.Size) := by
  constructor
  · intro path s
    simp only [sampleFsEnv]
    split_ifs <;> decide
  · intro dir s entries h e he info hi
    simp only [sampleFsEnv] at h
    split_ifs at h
    · simp only [Except.ok.injEq] at h
      subst h
      simp only [List.mem_cons, List.mem_singleton, List.not_mem_nil, or_false] at he
      rcases he with rfl | rfl | rfl | rfl
      · cases hi; decide
      · cases hi; decide
      · cases hi
      · cases hi; decide
    · simp only [Except.ok.injEq] at h
      subst h
      simp only [List.mem_cons, List.mem_singleton, List.not_mem_nil, or_false] at he
      subst he
      cases hi
      decide

/-- Witness of C17: the sample filesystem, whose sizes are non-negative. -/
theorem scan_targets_wellformed_witness :
    (∀ t ∈ (DockerScanner.Scan (sampleFsEnv true (.ok sampleSimctlOut)) 0).targets,
      0 ≤ t.Size ∧ t.Category ≠ "") ∧
    (∀ t ∈ (SimulatorScanner.Scan (sampleFsEnv true (.ok sampleSimctlOut)) "/lib" 0).targets,
      0 ≤ t.Size ∧ t.Category ≠ "") :=
  scan_targets_wellformed (sampleFsEnv true (.ok sampleSimctlOut)) "/lib" 0
    (sampleFsEnv_sizes true (.ok sampleSimctlOut)).1
    (sampleFsEnv_sizes true (.ok sampleSimctlOut)).2

/-! ## Theorems: the history ledger -/

theorem recordAll_entries (entries : List Entry) : (recordAll entries).entries = entries := by
  have h : ∀ (l : List Entry) (h0 : History),
      (l.foldl History.Record h0).entries = h0.entries ++ l := by
    intro l
    induction l with
    | nil => intro h0; simp
    | cons e es ih =>
      intro h0
      rw [List.foldl_cons, ih]
      simp [History.Record]
  simpa [recordAll, History.New] using h entries History.New

/-- C18: for the ledger of any sequence of recorded entries, `Stats()` has `TotalFreed`
the sum of `BytesFreed` over all entries, `TotalCleanups` the number of entries, and a
`ByCategory` map whose keys are exactly the categories that occur, each with `Cleanups`
the number of entries of that category and `BytesFreed` the sum of theirs; over the empty
ledger the totals are zero and the map and the recent list are empty. -/
theorem stats_totals_and_categories (entries : List Entry) :
    (recordAll entries).Stats.TotalFreed = (entries.map (·.BytesFreed)).sum ∧
    (recordAll entries).Stats.TotalCleanups = entries.length ∧
    ((recordAll entries).Stats.ByCategory.map Prod.fst).Nodup ∧
    (∀ c, c ∈ (recordAll entries).Stats.ByCategory.map Prod.fst ↔ ∃ e ∈ entries, e.Category = c) ∧
    (∀ kv ∈ (recordAll entries).Stats.ByCategory,
      kv.2.Cleanups = (entriesOf kv.1 entries).length ∧
      kv.2.BytesFreed = ((entriesOf kv.1 entries).map (·.BytesFreed)).sum) ∧
    History.New.Stats = { TotalFreed := 0, TotalCleanups := 0, ByCategory := [], Recent := [] } := by
  have hn := nodup_keys_foldl_mapAlter (fun e : Entry => e.Category) History.statsUpd entries []
    (by simp)
  refine ⟨?_, ?_, ?_, ?_, ?_, rfl⟩
  · simp [History.Stats, recordAll_entries]
  · simp [History.Stats, recordAll_entries]
  · simpa [History.Stats, recordAll_entries] using hn
  · intro c
    have := mem_keys_foldl_mapAlter (fun e : Entry => e.Category) History.statsUpd entries [] c
    simpa [History.Stats, recordAll_entries] using this
  · rintro ⟨k, v⟩ hmem
    simp only [History.Stats, recordAll_entries] at hmem
    have hget := mapGet?_of_mem _ hn k v hmem
    have h1 := measure_foldl_mapAlter (fun e : Entry => e.Category) History.statsUpd
      (fun o => (o.getD {}).Cleanups) (fun _ => 1) (by intro t o; simp [History.statsUpd])
      entries [] k
    have h2 := measure_foldl_mapAlter (fun e : Entry => e.Category) History.statsUpd
      (fun o => (o.getD {}).BytesFreed) (fun e => e.BytesFreed)
      (by intro t o; simp [History.statsUpd]) entries [] k
    simp only [hget, Option.getD_some, mapGet?, Option.getD_none, zero_add] at h1 h2
    constructor
    · rw [h1, sum_map_one]; rfl
    · rw [h2]; rfl

/-- Witness of C18: the six entries of `TestStats`. -/
theorem stats_totals_and_categories_witness :
    (recordAll sampleEntries).Stats.TotalFreed = 5056233472 ∧
    (recordAll sampleEntries).Stats.TotalCleanups = 6 ∧
    (recordAll sampleEntries).Stats.ByCategory
      = [("System Junk", { Cleanups := 3, BytesFreed := 4007657472 }),
         ("Browser Cache", { Cleanups := 2, BytesFreed := 838860800 }),
         ("Large & Old Files", { Cleanups := 1, BytesFreed := 209715200 })] ∧
    ((recordAll sampleEntries).Stats.ByCategory.map Prod.fst).Nodup :=
  ⟨by decide, by decide, by decide, (stats_totals_and_categories sampleEntries).2.2.1⟩

/-- C19: for the ledger of entries recorded in the order `e1..en`, `Load()` returns
`e1..en` in that order, and `Stats().Recent` holds the last `min(5, n)` entries, most
recent first: `Recent[i]` is `e(n-i)`; with six entries it has length five and omits the
oldest. -/
theorem load_order_and_recent (entries : List Entry) :
    (recordAll entries).Load = .ok entries ∧
    (recordAll entries).Stats.Recent.length = min 5 entries.length ∧
    (∀ i, i < min 5 entries.length →
      (recordAll entries).Stats.Recent[i]? = entries[entries.length - 1 - i]?) ∧
    (∀ e1 e2 e3 e4 e5 e6, entries = [e1, e2, e3, e4, e5, e6] →
      (recordAll entries).Stats.Recent = [e6, e5, e4, e3, e2]) := by
  refine ⟨?_, ?_, ?_, ?_⟩
  · simp [History.Load, recordAll_entries]
  · simp [History.Stats, recordAll_entries, recentLimit, List.length_take]
  · intro i hi
    have h5 : i < 5 := lt_of_lt_of_le hi (min_le_left _ _)
    have hn : i < entries.length := lt_of_lt_of_le hi (min_le_right _ _)
    simp only [History.Stats, recordAll_entries, recentLimit, List.getElem?_take, h5, if_true]
    exact List.getElem?_reverse hn
  · rintro e1 e2 e3 e4 e5 e6 rfl
    simp [History.Stats, recordAll_entries, recentLimit]

/-- Witness of C19: the six entries of `TestStats`. -/
theorem load_order_and_recent_witness :
    (recordAll sampleEntries).Load = .ok sampleEntries ∧
    ((recordAll sampleEntries).Stats.Recent).map (·.Timestamp) = [15, 14, 13, 12, 11] :=
  ⟨(load_order_and_recent sampleEntries).1, by decide⟩

/-! ## Theorems: Space Lens -/

theorem visibleLines_ge (m : SpaceLensModel) : 4 ≤ m.visibleLines := by
  simp only [SpaceLensModel.visibleLines]
  split_ifs <;> omega

/-- After `ensureVisible` the cursor lies in the window, for the height of that moment. -/
theorem ensureVisible_window (m : SpaceLensModel) :
    m.ensureVisible.scrollOffset ≤ m.ensureVisible.cursor ∧
    m.ensureVisible.cursor < m.ensureVisible.scrollOffset + m.ensureVisible.visibleLines := by
  simp only [SpaceLensModel.ensureVisible, SpaceLensModel.visibleLines]
  split_ifs <;> (try dsimp only) <;> constructor <;> omega

/-- C20 fails on the code: after the analysis has delivered five nodes, a window of
height 12 (five visible lines), four presses of `down` and a resize to height 11 (four
visible lines), the cursor is at 4 and the window is `[0, 4)`, because `Update` stores a
new window size without calling `ensureVisible`. -/
theorem spacelens_resize_hides_cursor :
    (SpaceLensModel.run noSlash (SpaceLensModel.NewSpaceLensModel "/") sampleShrinkRun).cursor
      = 4 ∧
    (SpaceLensModel.run noSlash (SpaceLensModel.NewSpaceLensModel "/")
      sampleShrinkRun).scrollOffset = 0 ∧
    (SpaceLensModel.run noSlash (SpaceLensModel.NewSpaceLensModel "/")
      sampleShrinkRun).visibleLines = 4 ∧
    ¬ ((SpaceLensModel.run noSlash (SpaceLensModel.NewSpaceLensModel "/")
          sampleShrinkRun).cursor
        < (SpaceLensModel.run noSlash (SpaceLensModel.NewSpaceLensModel "/")
            sampleShrinkRun).scrollOffset
          + (SpaceLensModel.run noSlash (SpaceLensModel.NewSpaceLensModel "/")
              sampleShrinkRun).visibleLines) := by
  decide

/-! ## Lemmas on Space Lens -/

theorem update_up (ls : String → Int) (m : SpaceLensModel) (key : String)
    (hkey : key = "up" ∨ key = "k") :
    SpaceLensModel.Update ls m (Msg.KeyMsg key)
      = if m.cursor > 0 then
          (SpaceLensModel.ensureVisible { m with cursor := m.cursor - 1 }, Cmd.none)
        else (m, Cmd.none) := by
  rcases hkey with rfl | rfl <;> simp [SpaceLensModel.Update]

theorem update_down (ls : String → Int) (m : SpaceLensModel) (key : String)
    (hkey : key = "down" ∨ key = "j") :
    SpaceLensModel.Update ls m (Msg.KeyMsg key)
      = if m.cursor < (m.nodes.length : Int) - 1 then
          (SpaceLensModel.ensureVisible { m with cursor := m.cursor + 1 }, Cmd.none)
        else (m, Cmd.none) := by
  rcases hkey with rfl | rfl <;> simp [SpaceLensModel.Update]

theorem update_drill_in (ls : String → Int) (m : SpaceLensModel) (key : String)
    (hkey : key = "enter" ∨ key = "right" ∨ key = "l") :
    SpaceLensModel.Update ls m (Msg.KeyMsg key)
      = if m.cursor < (m.nodes.length : Int) ∧
            ((SpaceLensModel.nodeAt? m.nodes m.cursor).map (·.IsDir)) = some true then
          ({ m with path := ((SpaceLensModel.nodeAt? m.nodes m.cursor).map (·.Path)).getD m.path,
                    loading := true, cursor := 0, scrollOffset := 0 },
           Cmd.doAnalyze (((SpaceLensModel.nodeAt? m.nodes m.cursor).map (·.Path)).getD m.path))
        else (m, Cmd.none) := by
  rcases hkey with rfl | rfl | rfl <;> simp [SpaceLensModel.Update]

theorem update_drill_out (ls : String → Int) (m : SpaceLensModel) (key : String)
    (hkey : key = "left" ∨ key = "backspace" ∨ key = "h") :
    SpaceLensModel.Update ls m (Msg.KeyMsg key)
      = if ls m.path > 0 then
          ({ m with path := String.mk (m.path.data.take (ls m.path).toNat), loading := true,
                    cursor := 0, scrollOffset := 0 },
           Cmd.doAnalyze (String.mk (m.path.data.take (ls m.path).toNat)))
        else (m, Cmd.none) := by
  rcases hkey with rfl | rfl | rfl <;> simp [SpaceLensModel.Update]

/-- What `ensureVisible` changes: the scroll offset only, to the cursor when the cursor
is above the window, to `cursor - visible + 1` when it is below, not at all otherwise. -/
theorem ensureVisible_spec (m : SpaceLensModel) :
    m.ensureVisible.cursor = m.cursor ∧ m.ensureVisible.height = m.height ∧
    m.ensureVisible.nodes = m.nodes ∧ m.ensureVisible.path = m.path ∧
    m.ensureVisible.visibleLines = m.visibleLines ∧
    m.ensureVisible.scrollOffset
      = if m.cursor < m.scrollOffset then m.cursor
        else if m.cursor ≥ m.scrollOffset + m.visibleLines then m.cursor - m.visibleLines + 1
        else m.scrollOffset := by
  refine ⟨?_, ?_, ?_, ?_, ?_, ?_⟩
  · simp only [SpaceLensModel.ensureVisible]
    split_ifs <;> rfl
  · simp only [SpaceLensModel.ensureVisible]
    split_ifs <;> rfl
  · simp only [SpaceLensModel.ensureVisible]
    split_ifs <;> rfl
  · simp only [SpaceLensModel.ensureVisible]
    split_ifs <;> rfl
  · simp only [SpaceLensModel.ensureVisible]
    split_ifs <;> rfl
  · simp only [SpaceLensModel.ensureVisible, SpaceLensModel.visibleLines]
    split_ifs <;> dsimp only at * <;> omega

theorem lastSlashChars_of_not_mem (cs : List Char) (h : '/' ∉ cs) : lastSlashChars cs = -1 := by
  induction cs with
  | nil => rfl
  | cons c cs ih =>
    simp only [List.mem_cons, not_or] at h
    have hc : ¬ c = '/' := fun e => h.1 e.symm
    rw [lastSlashChars, ih h.2]
    simp [hc]

/-- The index `lastSlashChars` returns is that of the separator after which no separator
follows. -/
theorem lastSlashChars_append (parent last : List Char) (h : '/' ∉ last) :
    lastSlashChars (parent ++ '/' :: last) = parent.length := by
  induction parent with
  | nil =>
    rw [List.nil_append, lastSlashChars, lastSlashChars_of_not_mem last h]
    simp
  | cons c cs ih =>
    rw [List.cons_append, lastSlashChars, ih]
    have : (0 : Int) ≤ (cs.length : Int) := Int.ofNat_nonneg _
    simp only [ge_iff_le, this, if_true, List.length_cons]
    push_cast
    rfl

/-- `Update` keeps `0 ≤ scrollOffset ≤ cursor`. -/
theorem update_scroll_le_cursor (ls : String → Int) (m : SpaceLensModel) (msg : Msg)
    (h : 0 ≤ m.scrollOffset ∧ m.scrollOffset ≤ m.cursor) :
    0 ≤ (SpaceLensModel.Update ls m msg).1.scrollOffset ∧
    (SpaceLensModel.Update ls m msg).1.scrollOffset ≤ (SpaceLensModel.Update ls m msg).1.cursor := by
  have hup := ensureVisible_spec { m with cursor := m.cursor - 1 }
  have hdown := ensureVisible_spec { m with cursor := m.cursor + 1 }
  have hv := visibleLines_ge m
  have hv1 : ({ m with cursor := m.cursor - 1 } : SpaceLensModel).visibleLines = m.visibleLines :=
    rfl
  have hv2 : ({ m with cursor := m.cursor + 1 } : SpaceLensModel).visibleLines = m.visibleLines :=
    rfl
  rw [hv1] at hup
  rw [hv2] at hdown
  obtain ⟨hu1, -, -, -, -, hu2⟩ := hup
  obtain ⟨hd1, -, -, -, -, hd2⟩ := hdown
  dsimp only at hu1 hu2 hd1 hd2
  cases msg with
  | WindowSizeMsg w hgt => exact h
  | spaceLensDoneMsg nodes path => exact h
  | other => exact h
  | KeyMsg key =>
    simp only [SpaceLensModel.Update]
    split_ifs
    all_goals first
      | exact h
      | exact ⟨le_refl _, le_refl _⟩
      | (rw [hu1, hu2]; split_ifs <;> omega)
      | (rw [hd1, hd2]; split_ifs <;> omega)

/-- In every state reachable from `NewSpaceLensModel`, `0 ≤ scrollOffset ≤ cursor`. -/
theorem run_scroll_le_cursor (ls : String → Int) (path : String) (msgs : List Msg) :
    0 ≤ (SpaceLensModel.run ls (SpaceLensModel.NewSpaceLensModel path) msgs).scrollOffset ∧
    (SpaceLensModel.run ls (SpaceLensModel.NewSpaceLensModel path) msgs).scrollOffset
      ≤ (SpaceLensModel.run ls (SpaceLensModel.NewSpaceLensModel path) msgs).cursor := by
  have h : ∀ (msgs : List Msg) (m : SpaceLensModel),
      (0 ≤ m.scrollOffset ∧ m.scrollOffset ≤ m.cursor) →
      0 ≤ (SpaceLensModel.run ls m msgs).scrollOffset ∧
      (SpaceLensModel.run ls m msgs).scrollOffset ≤ (SpaceLensModel.run ls m msgs).cursor := by
    intro msgs
    induction msgs with
    | nil => intro m hm; exact hm
    | cons msg rest ih =>
      intro m hm
      exact ih _ (update_scroll_le_cursor ls m msg hm)
  exact h msgs _ ⟨le_refl _, le_refl _⟩

/-! ## Theorems: Space Lens navigation -/

/-- C21: in every state, when an up or down key (up, k, down, j) moves the cursor, the
new scrollOffset is the value
closest to the old scrollOffset for which the new cursor lies in
`[scrollOffset, scrollOffset + visibleHeight)`: it is unchanged if the new cursor lies in
the old window, it is the cursor if the cursor is above the old window, and it is
`cursor − visibleHeight + 1` if the cursor is below. -/
theorem cursor_move_minimal_scroll (ls : String → Int) (m : SpaceLensModel) (key : String)
    (hkey : key = "up" ∨ key = "k" ∨ key = "down" ∨ key = "j")
    (hmove : (SpaceLensModel.Update ls m (Msg.KeyMsg key)).1.cursor ≠ m.cursor) :
    inWindow (SpaceLensModel.Update ls m (Msg.KeyMsg key)).1.cursor
      (SpaceLensModel.Update ls m (Msg.KeyMsg key)).1.scrollOffset m.visibleLines ∧
    (∀ so, inWindow (SpaceLensModel.Update ls m (Msg.KeyMsg key)).1.cursor so m.visibleLines →
      ((SpaceLensModel.Update ls m (Msg.KeyMsg key)).1.scrollOffset - m.scrollOffset).natAbs
          ≤ (so - m.scrollOffset).natAbs ∧
      ((so - m.scrollOffset).natAbs
          = ((SpaceLensModel.Update ls m (Msg.KeyMsg key)).1.scrollOffset
              - m.scrollOffset).natAbs →
        so = (SpaceLensModel.Update ls m (Msg.KeyMsg key)).1.scrollOffset)) ∧
    (inWindow (SpaceLensModel.Update ls m (Msg.KeyMsg key)).1.cursor m.scrollOffset
        m.visibleLines →
      (SpaceLensModel.Update ls m (Msg.KeyMsg key)).1.scrollOffset = m.scrollOffset) ∧
    ((SpaceLensModel.Update ls m (Msg.KeyMsg key)).1.cursor < m.scrollOffset →
      (SpaceLensModel.Update ls m (Msg.KeyMsg key)).1.scrollOffset
        = (SpaceLensModel.Update ls m (Msg.KeyMsg key)).1.cursor) ∧
    (m.scrollOffset + m.visibleLines ≤ (SpaceLensModel.Update ls m (Msg.KeyMsg key)).1.cursor →
      (SpaceLensModel.Update ls m (Msg.KeyMsg key)).1.scrollOffset
        = (SpaceLensModel.Update ls m (Msg.KeyMsg key)).1.cursor - m.visibleLines + 1) ∧
    (SpaceLensModel.Update ls m (Msg.KeyMsg key)).1.visibleLines = m.visibleLines := by
  have hv := visibleLines_ge m
  have key_fact : ∃ c : Int, (c = m.cursor - 1 ∨ c = m.cursor + 1) ∧
      SpaceLensModel.Update ls m (Msg.KeyMsg key)
        = (SpaceLensModel.ensureVisible { m with cursor := c }, Cmd.none) := by
    rcases hkey with h | h | h | h
    · have hu := update_up ls m key (Or.inl h)
      by_cases hc : m.cursor > 0
      · exact ⟨m.cursor - 1, Or.inl rfl, by rw [hu, if_pos hc]⟩
      · rw [hu, if_neg hc] at hmove
        exact absurd rfl hmove
    · have hu := update_up ls m key (Or.inr h)
      by_cases hc : m.cursor > 0
      · exact ⟨m.cursor - 1, Or.inl rfl, by rw [hu, if_pos hc]⟩
      · rw [hu, if_neg hc] at hmove
        exact absurd rfl hmove
    · have hu := update_down ls m key (Or.inl h)
      by_cases hc : m.cursor < (m.nodes.length : Int) - 1
      · exact ⟨m.cursor + 1, Or.inr rfl, by rw [hu, if_pos hc]⟩
      · rw [hu, if_neg hc] at hmove
        exact absurd rfl hmove
    · have hu := update_down ls m key (Or.inr h)
      by_cases hc : m.cursor < (m.nodes.length : Int) - 1
      · exact ⟨m.cursor + 1, Or.inr rfl, by rw [hu, if_pos hc]⟩
      · rw [hu, if_neg hc] at hmove
        exact absurd rfl hmove
  obtain ⟨c, -, hupd⟩ := key_fact
  obtain ⟨e1, -, -, -, e5, e6⟩ := ensureVisible_spec { m with cursor := c }
  have hvc : ({ m with cursor := c } : SpaceLensModel).visibleLines = m.visibleLines := rfl
  rw [hvc] at e5 e6
  dsimp only at e1 e6
  rw [hupd]
  dsimp only
  rw [e1, e5, e6]
  simp only [inWindow]
  refine ⟨?_, ?_, ?_, ?_, ?_, trivial⟩
  · split_ifs <;> constructor <;> omega
  · intro so hso
    split_ifs <;> constructor <;> omega
  · intro hw
    split_ifs <;> omega
  · intro hw
    rw [if_pos hw]
  · intro hw
    split_ifs <;> omega

/-- Witness of C21: with the window at `[0, 5)` and the cursor at 4, `down` moves the
cursor to 5 and the window to `[1, 6)`. -/
theorem cursor_move_minimal_scroll_witness :
    (SpaceLensModel.Update noSlash
        { path := "/", nodes := sampleNodes ++ sampleNodes, cursor := 4, height := 12 }
        (Msg.KeyMsg "down")).1.scrollOffset = 1 ∧
    inWindow
      (SpaceLensModel.Update noSlash
        { path := "/", nodes := sampleNodes ++ sampleNodes, cursor := 4, height := 12 }
        (Msg.KeyMsg "down")).1.cursor
      (SpaceLensModel.Update noSlash
        { path := "/", nodes := sampleNodes ++ sampleNodes, cursor := 4, height := 12 }
        (Msg.KeyMsg "down")).1.scrollOffset
      (SpaceLensModel.visibleLines
        { path := "/", nodes := sampleNodes ++ sampleNodes, cursor := 4, height := 12 }) :=
  ⟨by decide,
   (cursor_move_minimal_scroll noSlash
      { path := "/", nodes := sampleNodes ++ sampleNodes, cursor := 4, height := 12 } "down"
      (by decide) (by decide)).1⟩

/-- C22: in a state whose cursor is not negative (as in every reachable state, see
`run_scroll_le_cursor`), a drill-in key (enter, right, l) issues
an analysis exactly when the cursor indexes an existing node that is a directory; then the
path becomes that node's Path, loading becomes true, cursor and scrollOffset become 0 and
the analysis is that of the node's Path; otherwise (a node that is no directory, or no
node under the cursor) the state is returned unchanged with no command. -/
theorem drill_in_iff_directory (ls : String → Int) (m : SpaceLensModel) (key : String)
    (hkey : key = "enter" ∨ key = "right" ∨ key = "l") (hcur : 0 ≤ m.cursor) :
    (∀ n, m.nodes[m.cursor.toNat]? = some n → n.IsDir = true →
      SpaceLensModel.Update ls m (Msg.KeyMsg key)
        = ({ m with path := n.Path, loading := true, cursor := 0, scrollOffset := 0 },
           Cmd.doAnalyze n.Path)) ∧
    ((∀ n, m.nodes[m.cursor.toNat]? = some n → n.IsDir = false) →
      SpaceLensModel.Update ls m (Msg.KeyMsg key) = (m, Cmd.none)) ∧
    ((SpaceLensModel.Update ls m (Msg.KeyMsg key)).2 ≠ Cmd.none ↔
      ∃ n, m.nodes[m.cursor.toNat]? = some n ∧ n.IsDir = true) := by
  have hu := update_drill_in ls m key hkey
  have hat : SpaceLensModel.nodeAt? m.nodes m.cursor = m.nodes[m.cursor.toNat]? := by
    simp [SpaceLensModel.nodeAt?, not_lt.mpr hcur]
  rw [hat] at hu
  have hdir : ∀ n, m.nodes[m.cursor.toNat]? = some n → n.IsDir = true →
      SpaceLensModel.Update ls m (Msg.KeyMsg key)
        = ({ m with path := n.Path, loading := true, cursor := 0, scrollOffset := 0 },
           Cmd.doAnalyze n.Path) := by
    intro n hn hd
    have hlt : m.cursor < (m.nodes.length : Int) := by
      have := (List.getElem?_eq_some_iff.mp hn).1
      omega
    rw [hu, if_pos ⟨hlt, by simp [hn, hd]⟩]
    simp [hn]
  have hnot : (∀ n, m.nodes[m.cursor.toNat]? = some n → n.IsDir = false) →
      SpaceLensModel.Update ls m (Msg.KeyMsg key) = (m, Cmd.none) := by
    intro h
    rw [hu, if_neg]
    rintro ⟨-, hd⟩
    cases hn : m.nodes[m.cursor.toNat]? with
    | none => simp [hn] at hd
    | some n =>
      have := h n hn
      simp [hn, this] at hd
  refine ⟨hdir, hnot, ?_⟩
  constructor
  · intro hcmd
    by_contra hex
    apply hcmd
    rw [hnot]
    intro n hn
    cases hd : n.IsDir with
    | false => rfl
    | true => exact absurd ⟨n, hn, hd⟩ hex
  · rintro ⟨n, hn, hd⟩
    rw [hdir n hn hd]
    simp

/-- Witness of C22: `enter` on the directory `/b` and on the file `/c`. -/
theorem drill_in_iff_directory_witness :
    SpaceLensModel.Update noSlash { path := "/", nodes := sampleNodes, cursor := 1 }
        (Msg.KeyMsg "enter")
      = ({ path := "/b", nodes := sampleNodes, cursor := 0, scrollOffset := 0, loading := true },
         Cmd.doAnalyze "/b") ∧
    SpaceLensModel.Update noSlash { path := "/", nodes := sampleNodes, cursor := 2 }
        (Msg.KeyMsg "enter")
      = ({ path := "/", nodes := sampleNodes, cursor := 2 }, Cmd.none) :=
  ⟨(drill_in_iff_directory noSlash { path := "/", nodes := sampleNodes, cursor := 1 } "enter"
      (by decide) (by decide)).1 { Name := "b", Path := "/b", Size := 40, IsDir := true }
      (by decide) rfl,
   (drill_in_iff_directory noSlash { path := "/", nodes := sampleNodes, cursor := 2 } "enter"
      (by decide) (by decide)).2.1 (by decide)⟩

/-- C23, as stated, fails: drill-out from `/foo`, whose only separator is its first
character, leaves the state unchanged and issues no analysis. This does not depend on the
helper `lastSlash`: whatever it returns, `Update` drills out of `/foo` only if it returns
a positive index, and reaches the root `/` only if it returns 1, the index of `f`. -/
theorem spacelens_drill_out_stuck_below_root :
    "/foo".data = ['/', 'f', 'o', 'o'] ∧
    lastSlash "/foo" = 0 ∧
    SpaceLensModel.Update lastSlash { path := "/foo", nodes := sampleNodes, cursor := 2 }
        (Msg.KeyMsg "left")
      = ({ path := "/foo", nodes := sampleNodes, cursor := 2 }, Cmd.none) ∧
    SpaceLensModel.Update lastSlash { path := "/foo", nodes := sampleNodes, cursor := 2 }
        (Msg.KeyMsg "backspace")
      = ({ path := "/foo", nodes := sampleNodes, cursor := 2 }, Cmd.none) ∧
    SpaceLensModel.Update lastSlash { path := "/foo", nodes := sampleNodes, cursor := 2 }
        (Msg.KeyMsg "h")
      = ({ path := "/foo", nodes := sampleNodes, cursor := 2 }, Cmd.none) ∧
    (∀ ls : String → Int, 0 < ls "/foo" ∨
      SpaceLensModel.Update ls { path := "/foo", nodes := sampleNodes, cursor := 2 }
          (Msg.KeyMsg "left")
        = ({ path := "/foo", nodes := sampleNodes, cursor := 2 }, Cmd.none)) ∧
    (∀ ls : String → Int, ls "/foo" = 1 ∨
      (SpaceLensModel.Update ls { path := "/foo", nodes := sampleNodes, cursor := 2 }
          (Msg.KeyMsg "left")).1.path ≠ "/") := by
  refine ⟨rfl, by decide, by decide, by decide, by decide, ?_, ?_⟩
  · intro ls
    by_cases h : 0 < ls "/foo"
    · exact Or.inl h
    · right
      rw [update_drill_out ls _ "left" (Or.inl rfl)]
      exact if_neg h
  · intro ls
    by_cases h1 : ls "/foo" = 1
    · exact Or.inl h1
    right
    rw [update_drill_out ls _ "left" (Or.inl rfl)]
    by_cases h : 0 < ls "/foo"
    · have h' : ({ path := "/foo", nodes := sampleNodes, cursor := 2 } : SpaceLensModel).path
          = "/foo" := rfl
      rw [h'] at *
      rw [if_pos h]
      obtain ⟨k, hk⟩ : ∃ k : Nat, (ls "/foo").toNat = k + 2 := ⟨(ls "/foo").toNat - 2, by omega⟩
      intro heq
      have hd := congrArg String.data heq
      simp only [hk] at hd
      simp [List.take] at hd
    · rw [if_neg h]
      decide

/-- C23, amended: a drill-out key (left, backspace, h) on a path whose last separator is
not its first character transitions to `Loading(parentPath)`, with `parentPath` the path
before that separator, and resets cursor and scrollOffset to 0; on a path whose last
separator is its first character (a direct child of the filesystem root such as `/foo`,
and `/` itself) and on a path without separator the state is returned unchanged with no
analysis command, as it is whenever the helper `lastSlash` returns no positive index. -/
theorem drill_out_strips_last_component (m : SpaceLensModel) (key : String)
    (hkey : key = "left" ∨ key = "backspace" ∨ key = "h") :
    (∀ ls : String → Int, ls m.path ≤ 0 →
      SpaceLensModel.Update ls m (Msg.KeyMsg key) = (m, Cmd.none)) ∧
    (∀ parent last : List Char, m.path.data = parent ++ '/' :: last → '/' ∉ last →
      lastSlash m.path = parent.length ∧
      (parent ≠ [] →
        SpaceLensModel.Update lastSlash m (Msg.KeyMsg key)
          = ({ m with path := String.mk parent, loading := true, cursor := 0,
                      scrollOffset := 0 },
             Cmd.doAnalyze (String.mk parent))) ∧
      (parent = [] → SpaceLensModel.Update lastSlash m (Msg.KeyMsg key) = (m, Cmd.none))) ∧
    ('/' ∉ m.path.data →
      lastSlash m.path < 0 ∧ SpaceLensModel.Update lastSlash m (Msg.KeyMsg key) = (m, Cmd.none)) := by
  refine ⟨?_, ?_, ?_⟩
  · intro ls hle
    rw [update_drill_out ls m key hkey, if_neg (not_lt.mpr hle)]
  · intro parent last hpath hlast
    have hidx : lastSlash m.path = parent.length := by
      rw [lastSlash, hpath, lastSlashChars_append parent last hlast]
    refine ⟨hidx, ?_, ?_⟩
    · intro hne
      have hpos : lastSlash m.path > 0 := by
        rw [hidx]
        have : 0 < parent.length := List.length_pos.mpr hne
        exact_mod_cast this
      rw [update_drill_out lastSlash m key hkey, if_pos hpos, hidx, hpath]
      simp
    · intro hnil
      have hzero : ¬ lastSlash m.path > 0 := by
        rw [hidx, hnil]
        simp
      rw [update_drill_out lastSlash m key hkey, if_neg hzero]
  · intro hno
    have hidx : lastSlash m.path = -1 := by
      rw [lastSlash, lastSlashChars_of_not_mem _ hno]
    refine ⟨by rw [hidx]; decide, ?_⟩
    rw [update_drill_out lastSlash m key hkey, if_neg (by rw [hidx]; decide)]

/-- Witness of the amended C23: drill-out from `/foo/bar` leads to `/foo`; from `/foo`
and from `foo` it does nothing. -/
theorem drill_out_strips_last_component_witness :
    SpaceLensModel.Update lastSlash { path := "/foo/bar", nodes := sampleNodes, cursor := 2 }
        (Msg.KeyMsg "left")
      = ({ path := "/foo", nodes := sampleNodes, cursor := 0, scrollOffset := 0,
           loading := true }, Cmd.doAnalyze "/foo") ∧
    SpaceLensModel.Update lastSlash { path := "/foo", nodes := sampleNodes, cursor := 2 }
        (Msg.KeyMsg "backspace")
      = ({ path := "/foo", nodes := sampleNodes, cursor := 2 }, Cmd.none) ∧
    SpaceLensModel.Update lastSlash { path := "foo", nodes := sampleNodes, cursor := 2 }
        (Msg.KeyMsg "h")
      = ({ path := "foo", nodes := sampleNodes, cursor := 2 }, Cmd.none) :=
  ⟨((drill_out_strips_last_component
        { path := "/foo/bar", nodes := sampleNodes, cursor := 2 } "left" (by decide)).2.1
      ['/', 'f', 'o', 'o'] ['b', 'a', 'r'] rfl (by decide)).2.1 (by decide),
   ((drill_out_strips_last_component
        { path := "/foo", nodes := sampleNodes, cursor := 2 } "backspace" (by decide)).2.1
      [] ['f', 'o', 'o'] rfl (by decide)).2.2 rfl,
   ((drill_out_strips_last_component
        { path := "foo", nodes := sampleNodes, cursor := 2 } "h" (by decide)).2.2
      (by decide)).2⟩

/-- C25 fails on the code: `0 ≤ scrollOffset ≤ cursor` holds in every state reachable from
`NewSpaceLensModel`, but `cursor < len(nodes)` does not: `down` pressed four times while the
analysis of `/a` is still running moves the cursor to 4 in the old list; when the analysis
delivers two nodes, or none, the cursor is still 4. -/
theorem spacelens_cursor_beyond_new_list :
    (∀ (ls : String → Int) (path : String) (msgs : List Msg),
      0 ≤ (SpaceLensModel.run ls (SpaceLensModel.NewSpaceLensModel path) msgs).scrollOffset ∧
      (SpaceLensModel.run ls (SpaceLensModel.NewSpaceLensModel path) msgs).scrollOffset
        ≤ (SpaceLensModel.run ls (SpaceLensModel.NewSpaceLensModel path) msgs).cursor) ∧
    (SpaceLensModel.run lastSlash (SpaceLensModel.NewSpaceLensModel "/")
      (sampleLoadingRun sampleChildNodes)).cursor = 4 ∧
    (SpaceLensModel.run lastSlash (SpaceLensModel.NewSpaceLensModel "/")
      (sampleLoadingRun sampleChildNodes)).nodes.length = 2 ∧
    (SpaceLensModel.run lastSlash (SpaceLensModel.NewSpaceLensModel "/")
      (sampleLoadingRun [])).cursor = 4 ∧
    (SpaceLensModel.run lastSlash (SpaceLensModel.NewSpaceLensModel "/")
      (sampleLoadingRun [])).nodes = [] :=
  ⟨run_scroll_le_cursor, by decide⟩

/-! ## Theorems: the summary of the clean command -/

/-- C24 fails on the code: of five Targets of 29 bytes in all, two (9 bytes) cannot be
moved to the Trash; the summary prints 3 items and 29 bytes, while the Targets deleted
have 20 bytes, as have the history entries recorded. -/
theorem clean_summary_counts_failed_bytes :
    printedSummary (cleanCmd (sampleWorld (.ok sampleTargets) (.error "none") true)
        { cleanYes := true } 0).events = [(3, 29)] ∧
    sumSize (succeeded sampleTargets
      ((deleteCalls (cleanCmd (sampleWorld (.ok sampleTargets) (.error "none") true)
        { cleanYes := true } 0).events).map (fun c => c.2.2))) = 20 ∧
    ((recorded (cleanCmd (sampleWorld (.ok sampleTargets) (.error "none") true)
        { cleanYes := true } 0).events).map (·.BytesFreed)).sum = 20 := by
  decide

end Macbroom
